import Mathlib

/-!
# Apophenia maximum-likelihood adapters (`src/lib/likelihoods.c`)

A shallow embedding of the likelihood and gradient functions of the Probit,
Waring, Yule and Zipf families.

Conventions of the embedding.

* The C types `float`, `double` and `long double` are an ordered field `α`
  with exact arithmetic; rounding is outside the model.  The sentinel
  `GSL_POSINF` is the top element of `WithTop α`.
* A function whose name ends in `_float` is the function of the same name in
  which the conversion made by the declarations `float bb = ...` and
  `float a = ...` of the parameters is written out, as an explicit function
  `to_float`; the arithmetic after the conversion stays exact.
  `float_of_double` is that conversion in IEEE 754 single precision.
* The special functions of the C library and of the GSL (`log`,
  `gsl_sf_lngamma`, `gsl_sf_psi`, `gsl_cdf_gaussian_P`,
  `gsl_ran_gaussian_pdf`) are not part of the repository; every function
  that calls one takes it as an explicit argument of the same name.
* `gsl_vector` and `gsl_matrix` are a size together with an accessor.
* A C `for (i = lo; i < hi; i++)` loop is `forLoop lo hi body init`, a left
  fold of the loop body over `lo, lo+1, ..., hi-1`.
* The two globals of the Probit section are the record `Globals`; a function
  that reads or writes them takes and returns that record.  A freed or never
  allocated `beta_dot_x` is `none`, reading through it has no result.
* The minimizers of the GSL are not part of the repository either: a driver
  takes a record of arbitrary functions, one per GSL operation it calls, over an
  arbitrary type of minimizer states.  A driver loop keeps, next to the
  variables of the source, the lines printed and one record per pass (the
  status of the step and, when it was made, of the convergence test).
* A function whose name ends in `_traced` is the function of the same name,
  returning in addition the list of the calls of special functions and of the
  divisions it makes, in order.
-/

namespace Apophenia

/-! ## Containers -/

/-- The GSL vector: `size` entries read through `data`. -/
structure gsl_vector (α : Type) where
  size : Nat
  data : Nat → α

/-- The GSL matrix: `size1` rows and `size2` columns read through `data`. -/
structure gsl_matrix (α : Type) where
  size1 : Nat
  size2 : Nat
  data : Nat → Nat → α

/-- Read entry `i` of a vector. -/
def gsl_vector_get {α : Type} (v : gsl_vector α) (i : Nat) : α :=
  v.data i

/-- Write entry `i` of a vector. -/
def gsl_vector_set {α : Type} (v : gsl_vector α) (i : Nat) (x : α) : gsl_vector α :=
  { v with data := Function.update v.data i x }

/-- Read entry `(i, j)` of a matrix. -/
def gsl_matrix_get {α : Type} (m : gsl_matrix α) (i j : Nat) : α :=
  m.data i j

/-- The view of `n1` rows and `n2` columns of `m` whose upper left corner is `(k1, k2)`. -/
def gsl_matrix_submatrix {α : Type} (m : gsl_matrix α) (k1 k2 n1 n2 : Nat) : gsl_matrix α :=
  { size1 := n1, size2 := n2, data := fun i j => m.data (k1 + i) (k2 + j) }

/-- A fresh vector of `n` entries.  Its contents are unspecified in C; the only
caller hands it to `gsl_blas_dgemv` with the scale `0.0`. -/
def gsl_vector_alloc {α : Type} [Zero α] (n : Nat) : gsl_vector α :=
  { size := n, data := fun _ => 0 }

/-- The BLAS level-2 product without transposition, `y := alpha * A x + beta * y`. -/
def gsl_blas_dgemv {α : Type} [Add α] [Mul α] [Zero α]
    (alpha : α) (A : gsl_matrix α) (x : gsl_vector α) (beta : α) (y : gsl_vector α) :
    gsl_vector α :=
  { size := y.size
    data := fun i =>
      alpha * ((List.range A.size2).map (fun j => A.data i j * x.data j)).sum + beta * y.data i }

/-- A vector given by the list of its entries. -/
def gsl_vector.ofList {α : Type} [Zero α] (l : List α) : gsl_vector α :=
  { size := l.length, data := fun i => l.getD i 0 }

/-- A matrix given by the list of its rows. -/
def gsl_matrix.ofRows {α : Type} [Zero α] (n1 n2 : Nat) (rows : List (List α)) : gsl_matrix α :=
  { size1 := n1, size2 := n2, data := fun i j => (rows.getD i []).getD j 0 }

/-- The loop `for (i = lo; i < hi; i++) state = body i state`. -/
def forLoop {σ : Type} (lo hi : Nat) (body : Nat → σ → σ) (init : σ) : σ :=
  (List.range' lo (hi - lo)).foldl (fun s i => body i s) init

/-- The constant `GSL_POSINF`. -/
def GSL_POSINF {α : Type} : WithTop α := ⊤

/-! ## The Waring, Yule and Zipf likelihoods -/

/-- The function `waring_likelihood` of `likelihoods.c`, the conversion of the
parameters to `float` taken as exact; `waring_likelihood_float` writes it out. -/
def waring_likelihood {α : Type} [LinearOrderedField α] (log gsl_sf_lngamma : α → α)
    (beta : gsl_vector α) (d : gsl_matrix α) : WithTop α :=
  let bb := gsl_vector_get beta 0
  let a := gsl_vector_get beta 1
  if bb ≤ 2 ∨ a ≤ -1 then GSL_POSINF else
  let data := d
  let ln_bb_a := gsl_sf_lngamma (bb + a)
  let ln_a_mas_1 := gsl_sf_lngamma (a + 1)
  let ln_bb_less_1 := log (bb - 1)
  let likelihood : α :=
    forLoop 1 data.size2 (fun k likelihood =>
      forLoop 0 data.size1 (fun i likelihood =>
        let ln_bb_a_k := gsl_sf_lngamma ((k : α) + a + bb)
        let ln_a_k := gsl_sf_lngamma ((k : α) + a)
        likelihood + gsl_matrix_get data i k *
          (ln_bb_less_1 + ln_a_k + ln_bb_a - ln_a_mas_1 - ln_bb_a_k)) likelihood) 0
  ((-likelihood : α) : WithTop α)

/-- The function `yule_likelihood` of `likelihoods.c`, the conversion of the
parameter to `float` taken as exact; `yule_likelihood_float` writes it out. -/
def yule_likelihood {α : Type} [LinearOrderedField α] (log gsl_sf_lngamma : α → α)
    (beta : gsl_vector α) (d : gsl_matrix α) : WithTop α :=
  let bb := gsl_vector_get beta 0
  if bb ≤ 2 then GSL_POSINF else
  let data := d
  let ln_bb := gsl_sf_lngamma bb
  let ln_bb_less_1 := log (bb - 1)
  let likelihood : α :=
    forLoop 1 data.size2 (fun k likelihood =>
      forLoop 0 data.size1 (fun i likelihood =>
        let ln_k : α := if k > 1 then gsl_sf_lngamma (k : α) else 0
        let ln_bb_k := gsl_sf_lngamma ((k : α) + bb)
        likelihood + gsl_matrix_get data i k * (ln_bb_less_1 + ln_k + ln_bb - ln_bb_k))
        likelihood) 0
  ((-likelihood : α) : WithTop α)

/-- The function `zipf_likelihood` of `likelihoods.c`, the conversion of the
parameter to `float` taken as exact; `zipf_likelihood_float` writes it out. -/
def zipf_likelihood {α : Type} [LinearOrderedField α] (log : α → α)
    (beta : gsl_vector α) (d : gsl_matrix α) : WithTop α :=
  let bb := gsl_vector_get beta 0
  if bb ≤ 1 then GSL_POSINF else
  let data := d
  let ln_c := log bb
  let ln_ln_c := log ln_c
  let llikelihood : α :=
    forLoop 1 data.size1 (fun i llikelihood =>
      forLoop 0 data.size2 (fun k llikelihood =>
        llikelihood + gsl_matrix_get data i k * (ln_ln_c - ln_c * (k : α))) llikelihood) 0
  ((-llikelihood : α) : WithTop α)

/-- The function `d_waring_likelihood` of `likelihoods.c`.  The loop state is the
pair `(d_bb, d_a)`; the function returns the gradient vector it has written. -/
def d_waring_likelihood {α : Type} [LinearOrderedField α] (gsl_sf_psi : α → α)
    (beta : gsl_vector α) (d : gsl_matrix α) (gradient : gsl_vector α) : gsl_vector α :=
  let bb := gsl_vector_get beta 0
  let a := gsl_vector_get beta 1
  let data := d
  let bb_minus_one_inv := 1 / (bb - 1)
  let psi_a_bb := gsl_sf_psi (bb + a)
  let sums : α × α :=
    forLoop 1 data.size2 (fun k sums =>
      forLoop 0 data.size1 (fun i sums =>
        let psi_bb_a_k := gsl_sf_psi ((k : α) + a + bb)
        let psi_a_k := gsl_sf_psi ((k : α) + a)
        let d_a := sums.2 + gsl_matrix_get data i k * (psi_a_k + psi_a_k - psi_bb_a_k)
        let d_bb := sums.1 + gsl_matrix_get data i k * (bb_minus_one_inv + psi_a_bb - psi_bb_a_k)
        (d_bb, d_a)) sums) (0, 0)
  let d_bb := sums.1
  let d_a := sums.2
  let gradient := gsl_vector_set gradient 0 (-d_a)
  gsl_vector_set gradient 1 (-d_bb)

/-! ## The Probit model -/

/-- The two globals of the Probit section: the cached linear predictor
`beta_dot_x` (`none` when it points to no live vector) and the flag
`beta_dot_x_is_current`. -/
structure Globals (α : Type) where
  beta_dot_x : Option (gsl_vector α)
  beta_dot_x_is_current : Int

/-- The function `dot` of `likelihoods.c`: stores the product of the covariate
columns `1 .. size2-1` with `beta` in the global `beta_dot_x`. -/
def dot {α : Type} [LinearOrderedField α] (beta : gsl_vector α) (data : gsl_matrix α)
    (g : Globals α) : Globals α :=
  let p := gsl_matrix_submatrix data 0 1 data.size1 (data.size2 - 1)
  { g with beta_dot_x := some (gsl_blas_dgemv 1 p beta 0 (gsl_vector_alloc data.size1)) }

/-- The function `probit_likelihood` of `likelihoods.c`. -/
def probit_likelihood {α : Type} [LinearOrderedField α] (log : α → α)
    (gsl_cdf_gaussian_P : α → α → α) (beta : gsl_vector α) (d : gsl_matrix α)
    (g : Globals α) : Option (WithTop α × Globals α) := do
  let data := d
  let g := dot beta data g
  let beta_dot_x ← g.beta_dot_x
  let total_prob : α :=
    forLoop 0 data.size1 (fun i total_prob =>
      let n := gsl_cdf_gaussian_P (gsl_vector_get beta_dot_x i) 1
      if gsl_matrix_get data i 0 = 0 then total_prob + log n
      else total_prob + log (1 - n)) 0
  pure (((-total_prob : α) : WithTop α), g)

/-- The function `d_probit_likelihood` of `likelihoods.c`; it returns the gradient
vector it has written and the globals it leaves (`beta_dot_x` freed). -/
def d_probit_likelihood {α : Type} [LinearOrderedField α]
    (gsl_cdf_gaussian_P gsl_ran_gaussian_pdf : α → α → α)
    (beta : gsl_vector α) (d : gsl_matrix α) (gradient : gsl_vector α)
    (g : Globals α) : Option (gsl_vector α × Globals α) := do
  let data := d
  let g := if g.beta_dot_x_is_current = 0 then dot beta data g else g
  let beta_dot_x ← g.beta_dot_x
  let gradient :=
    forLoop 0 beta.size (fun j gradient =>
      let beta_term_sum : α :=
        forLoop 0 data.size1 (fun i beta_term_sum =>
          let one_term := gsl_matrix_get data i (j + 1) *
            gsl_ran_gaussian_pdf (gsl_vector_get beta_dot_x i) 1
          let one_term :=
            if gsl_matrix_get data i 0 = 0 then
              one_term / gsl_cdf_gaussian_P (gsl_vector_get beta_dot_x i) 1
            else one_term / (gsl_cdf_gaussian_P (gsl_vector_get beta_dot_x i) 1 - 1)
          beta_term_sum + one_term) 0
      gsl_vector_set gradient j (-beta_term_sum)) gradient
  pure (gradient, { g with beta_dot_x := none })

/-! ## The Yule and Zipf gradients and the combined evaluators -/

/-- The function `d_yule_likelihood` of `likelihoods.c`; it returns the gradient
vector it has written. -/
def d_yule_likelihood {α : Type} [LinearOrderedField α] (gsl_sf_psi : α → α)
    (beta : gsl_vector α) (d : gsl_matrix α) (gradient : gsl_vector α) : gsl_vector α :=
  let bb := gsl_vector_get beta 0
  let data := d
  let bb_minus_one_inv := 1 / (bb - 1)
  let psi_bb := gsl_sf_psi bb
  let d_bb : α :=
    forLoop 1 data.size2 (fun k d_bb =>
      forLoop 0 data.size1 (fun i d_bb =>
        let psi_bb_k := gsl_sf_psi ((k : α) + bb)
        d_bb + gsl_matrix_get data i k * (bb_minus_one_inv + psi_bb - psi_bb_k)) d_bb) 0
  gsl_vector_set gradient 0 (-d_bb)

/-- The function `d_zipf_likelihood` of `likelihoods.c`; it returns the gradient
vector it has written. -/
def d_zipf_likelihood {α : Type} [LinearOrderedField α] (log : α → α)
    (beta : gsl_vector α) (d : gsl_matrix α) (gradient : gsl_vector α) : gsl_vector α :=
  let bb := gsl_vector_get beta 0
  let data := d
  let ln_c := log bb
  let d_likelihood : α :=
    forLoop 1 data.size1 (fun i d_likelihood =>
      forLoop 0 data.size2 (fun k d_likelihood =>
        d_likelihood + gsl_matrix_get data i k * (1 / ln_c - (k : α)) / bb) d_likelihood) 0
  gsl_vector_set gradient 0 (-d_likelihood)

/-- The function `probit_fdf` of `likelihoods.c`; it returns the value stored in
`*f`, the gradient written to `df` and the globals it leaves. -/
def probit_fdf {α : Type} [LinearOrderedField α] (log : α → α)
    (gsl_cdf_gaussian_P gsl_ran_gaussian_pdf : α → α → α)
    (beta : gsl_vector α) (d : gsl_matrix α) (df : gsl_vector α)
    (g : Globals α) : Option (WithTop α × gsl_vector α × Globals α) := do
  let (f, g) ← probit_likelihood log gsl_cdf_gaussian_P beta d g
  let g := { g with beta_dot_x_is_current := 1 }
  let (df, g) ← d_probit_likelihood gsl_cdf_gaussian_P gsl_ran_gaussian_pdf beta d df g
  let g := { g with beta_dot_x_is_current := 0 }
  pure (f, df, g)

/-- The function `waring_fdf` of `likelihoods.c`; it returns the value stored in
`*f` and the gradient written to `df`. -/
def waring_fdf {α : Type} [LinearOrderedField α] (log gsl_sf_lngamma gsl_sf_psi : α → α)
    (beta : gsl_vector α) (d : gsl_matrix α) (df : gsl_vector α) : WithTop α × gsl_vector α :=
  let f := waring_likelihood log gsl_sf_lngamma beta d
  let df := d_waring_likelihood gsl_sf_psi beta d df
  (f, df)

/-- The function `yule_fdf` of `likelihoods.c`; it returns the value stored in
`*f` and the gradient written to `df`. -/
def yule_fdf {α : Type} [LinearOrderedField α] (log gsl_sf_lngamma gsl_sf_psi : α → α)
    (beta : gsl_vector α) (d : gsl_matrix α) (df : gsl_vector α) : WithTop α × gsl_vector α :=
  let f := yule_likelihood log gsl_sf_lngamma beta d
  let df := d_yule_likelihood gsl_sf_psi beta d df
  (f, df)

/-- The function `zipf_fdf` of `likelihoods.c`; it returns the value stored in
`*f` and the gradient written to `df`. -/
def zipf_fdf {α : Type} [LinearOrderedField α] (log : α → α)
    (beta : gsl_vector α) (d : gsl_matrix α) (df : gsl_vector α) : WithTop α × gsl_vector α :=
  let f := zipf_likelihood log beta d
  let df := d_zipf_likelihood log beta d df
  (f, df)

/-! ## The maximum likelihood drivers -/

/-- The GSL status `GSL_SUCCESS`. -/
def GSL_SUCCESS : Int := 0

/-- The GSL status `GSL_CONTINUE`. -/
def GSL_CONTINUE : Int := -2

/-- The macro `MAX_ITERATIONS` of `likelihoods.h`. -/
def MAX_ITERATIONS : Nat := 500

/-- The macro `MAX_ITERATIONS_w_d` of `likelihoods.h`. -/
def MAX_ITERATIONS_w_d : Nat := 500

/-- The C type `double (*)(const gsl_vector *beta, void *d)` of a likelihood
function; the globals are threaded through the call. -/
abbrev likelihood_fn (α : Type) : Type :=
  gsl_vector α → gsl_matrix α → Globals α → Option (WithTop α × Globals α)

/-- The C type `void (*)(const gsl_vector *beta, void *d, gsl_vector *df)` of a
gradient function. -/
abbrev d_likelihood_fn (α : Type) : Type :=
  gsl_vector α → gsl_matrix α → gsl_vector α → Globals α → Option (gsl_vector α × Globals α)

/-- The C type `void (*)(const gsl_vector *beta, void *d, double *f, gsl_vector *df)`
of a combined evaluator. -/
abbrev fdf_fn (α : Type) : Type :=
  gsl_vector α → gsl_matrix α → gsl_vector α → Globals α →
    Option (WithTop α × gsl_vector α × Globals α)

/-- The GSL record `gsl_multimin_function_fdf`. -/
structure gsl_multimin_function_fdf (α : Type) where
  f : likelihood_fn α
  df : d_likelihood_fn α
  fdf : fdf_fn α
  n : Nat
  params : gsl_matrix α

/-- The GSL record `gsl_multimin_function`. -/
structure gsl_multimin_function (α : Type) where
  f : likelihood_fn α
  n : Nat
  params : gsl_matrix α

/-- The gradient-based minimizer of the GSL, which is not part of the repository:
a type `S` of minimizer states and the operations the driver calls on it, each an
arbitrary function.  The operations that call back into the model adapters take
and return the globals. -/
structure gsl_multimin_fdfminimizer (α S : Type) where
  gsl_multimin_fdfminimizer_alloc : Nat → S
  gsl_multimin_fdfminimizer_set :
    S → gsl_multimin_function_fdf α → gsl_vector α → α → α → Globals α → S × Globals α
  gsl_multimin_fdfminimizer_iterate : S → Globals α → Int × S × Globals α
  x : S → gsl_vector α
  f : S → α
  gradient : S → gsl_vector α
  gsl_multimin_test_gradient : gsl_vector α → α → Int

/-- The simplex minimizer of the GSL, which is not part of the repository: a type
`S` of minimizer states and the operations the driver calls on it, each an
arbitrary function. -/
structure gsl_multimin_fminimizer (α S : Type) where
  gsl_multimin_fminimizer_alloc : Nat → S
  gsl_multimin_fminimizer_set :
    S → gsl_multimin_function α → gsl_vector α → gsl_vector α → Globals α → S × Globals α
  gsl_multimin_fminimizer_iterate : S → Globals α → Int × S × Globals α
  gsl_multimin_fminimizer_size : S → α
  x : S → gsl_vector α
  fval : S → α
  gsl_multimin_test_size : α → α → Int

/-- Set every entry of a vector to `x`. -/
def gsl_vector_set_all {α : Type} (v : gsl_vector α) (x : α) : gsl_vector α :=
  { v with data := fun _ => x }

/-- Copy the entries of `src` into `dest`; the GSL reports an error when the two
lengths differ, in which case there is no result. -/
def gsl_vector_memcpy {α : Type} (dest src : gsl_vector α) : Option (gsl_vector α) :=
  if dest.size = src.size then some { dest with data := src.data } else none

/-- Modelled from the spec: `apop_convert_array_to_vector` is declared in
`conversions.h`, which is not among the sources; the specification says that a
supplied starting point is the point the minimizer starts from, so the vector
has `size` entries, those of the C array `in_`. -/
def apop_convert_array_to_vector {α : Type} (in_ : Nat → α) (size : Nat) : gsl_vector α :=
  { size := size, data := in_ }

/-- A line written by `printf`. -/
inductive Printed (α : Type) where
  /-- The line `Minimum found.` of `maximum_likelihood_w_d`. -/
  | minimum_found : Printed α
  /-- The line `iter, x[0], f` of `maximum_likelihood_w_d`. -/
  | iteration (iter : Nat) (x0 f : α) : Printed α
  /-- The line `No min!!` of `maximum_likelihood_w_d`. -/
  | no_min : Printed α
  /-- The line `iter, x[0..betasize-1], f()=fval size=size` of `maximum_likelihood`. -/
  | simplex_iteration (iter : Nat) (x : List α) (fval size : α) : Printed α
  /-- The line `Minimum found at:` of `maximum_likelihood`. -/
  | minimum_found_at : Printed α
  /-- The text `Minimization reached maximum number of iterations.` -/
  | reached_maximum : Printed α

/-- What one pass through the body of a driver loop did: the status returned by
the minimizer step, and the status returned by the convergence test when the
test was performed. -/
structure IterationRecord where
  step : Int
  test : Option Int
deriving DecidableEq

/-- The variables of a driver loop: the counter `iter`, `status`, the minimizer
`s`, the globals, the lines printed so far and the record of the passes made. -/
structure loop_state (α S : Type) where
  iter : Nat
  status : Int
  s : S
  g : Globals α
  out : List (Printed α)
  log : List IterationRecord

/-- The `do ... while` loop of `maximum_likelihood_w_d`. -/
def w_d_loop {α S : Type} [LinearOrderedField α] (M : gsl_multimin_fdfminimizer α S)
    (verbose : Int) (st : loop_state α S) : loop_state α S :=
  let iter := st.iter + 1
  let r := M.gsl_multimin_fdfminimizer_iterate st.s st.g
  let status := r.1
  let s := r.2.1
  let g := r.2.2
  if status ≠ 0 then
    { iter := iter, status := status, s := s, g := g, out := st.out,
      log := st.log ++ [{ step := status, test := none }] }
  else
    let status2 := M.gsl_multimin_test_gradient (M.gradient s) 0.0001
    let out :=
      if verbose ≠ 0 then
        (if status2 = GSL_SUCCESS then st.out ++ [Printed.minimum_found] else st.out)
          ++ [Printed.iteration iter (gsl_vector_get (M.x s) 0) (M.f s)]
      else st.out
    let st1 : loop_state α S :=
      { iter := iter, status := status2, s := s, g := g, out := out,
        log := st.log ++ [{ step := status, test := some status2 }] }
    if status2 = GSL_CONTINUE ∧ iter < MAX_ITERATIONS_w_d then w_d_loop M verbose st1
    else st1
termination_by MAX_ITERATIONS_w_d - st.iter
decreasing_by
  simp_wf
  omega

/-- The `do ... while` loop of `maximum_likelihood`. -/
def simplex_loop {α S : Type} [LinearOrderedField α] (M : gsl_multimin_fminimizer α S)
    (betasize : Nat) (verbose : Int) (st : loop_state α S) : loop_state α S :=
  let iter := st.iter + 1
  let r := M.gsl_multimin_fminimizer_iterate st.s st.g
  let status := r.1
  let s := r.2.1
  let g := r.2.2
  if status ≠ 0 then
    { iter := iter, status := status, s := s, g := g, out := st.out,
      log := st.log ++ [{ step := status, test := none }] }
  else
    let size := M.gsl_multimin_fminimizer_size s
    let status2 := M.gsl_multimin_test_size size 1e-3
    let out :=
      if verbose ≠ 0 then
        let line := Printed.simplex_iteration iter
          ((List.range betasize).map (fun i => gsl_vector_get (M.x s) i)) (M.fval s) size
        if status2 = GSL_SUCCESS then st.out ++ [line, Printed.minimum_found_at, line]
        else st.out ++ [line]
      else st.out
    let st1 : loop_state α S :=
      { iter := iter, status := status2, s := s, g := g, out := out,
        log := st.log ++ [{ step := status, test := some status2 }] }
    if status2 = GSL_CONTINUE ∧ iter < MAX_ITERATIONS then simplex_loop M betasize verbose st1
    else st1
termination_by MAX_ITERATIONS - st.iter
decreasing_by
  simp_wf
  omega

/-- What a driver hands back: the value it returns, the vector it stores in
`*betas`, the globals it leaves, and the lines printed, the final counter and the
record of the passes of its loop. -/
structure driver_result (α : Type) where
  value : WithTop α
  betas : gsl_vector α
  g : Globals α
  out : List (Printed α)
  iter : Nat
  log : List IterationRecord

/-- The part of `maximum_likelihood_w_d` before its loop: the state in which the
loop is entered.  The vector `ss` is filled with `step_size` and then never used. -/
def w_d_start {α S : Type} [LinearOrderedField α] (M : gsl_multimin_fdfminimizer α S)
    (data : gsl_matrix α) (betasize : Nat) (likelihood : likelihood_fn α)
    (d_likelihood : d_likelihood_fn α) (fdf : fdf_fn α) (starting_pt : Option (Nat → α))
    (step_size : α) (g : Globals α) : loop_state α S :=
  let s := M.gsl_multimin_fdfminimizer_alloc betasize
  let ss : gsl_vector α := gsl_vector_alloc betasize
  let x : gsl_vector α :=
    match starting_pt with
    | none => gsl_vector_set_all (gsl_vector_alloc betasize) 0
    | some p => apop_convert_array_to_vector p betasize
  let _ss := gsl_vector_set_all ss step_size
  let minme : gsl_multimin_function_fdf α :=
    { f := likelihood, df := d_likelihood, fdf := fdf, n := betasize, params := data }
  let r := M.gsl_multimin_fdfminimizer_set s minme x 0.001 0.0001 g
  { iter := 0, status := 0, s := r.1, g := r.2, out := [], log := [] }

/-- The function `maximum_likelihood_w_d` of `likelihoods.c`. -/
def maximum_likelihood_w_d {α S : Type} [LinearOrderedField α]
    (M : gsl_multimin_fdfminimizer α S)
    (data : gsl_matrix α) (betasize : Nat) (likelihood : likelihood_fn α)
    (d_likelihood : d_likelihood_fn α) (fdf : fdf_fn α) (starting_pt : Option (Nat → α))
    (step_size : α) (verbose : Int) (g : Globals α) : Option (driver_result α) := do
  let betas : gsl_vector α := gsl_vector_alloc betasize
  let st := w_d_loop M verbose
    (w_d_start M data betasize likelihood d_likelihood fdf starting_pt step_size g)
  let out := if st.iter = MAX_ITERATIONS_w_d then st.out ++ [Printed.no_min] else st.out
  let betas ← gsl_vector_memcpy betas (M.x st.s)
  let r ← likelihood betas data st.g
  pure { value := r.1, betas := betas, g := r.2, out := out, iter := st.iter, log := st.log }

/-- The part of `maximum_likelihood` before its loop: the state in which the loop
is entered.  The pointer `x` is not initialised when `starting_pt` is `NULL`, and
writing through it has no result. -/
def simplex_start {α S : Type} [LinearOrderedField α] (M : gsl_multimin_fminimizer α S)
    (data : gsl_matrix α) (betasize : Nat) (likelihood : likelihood_fn α)
    (starting_pt : Option (Nat → α)) (step_size : α) (g : Globals α) :
    Option (loop_state α S) := do
  let s := M.gsl_multimin_fminimizer_alloc betasize
  let ss : gsl_vector α := gsl_vector_alloc betasize
  let x : gsl_vector α ←
    match starting_pt with
    | none => none
    | some p => some (apop_convert_array_to_vector p betasize)
  let ss := gsl_vector_set_all ss step_size
  let minme : gsl_multimin_function α := { f := likelihood, n := betasize, params := data }
  let r := M.gsl_multimin_fminimizer_set s minme x ss g
  pure { iter := 0, status := 0, s := r.1, g := r.2, out := [], log := [] }

/-- The function `maximum_likelihood` of `likelihoods.c`. -/
def maximum_likelihood {α S : Type} [LinearOrderedField α]
    (M : gsl_multimin_fminimizer α S)
    (data : gsl_matrix α) (betasize : Nat) (likelihood : likelihood_fn α)
    (starting_pt : Option (Nat → α)) (step_size : α) (verbose : Int) (g : Globals α) :
    Option (driver_result α) := do
  let betas : gsl_vector α := gsl_vector_alloc betasize
  let st0 ← simplex_start M data betasize likelihood starting_pt step_size g
  let st := simplex_loop M betasize verbose st0
  let out :=
    if st.iter = MAX_ITERATIONS then st.out ++ [Printed.reached_maximum] else st.out
  let betas ← gsl_vector_memcpy betas (M.x st.s)
  let r ← likelihood betas data st.g
  pure { value := r.1, betas := betas, g := r.2, out := out, iter := st.iter, log := st.log }

/-- The function `apop_mle_probit` of `likelihoods.c`. -/
def apop_mle_probit {α S : Type} [LinearOrderedField α] (M : gsl_multimin_fdfminimizer α S)
    (log : α → α) (gsl_cdf_gaussian_P gsl_ran_gaussian_pdf : α → α → α)
    (data : gsl_matrix α) (starting_pt : Option (Nat → α)) (step_size : α) (verbose : Int)
    (g : Globals α) : Option (driver_result α) :=
  maximum_likelihood_w_d M data (data.size2 - 1)
    (probit_likelihood log gsl_cdf_gaussian_P)
    (d_probit_likelihood gsl_cdf_gaussian_P gsl_ran_gaussian_pdf)
    (probit_fdf log gsl_cdf_gaussian_P gsl_ran_gaussian_pdf)
    starting_pt step_size verbose g

/-- The function `apop_mle_waring` of `likelihoods.c`. -/
def apop_mle_waring {α S : Type} [LinearOrderedField α] (M : gsl_multimin_fdfminimizer α S)
    (log gsl_sf_lngamma gsl_sf_psi : α → α)
    (data : gsl_matrix α) (starting_pt : Option (Nat → α)) (step_size : α) (verbose : Int)
    (g : Globals α) : Option (driver_result α) :=
  maximum_likelihood_w_d M data 2
    (fun beta d g => some (waring_likelihood log gsl_sf_lngamma beta d, g))
    (fun beta d df g => some (d_waring_likelihood gsl_sf_psi beta d df, g))
    (fun beta d df g =>
      some ((waring_fdf log gsl_sf_lngamma gsl_sf_psi beta d df).1,
        (waring_fdf log gsl_sf_lngamma gsl_sf_psi beta d df).2, g))
    starting_pt step_size verbose g

/-- The function `apop_mle_yule` of `likelihoods.c`. -/
def apop_mle_yule {α S : Type} [LinearOrderedField α] (M : gsl_multimin_fdfminimizer α S)
    (log gsl_sf_lngamma gsl_sf_psi : α → α)
    (data : gsl_matrix α) (starting_pt : Option (Nat → α)) (step_size : α) (verbose : Int)
    (g : Globals α) : Option (driver_result α) :=
  maximum_likelihood_w_d M data 1
    (fun beta d g => some (yule_likelihood log gsl_sf_lngamma beta d, g))
    (fun beta d df g => some (d_yule_likelihood gsl_sf_psi beta d df, g))
    (fun beta d df g =>
      some ((yule_fdf log gsl_sf_lngamma gsl_sf_psi beta d df).1,
        (yule_fdf log gsl_sf_lngamma gsl_sf_psi beta d df).2, g))
    starting_pt step_size verbose g

/-- The function `apop_mle_zipf` of `likelihoods.c`. -/
def apop_mle_zipf {α S : Type} [LinearOrderedField α] (M : gsl_multimin_fdfminimizer α S)
    (log : α → α)
    (data : gsl_matrix α) (starting_pt : Option (Nat → α)) (step_size : α) (verbose : Int)
    (g : Globals α) : Option (driver_result α) :=
  maximum_likelihood_w_d M data 1
    (fun beta d g => some (zipf_likelihood log beta d, g))
    (fun beta d df g => some (d_zipf_likelihood log beta d df, g))
    (fun beta d df g => some ((zipf_fdf log beta d df).1, (zipf_fdf log beta d df).2, g))
    starting_pt step_size verbose g

/-- The shape of a run of a driver loop with iteration budget `max`, entered in
the state `st` and left in the state `fin`: `k` passes whose step succeeded and
whose convergence test said `GSL_CONTINUE`, then one last pass. -/
def loop_shape {α S : Type} (max : Nat) (st fin : loop_state α S) : Prop :=
  ∃ (k : Nat) (last : IterationRecord),
    fin.log = st.log ++ List.replicate k ⟨0, some GSL_CONTINUE⟩ ++ [last] ∧
    fin.iter = st.iter + k + 1 ∧
    (k = 0 ∨ st.iter + k < max) ∧
    ((last.step ≠ 0 ∧ last.test = none ∧ fin.status = last.step) ∨
     (last.step = 0 ∧ last.test = some fin.status ∧
        (fin.status ≠ GSL_CONTINUE ∨ max ≤ fin.iter)))

/-! ## Quantities named by the specification -/

/-- The linear predictor of row `i`: the dot product of the covariates of the row
(columns `1 .. beta.size`) with the parameters. -/
def linear_predictor {α : Type} [LinearOrderedField α] (beta : gsl_vector α)
    (d : gsl_matrix α) (i : Nat) : α :=
  ∑ j ∈ Finset.range beta.size, d.data i (j + 1) * beta.data j

/-- The Zipf negative log-likelihood in the words of the specification: minus the
sum, over every row `i` and every column `k`, of
`count(i,k) * [log(log(b)) - k * log(b)]`. -/
def zipf_likelihood_spec {α : Type} [LinearOrderedField α] (log : α → α)
    (beta : gsl_vector α) (d : gsl_matrix α) : α :=
  -(∑ i ∈ Finset.range d.size1, ∑ k ∈ Finset.range d.size2,
      d.data i k * (log (log (beta.data 0)) - (k : α) * log (beta.data 0)))

/-- The Waring negative log-likelihood under the data layout documented in
`likelihoods.h`: the column of index `c` counts the elements with `c + 1` links. -/
def waring_likelihood_header_layout {α : Type} [LinearOrderedField α]
    (log gsl_sf_lngamma : α → α) (beta : gsl_vector α) (d : gsl_matrix α) : α :=
  -(∑ i ∈ Finset.range d.size1, ∑ c ∈ Finset.range d.size2,
      d.data i c * (log (beta.data 0 - 1) + gsl_sf_lngamma (((c + 1 : Nat) : α) + beta.data 1)
        + gsl_sf_lngamma (beta.data 0 + beta.data 1) - gsl_sf_lngamma (beta.data 1 + 1)
        - gsl_sf_lngamma (((c + 1 : Nat) : α) + beta.data 1 + beta.data 0)))

/-- The Yule negative log-likelihood under the data layout documented in
`likelihoods.h`: the column of index `c` counts the elements with `c + 1` links. -/
def yule_likelihood_header_layout {α : Type} [LinearOrderedField α]
    (log gsl_sf_lngamma : α → α) (beta : gsl_vector α) (d : gsl_matrix α) : α :=
  -(∑ i ∈ Finset.range d.size1, ∑ c ∈ Finset.range d.size2,
      d.data i c * (log (beta.data 0 - 1)
        + (if c + 1 > 1 then gsl_sf_lngamma ((c + 1 : Nat) : α) else 0)
        + gsl_sf_lngamma (beta.data 0)
        - gsl_sf_lngamma (((c + 1 : Nat) : α) + beta.data 0)))

/-- The Zipf negative log-likelihood under the data layout documented in
`likelihoods.h`: the column of index `c` counts the elements with `c + 1` links. -/
def zipf_likelihood_header_layout {α : Type} [LinearOrderedField α] (log : α → α)
    (beta : gsl_vector α) (d : gsl_matrix α) : α :=
  -(∑ i ∈ Finset.range d.size1, ∑ c ∈ Finset.range d.size2,
      d.data i c * (log (log (beta.data 0)) - log (beta.data 0) * ((c + 1 : Nat) : α)))

/-- Component 0 of the Waring gradient as the specification states it, the partial
derivative in `b`: `-sum count(i,k) * [1/(b-1) + psi(b+a) - psi(k+a+b)]`. -/
def waring_gradient_spec_b {α : Type} [LinearOrderedField α] (gsl_sf_psi : α → α)
    (beta : gsl_vector α) (d : gsl_matrix α) : α :=
  -(∑ i ∈ Finset.range d.size1, ∑ k ∈ Finset.Ico 1 d.size2,
      d.data i k * (1 / (beta.data 0 - 1) + gsl_sf_psi (beta.data 0 + beta.data 1)
        - gsl_sf_psi ((k : α) + beta.data 1 + beta.data 0)))

/-- Component 1 of the Waring gradient as the specification states it, the partial
derivative in `a`:
`-sum count(i,k) * [psi(k+a) + psi(b+a) - psi(a+1) - psi(k+a+b)]`. -/
def waring_gradient_spec_a {α : Type} [LinearOrderedField α] (gsl_sf_psi : α → α)
    (beta : gsl_vector α) (d : gsl_matrix α) : α :=
  -(∑ i ∈ Finset.range d.size1, ∑ k ∈ Finset.Ico 1 d.size2,
      d.data i k * (gsl_sf_psi ((k : α) + beta.data 1)
        + gsl_sf_psi (beta.data 0 + beta.data 1) - gsl_sf_psi (beta.data 1 + 1)
        - gsl_sf_psi ((k : α) + beta.data 1 + beta.data 0)))

/-- The number returned by an evaluation of a likelihood function (0 when the
evaluation has no result or returns `GSL_POSINF`). -/
def returned_value {α : Type} [Zero α] (r : Option (WithTop α × Globals α)) : α :=
  match r with
  | some (x, _) => x.untop' 0
  | none => 0

/-- Component `j` of the Probit gradient in the words of the specification: minus
the sum over all rows `i` of `covariate(i,j) * normalPDF(p_i) / CDF(p_i)` when the
outcome of row `i` is 0 and of `covariate(i,j) * normalPDF(p_i) / (CDF(p_i) - 1)`
otherwise, `p_i` being the linear predictor of row `i`. -/
def probit_gradient_spec {α : Type} [LinearOrderedField α]
    (gsl_cdf_gaussian_P gsl_ran_gaussian_pdf : α → α → α)
    (beta : gsl_vector α) (d : gsl_matrix α) (j : Nat) : α :=
  -(∑ i ∈ Finset.range d.size1,
      if d.data i 0 = 0 then
        d.data i (j + 1) * gsl_ran_gaussian_pdf (linear_predictor beta d i) 1
          / gsl_cdf_gaussian_P (linear_predictor beta d i) 1
      else
        d.data i (j + 1) * gsl_ran_gaussian_pdf (linear_predictor beta d i) 1
          / (gsl_cdf_gaussian_P (linear_predictor beta d i) 1 - 1))

/-! ## The evaluations made by the count families -/

/-- An evaluation made while a function of the count families runs: a call of `log`,
of `gsl_sf_lngamma` or of `gsl_sf_psi` with its argument, or a division with its
numerator and denominator. -/
inductive Call (α : Type) where
  | log (x : α) : Call α
  | lngamma (x : α) : Call α
  | psi (x : α) : Call α
  | div (num den : α) : Call α

/-- An evaluation is in domain when the argument of `log`, `gsl_sf_lngamma` or
`gsl_sf_psi` is strictly positive, or the denominator of a division is not zero. -/
def Call.in_domain {α : Type} [LinearOrderedField α] : Call α → Prop
  | Call.log x => 0 < x
  | Call.lngamma x => 0 < x
  | Call.psi x => 0 < x
  | Call.div _ den => den ≠ 0

/-- The function `waring_likelihood` of `likelihoods.c` together with the list of
the evaluations it makes, in order. -/
def waring_likelihood_traced {α : Type} [LinearOrderedField α] (log gsl_sf_lngamma : α → α)
    (beta : gsl_vector α) (d : gsl_matrix α) : WithTop α × List (Call α) :=
  let bb := gsl_vector_get beta 0
  let a := gsl_vector_get beta 1
  if bb ≤ 2 ∨ a ≤ -1 then (GSL_POSINF, []) else
  let data := d
  let ln_bb_a := gsl_sf_lngamma (bb + a)
  let ln_a_mas_1 := gsl_sf_lngamma (a + 1)
  let ln_bb_less_1 := log (bb - 1)
  let calls : List (Call α) := [Call.lngamma (bb + a), Call.lngamma (a + 1), Call.log (bb - 1)]
  let st : α × List (Call α) :=
    forLoop 1 data.size2 (fun k st =>
      forLoop 0 data.size1 (fun i st =>
        let ln_bb_a_k := gsl_sf_lngamma ((k : α) + a + bb)
        let ln_a_k := gsl_sf_lngamma ((k : α) + a)
        (st.1 + gsl_matrix_get data i k *
            (ln_bb_less_1 + ln_a_k + ln_bb_a - ln_a_mas_1 - ln_bb_a_k),
          st.2 ++ [Call.lngamma ((k : α) + a + bb), Call.lngamma ((k : α) + a)])) st)
      (0, calls)
  (((-st.1 : α) : WithTop α), st.2)

/-- The function `yule_likelihood` of `likelihoods.c` together with the list of the
evaluations it makes, in order. -/
def yule_likelihood_traced {α : Type} [LinearOrderedField α] (log gsl_sf_lngamma : α → α)
    (beta : gsl_vector α) (d : gsl_matrix α) : WithTop α × List (Call α) :=
  let bb := gsl_vector_get beta 0
  if bb ≤ 2 then (GSL_POSINF, []) else
  let data := d
  let ln_bb := gsl_sf_lngamma bb
  let ln_bb_less_1 := log (bb - 1)
  let calls : List (Call α) := [Call.lngamma bb, Call.log (bb - 1)]
  let st : α × List (Call α) :=
    forLoop 1 data.size2 (fun k st =>
      forLoop 0 data.size1 (fun i st =>
        let ln_k : α := if k > 1 then gsl_sf_lngamma (k : α) else 0
        let ln_bb_k := gsl_sf_lngamma ((k : α) + bb)
        (st.1 + gsl_matrix_get data i k * (ln_bb_less_1 + ln_k + ln_bb - ln_bb_k),
          st.2 ++ (if k > 1 then [Call.lngamma (k : α)] else [])
            ++ [Call.lngamma ((k : α) + bb)])) st)
      (0, calls)
  (((-st.1 : α) : WithTop α), st.2)

/-- The function `zipf_likelihood` of `likelihoods.c` together with the list of the
evaluations it makes, in order. -/
def zipf_likelihood_traced {α : Type} [LinearOrderedField α] (log : α → α)
    (beta : gsl_vector α) (d : gsl_matrix α) : WithTop α × List (Call α) :=
  let bb := gsl_vector_get beta 0
  if bb ≤ 1 then (GSL_POSINF, []) else
  let data := d
  let ln_c := log bb
  let ln_ln_c := log ln_c
  let calls : List (Call α) := [Call.log bb, Call.log ln_c]
  let llikelihood : α :=
    forLoop 1 data.size1 (fun i llikelihood =>
      forLoop 0 data.size2 (fun k llikelihood =>
        llikelihood + gsl_matrix_get data i k * (ln_ln_c - ln_c * (k : α))) llikelihood) 0
  (((-llikelihood : α) : WithTop α), calls)

/-- The function `d_waring_likelihood` of `likelihoods.c` together with the list of
the evaluations it makes, in order. -/
def d_waring_likelihood_traced {α : Type} [LinearOrderedField α] (gsl_sf_psi : α → α)
    (beta : gsl_vector α) (d : gsl_matrix α) (gradient : gsl_vector α) :
    gsl_vector α × List (Call α) :=
  let bb := gsl_vector_get beta 0
  let a := gsl_vector_get beta 1
  let data := d
  let bb_minus_one_inv := 1 / (bb - 1)
  let psi_a_bb := gsl_sf_psi (bb + a)
  let calls : List (Call α) := [Call.div 1 (bb - 1), Call.psi (bb + a)]
  let st : (α × α) × List (Call α) :=
    forLoop 1 data.size2 (fun k st =>
      forLoop 0 data.size1 (fun i st =>
        let psi_bb_a_k := gsl_sf_psi ((k : α) + a + bb)
        let psi_a_k := gsl_sf_psi ((k : α) + a)
        let d_a := st.1.2 + gsl_matrix_get data i k * (psi_a_k + psi_a_k - psi_bb_a_k)
        let d_bb := st.1.1 + gsl_matrix_get data i k * (bb_minus_one_inv + psi_a_bb - psi_bb_a_k)
        ((d_bb, d_a), st.2 ++ [Call.psi ((k : α) + a + bb), Call.psi ((k : α) + a)])) st)
      ((0, 0), calls)
  let d_bb := st.1.1
  let d_a := st.1.2
  let gradient := gsl_vector_set gradient 0 (-d_a)
  (gsl_vector_set gradient 1 (-d_bb), st.2)

/-- The function `d_yule_likelihood` of `likelihoods.c` together with the list of
the evaluations it makes, in order. -/
def d_yule_likelihood_traced {α : Type} [LinearOrderedField α] (gsl_sf_psi : α → α)
    (beta : gsl_vector α) (d : gsl_matrix α) (gradient : gsl_vector α) :
    gsl_vector α × List (Call α) :=
  let bb := gsl_vector_get beta 0
  let data := d
  let bb_minus_one_inv := 1 / (bb - 1)
  let psi_bb := gsl_sf_psi bb
  let calls : List (Call α) := [Call.div 1 (bb - 1), Call.psi bb]
  let st : α × List (Call α) :=
    forLoop 1 data.size2 (fun k st =>
      forLoop 0 data.size1 (fun i st =>
        let psi_bb_k := gsl_sf_psi ((k : α) + bb)
        (st.1 + gsl_matrix_get data i k * (bb_minus_one_inv + psi_bb - psi_bb_k),
          st.2 ++ [Call.psi ((k : α) + bb)])) st)
      (0, calls)
  (gsl_vector_set gradient 0 (-st.1), st.2)

/-- The function `d_zipf_likelihood` of `likelihoods.c` together with the list of
the evaluations it makes, in order. -/
def d_zipf_likelihood_traced {α : Type} [LinearOrderedField α] (log : α → α)
    (beta : gsl_vector α) (d : gsl_matrix α) (gradient : gsl_vector α) :
    gsl_vector α × List (Call α) :=
  let bb := gsl_vector_get beta 0
  let data := d
  let ln_c := log bb
  let calls : List (Call α) := [Call.log bb]
  let st : α × List (Call α) :=
    forLoop 1 data.size1 (fun i st =>
      forLoop 0 data.size2 (fun k st =>
        (st.1 + gsl_matrix_get data i k * (1 / ln_c - (k : α)) / bb,
          st.2 ++ [Call.div 1 ln_c,
            Call.div (gsl_matrix_get data i k * (1 / ln_c - (k : α))) bb])) st)
      (0, calls)
  (gsl_vector_set gradient 0 (-st.1), st.2)

/-- The function `waring_fdf` of `likelihoods.c` together with the list of the
evaluations it makes, in order. -/
def waring_fdf_traced {α : Type} [LinearOrderedField α] (log gsl_sf_lngamma gsl_sf_psi : α → α)
    (beta : gsl_vector α) (d : gsl_matrix α) (df : gsl_vector α) :
    (WithTop α × gsl_vector α) × List (Call α) :=
  let f := waring_likelihood_traced log gsl_sf_lngamma beta d
  let df := d_waring_likelihood_traced gsl_sf_psi beta d df
  ((f.1, df.1), f.2 ++ df.2)

/-- The function `yule_fdf` of `likelihoods.c` together with the list of the
evaluations it makes, in order. -/
def yule_fdf_traced {α : Type} [LinearOrderedField α] (log gsl_sf_lngamma gsl_sf_psi : α → α)
    (beta : gsl_vector α) (d : gsl_matrix α) (df : gsl_vector α) :
    (WithTop α × gsl_vector α) × List (Call α) :=
  let f := yule_likelihood_traced log gsl_sf_lngamma beta d
  let df := d_yule_likelihood_traced gsl_sf_psi beta d df
  ((f.1, df.1), f.2 ++ df.2)

/-- The function `zipf_fdf` of `likelihoods.c` together with the list of the
evaluations it makes, in order. -/
def zipf_fdf_traced {α : Type} [LinearOrderedField α] (log : α → α)
    (beta : gsl_vector α) (d : gsl_matrix α) (df : gsl_vector α) :
    (WithTop α × gsl_vector α) × List (Call α) :=
  let f := zipf_likelihood_traced log beta d
  let df := d_zipf_likelihood_traced log beta d df
  ((f.1, df.1), f.2 ++ df.2)

/-! ## Example inputs for the drivers -/

/-- An example of a gradient-based minimizer for the witnesses: its state counts
the steps taken, every step returns `status`, its point always has `n` entries
equal to 3, and its convergence test says `GSL_CONTINUE` until two steps have
been taken. -/
def example_fdfminimizer (status : Int) (n : Nat) : gsl_multimin_fdfminimizer ℚ Nat :=
  { gsl_multimin_fdfminimizer_alloc := fun _ => 0
    gsl_multimin_fdfminimizer_set := fun s _ _ _ _ g => (s, g)
    gsl_multimin_fdfminimizer_iterate := fun s g => (status, s + 1, g)
    x := fun _ => { size := n, data := fun _ => 3 }
    f := fun _ => 0
    gradient := fun s => { size := n, data := fun _ => (s : ℚ) }
    gsl_multimin_test_gradient := fun v _ => if v.data 0 < 2 then GSL_CONTINUE else GSL_SUCCESS }

/-- An example of a simplex minimizer for the witnesses: its state counts the steps
taken, every step returns `status`, its point always has `n` entries equal to 3,
and its convergence test says `GSL_CONTINUE` until two steps have been taken. -/
def example_fminimizer (status : Int) (n : Nat) : gsl_multimin_fminimizer ℚ Nat :=
  { gsl_multimin_fminimizer_alloc := fun _ => 0
    gsl_multimin_fminimizer_set := fun s _ _ _ g => (s, g)
    gsl_multimin_fminimizer_iterate := fun s g => (status, s + 1, g)
    gsl_multimin_fminimizer_size := fun s => (s : ℚ)
    x := fun _ => { size := n, data := fun _ => 3 }
    fval := fun _ => 0
    gsl_multimin_test_size := fun size _ => if size < 2 then GSL_CONTINUE else GSL_SUCCESS }

/-- An example of a likelihood function for the witnesses: the sum of the first
two parameters. -/
def example_likelihood : likelihood_fn ℚ :=
  fun beta _ g => some (((beta.data 0 + beta.data 1 : ℚ) : WithTop ℚ), g)

/-- An example of a gradient-based minimizer for a run of exactly `m` steps: its
state counts the steps taken, the steps before step `m` return 0 and step `m`
returns `last_step`, its point always has `n` entries equal to 3, and its
convergence test says `GSL_CONTINUE` until `m` steps have been taken and
`GSL_SUCCESS` from then on. -/
def example_fdfminimizer_run (m : Nat) (last_step : Int) (n : Nat) :
    gsl_multimin_fdfminimizer ℚ Nat :=
  { gsl_multimin_fdfminimizer_alloc := fun _ => 0
    gsl_multimin_fdfminimizer_set := fun s _ _ _ _ g => (s, g)
    gsl_multimin_fdfminimizer_iterate := fun s g => (if s + 1 < m then 0 else last_step, s + 1, g)
    x := fun _ => { size := n, data := fun _ => 3 }
    f := fun _ => 0
    gradient := fun s => { size := n, data := fun _ => (s : ℚ) }
    gsl_multimin_test_gradient :=
      fun v _ => if v.data 0 < (m : ℚ) then GSL_CONTINUE else GSL_SUCCESS }

/-- An example of a simplex minimizer for a run of exactly `m` steps: its state
counts the steps taken, the steps before step `m` return 0 and step `m` returns
`last_step`, its point always has `n` entries equal to 3, and its convergence
test says `GSL_CONTINUE` until `m` steps have been taken and `GSL_SUCCESS` from
then on. -/
def example_fminimizer_run (m : Nat) (last_step : Int) (n : Nat) :
    gsl_multimin_fminimizer ℚ Nat :=
  { gsl_multimin_fminimizer_alloc := fun _ => 0
    gsl_multimin_fminimizer_set := fun s _ _ _ g => (s, g)
    gsl_multimin_fminimizer_iterate := fun s g => (if s + 1 < m then 0 else last_step, s + 1, g)
    gsl_multimin_fminimizer_size := fun s => (s : ℚ)
    x := fun _ => { size := n, data := fun _ => 3 }
    fval := fun _ => 0
    gsl_multimin_test_size :=
      fun size _ => if size < (m : ℚ) then GSL_CONTINUE else GSL_SUCCESS }

/-- An example of a gradient-based minimizer that never leaves the point it was
set at: its state is that point, every step succeeds without moving, and its
convergence test says `GSL_SUCCESS`. -/
def example_fdfminimizer_stay (α : Type) [LinearOrderedField α] :
    gsl_multimin_fdfminimizer α (gsl_vector α) :=
  { gsl_multimin_fdfminimizer_alloc := fun n => gsl_vector_alloc n
    gsl_multimin_fdfminimizer_set := fun _ _ x _ _ g => (x, g)
    gsl_multimin_fdfminimizer_iterate := fun s g => (0, s, g)
    x := fun s => s
    f := fun _ => 0
    gradient := fun s => s
    gsl_multimin_test_gradient := fun _ _ => GSL_SUCCESS }

/-! ## The conversion to float -/

/-- The integer nearest to `y`, the even one of the two when `y` lies halfway
between two integers. -/
def round_half_even {α : Type} [LinearOrderedField α] [FloorRing α] (y : α) : Int :=
  let f := ⌊y⌋
  if y - (f : α) < 1 / 2 then f
  else if 1 / 2 < y - (f : α) then f + 1
  else if f % 2 = 0 then f else f + 1

/-- The conversion of a `double` to `float` that C performs at a declaration such
as `float bb = gsl_vector_get(beta, 0)`: the nearest number with a significand of
24 binary digits, ties to the even significand.  Below the normal range the step
is `2 ^ (-149)`; the exponent has no upper bound here, so a `double` beyond the
largest `float` is outside this definition. -/
def float_of_double {α : Type} [LinearOrderedField α] [FloorRing α] (x : α) : α :=
  let e : Int := max (Int.log 2 |x|) (-126)
  let ulp : α := (2 : α) ^ (e - 23)
  (round_half_even (x / ulp) : α) * ulp


/-- The function `waring_likelihood` of `likelihoods.c`, with the conversion made
by the declarations `float bb = gsl_vector_get(beta, 0), a = gsl_vector_get(beta, 1)`
written out: `to_float` is the conversion from `double` to `float`. -/
def waring_likelihood_float {α : Type} [LinearOrderedField α] (to_float : α → α)
    (log gsl_sf_lngamma : α → α) (beta : gsl_vector α) (d : gsl_matrix α) : WithTop α :=
  let bb := to_float (gsl_vector_get beta 0)
  let a := to_float (gsl_vector_get beta 1)
  if bb ≤ 2 ∨ a ≤ -1 then GSL_POSINF else
  let data := d
  let ln_bb_a := gsl_sf_lngamma (bb + a)
  let ln_a_mas_1 := gsl_sf_lngamma (a + 1)
  let ln_bb_less_1 := log (bb - 1)
  let likelihood : α :=
    forLoop 1 data.size2 (fun k likelihood =>
      forLoop 0 data.size1 (fun i likelihood =>
        let ln_bb_a_k := gsl_sf_lngamma ((k : α) + a + bb)
        let ln_a_k := gsl_sf_lngamma ((k : α) + a)
        likelihood + gsl_matrix_get data i k *
          (ln_bb_less_1 + ln_a_k + ln_bb_a - ln_a_mas_1 - ln_bb_a_k)) likelihood) 0
  ((-likelihood : α) : WithTop α)

/-- The function `yule_likelihood` of `likelihoods.c`, with the conversion made by
the declaration `float bb = gsl_vector_get(beta, 0)` written out. -/
def yule_likelihood_float {α : Type} [LinearOrderedField α] (to_float : α → α)
    (log gsl_sf_lngamma : α → α) (beta : gsl_vector α) (d : gsl_matrix α) : WithTop α :=
  let bb := to_float (gsl_vector_get beta 0)
  if bb ≤ 2 then GSL_POSINF else
  let data := d
  let ln_bb := gsl_sf_lngamma bb
  let ln_bb_less_1 := log (bb - 1)
  let likelihood : α :=
    forLoop 1 data.size2 (fun k likelihood =>
      forLoop 0 data.size1 (fun i likelihood =>
        let ln_k : α := if k > 1 then gsl_sf_lngamma (k : α) else 0
        let ln_bb_k := gsl_sf_lngamma ((k : α) + bb)
        likelihood + gsl_matrix_get data i k * (ln_bb_less_1 + ln_k + ln_bb - ln_bb_k))
        likelihood) 0
  ((-likelihood : α) : WithTop α)

/-- The function `zipf_likelihood` of `likelihoods.c`, with the conversion made by
the declaration `float bb = gsl_vector_get(beta, 0)` written out. -/
def zipf_likelihood_float {α : Type} [LinearOrderedField α] (to_float : α → α)
    (log : α → α) (beta : gsl_vector α) (d : gsl_matrix α) : WithTop α :=
  let bb := to_float (gsl_vector_get beta 0)
  if bb ≤ 1 then GSL_POSINF else
  let data := d
  let ln_c := log bb
  let ln_ln_c := log ln_c
  let llikelihood : α :=
    forLoop 1 data.size1 (fun i llikelihood =>
      forLoop 0 data.size2 (fun k llikelihood =>
        llikelihood + gsl_matrix_get data i k * (ln_ln_c - ln_c * (k : α))) llikelihood) 0
  ((-llikelihood : α) : WithTop α)

/-- The function `d_zipf_likelihood` of `likelihoods.c`, with the conversion made
by the declaration `float bb = gsl_vector_get(beta, 0)` written out; it returns
the gradient vector it has written. -/
def d_zipf_likelihood_float {α : Type} [LinearOrderedField α] (to_float : α → α)
    (log : α → α) (beta : gsl_vector α) (d : gsl_matrix α) (gradient : gsl_vector α) :
    gsl_vector α :=
  let bb := to_float (gsl_vector_get beta 0)
  let data := d
  let ln_c := log bb
  let d_likelihood : α :=
    forLoop 1 data.size1 (fun i d_likelihood =>
      forLoop 0 data.size2 (fun k d_likelihood =>
        d_likelihood + gsl_matrix_get data i k * (1 / ln_c - (k : α)) / bb) d_likelihood) 0
  gsl_vector_set gradient 0 (-d_likelihood)

/-! ## Loop lemmas -/

/-- A fold that adds `f i` at every index is the start value plus the sum. -/
theorem foldl_range'_add {α : Type} [AddCommMonoid α] (f : Nat → α) (n : Nat) :
    ∀ (lo : Nat) (init : α),
      (List.range' lo n).foldl (fun s i => s + f i) init
        = init + ∑ i ∈ Finset.range n, f (lo + i) := by
  induction n with
  | zero => intro lo init; simp
  | succ n ih =>
    intro lo init
    rw [List.range'_succ, List.foldl_cons, ih, Finset.sum_range_succ', add_assoc]
    congr 1
    rw [add_comm]
    congr 1
    · apply Finset.sum_congr rfl
      intro i _
      congr 1
      omega

/-- An accumulating `for` loop is the start value plus the sum over its range. -/
theorem forLoop_add {α : Type} [AddCommMonoid α] (f : Nat → α) (lo hi : Nat) (init : α) :
    forLoop lo hi (fun i s => s + f i) init = init + ∑ i ∈ Finset.Ico lo hi, f i := by
  unfold forLoop
  rw [foldl_range'_add, Finset.sum_Ico_eq_sum_range]

/-- Two nested accumulating loops are the double sum, in either order. -/
theorem forLoop_add_nested {α : Type} [AddCommMonoid α] (f : Nat → Nat → α)
    (lo hi lo2 hi2 : Nat) (init : α) :
    forLoop lo hi (fun k s => forLoop lo2 hi2 (fun i s => s + f i k) s) init
      = init + ∑ i ∈ Finset.Ico lo2 hi2, ∑ k ∈ Finset.Ico lo hi, f i k := by
  have h : (fun (k : Nat) (s : α) => forLoop lo2 hi2 (fun i s => s + f i k) s)
      = fun k s => s + ∑ i ∈ Finset.Ico lo2 hi2, f i k := by
    funext k s
    exact forLoop_add (fun i => f i k) lo2 hi2 s
  rw [h, forLoop_add, Finset.sum_comm]

/-- The sum of a mapped `List.range` is the sum over `Finset.range`. -/
theorem list_range_map_sum {α : Type} [AddCommMonoid α] (f : Nat → α) (n : Nat) :
    ((List.range n).map f).sum = ∑ i ∈ Finset.range n, f i := by
  induction n with
  | zero => simp
  | succ n ih => rw [List.range_succ, List.map_append, List.sum_append, ih,
      Finset.sum_range_succ]; simp

/-- A fold whose step acts on the two components of a pair separately is the
pair of the two folds. -/
theorem foldl_pair {σ τ : Type} (b1 : Nat → σ → σ) (b2 : Nat → τ → τ) (l : List Nat) :
    ∀ (x : σ) (y : τ),
      l.foldl (fun (s : σ × τ) i => (b1 i s.1, b2 i s.2)) (x, y)
        = (l.foldl (fun s i => b1 i s) x, l.foldl (fun s i => b2 i s) y) := by
  induction l with
  | nil => intro x y; rfl
  | cons i l ih => intro x y; simp only [List.foldl_cons, ih]

/-- Two nested loops that accumulate two sums in a pair. -/
theorem forLoop_add_nested_pair {α : Type} [AddCommMonoid α] (f1 f2 : Nat → Nat → α)
    (lo hi lo2 hi2 : Nat) :
    forLoop lo hi (fun k (s : α × α) =>
        forLoop lo2 hi2 (fun i (s : α × α) => (s.1 + f1 i k, s.2 + f2 i k)) s) (0, 0)
      = (∑ i ∈ Finset.Ico lo2 hi2, ∑ k ∈ Finset.Ico lo hi, f1 i k,
         ∑ i ∈ Finset.Ico lo2 hi2, ∑ k ∈ Finset.Ico lo hi, f2 i k) := by
  have hin : (fun (k : Nat) (s : α × α) =>
        forLoop lo2 hi2 (fun i (s : α × α) => (s.1 + f1 i k, s.2 + f2 i k)) s)
      = fun k s => (forLoop lo2 hi2 (fun i s => s + f1 i k) s.1,
          forLoop lo2 hi2 (fun i s => s + f2 i k) s.2) := by
    funext k s
    obtain ⟨x, y⟩ := s
    exact foldl_pair (fun i s => s + f1 i k) (fun i s => s + f2 i k) _ x y
  rw [hin]
  unfold forLoop
  rw [foldl_pair (fun k s => (List.range' lo2 (hi2 - lo2)).foldl (fun s i => s + f1 i k) s)
    (fun k s => (List.range' lo2 (hi2 - lo2)).foldl (fun s i => s + f2 i k) s)]
  have h1 := forLoop_add_nested f1 lo hi lo2 hi2 0
  have h2 := forLoop_add_nested f2 lo hi lo2 hi2 0
  unfold forLoop at h1 h2
  rw [h1, h2, zero_add, zero_add]

/-- A fold of `gsl_vector_set` over a list of indices: an index of the list holds
its new value, any other index keeps the old one. -/
theorem foldl_set_data {α : Type} (F : Nat → α) (l : List Nat) :
    ∀ (v : gsl_vector α) (j : Nat),
      (l.foldl (fun v j => gsl_vector_set v j (F j)) v).data j
        = if j ∈ l then F j else v.data j := by
  induction l with
  | nil => intro v j; simp
  | cons a l ih =>
    intro v j
    rw [List.foldl_cons, ih]
    by_cases hjl : j ∈ l
    · simp [hjl]
    · by_cases hja : j = a
      · subst hja
        simp [hjl, gsl_vector_set]
      · simp [hjl, hja, gsl_vector_set, Function.update_noteq hja]

/-- A loop that writes `F j` into every component `j < n` of a vector. -/
theorem forLoop_set_data {α : Type} (F : Nat → α) (n : Nat) (v : gsl_vector α) (j : Nat)
    (hj : j < n) :
    (forLoop 0 n (fun j v => gsl_vector_set v j (F j)) v).data j = F j := by
  unfold forLoop
  rw [foldl_set_data]
  simp [List.mem_range'_1, hj]

/-! ## The loops of the likelihood functions as sums -/

/-- Outside the guard `waring_likelihood` is minus a double sum. -/
theorem waring_likelihood_sum {α : Type} [LinearOrderedField α]
    (log gsl_sf_lngamma : α → α) (beta : gsl_vector α) (d : gsl_matrix α)
    (hb : 2 < beta.data 0) (ha : -1 < beta.data 1) :
    waring_likelihood log gsl_sf_lngamma beta d =
      ((-(∑ i ∈ Finset.range d.size1, ∑ k ∈ Finset.Ico 1 d.size2,
          d.data i k * (log (beta.data 0 - 1) + gsl_sf_lngamma ((k : α) + beta.data 1)
            + gsl_sf_lngamma (beta.data 0 + beta.data 1) - gsl_sf_lngamma (beta.data 1 + 1)
            - gsl_sf_lngamma ((k : α) + beta.data 1 + beta.data 0))) : α) : WithTop α) := by
  have hg : ¬ (beta.data 0 ≤ 2 ∨ beta.data 1 ≤ -1) := by
    rw [not_or, not_le, not_le]; exact ⟨hb, ha⟩
  simp only [waring_likelihood, gsl_vector_get, gsl_matrix_get, if_neg hg]
  rw [forLoop_add_nested (fun i k => d.data i k * (log (beta.data 0 - 1)
        + gsl_sf_lngamma ((k : α) + beta.data 1)
        + gsl_sf_lngamma (beta.data 0 + beta.data 1) - gsl_sf_lngamma (beta.data 1 + 1)
        - gsl_sf_lngamma ((k : α) + beta.data 1 + beta.data 0))), zero_add,
    Finset.range_eq_Ico]

/-- Outside the guard `yule_likelihood` is minus a double sum. -/
theorem yule_likelihood_sum {α : Type} [LinearOrderedField α]
    (log gsl_sf_lngamma : α → α) (beta : gsl_vector α) (d : gsl_matrix α)
    (hb : 2 < beta.data 0) :
    yule_likelihood log gsl_sf_lngamma beta d =
      ((-(∑ i ∈ Finset.range d.size1, ∑ k ∈ Finset.Ico 1 d.size2,
          d.data i k * (log (beta.data 0 - 1)
            + (if k > 1 then gsl_sf_lngamma (k : α) else 0)
            + gsl_sf_lngamma (beta.data 0)
            - gsl_sf_lngamma ((k : α) + beta.data 0))) : α) : WithTop α) := by
  simp only [yule_likelihood, gsl_vector_get, gsl_matrix_get, if_neg (not_le.mpr hb)]
  rw [forLoop_add_nested (fun i k => d.data i k * (log (beta.data 0 - 1)
        + (if k > 1 then gsl_sf_lngamma (k : α) else 0)
        + gsl_sf_lngamma (beta.data 0)
        - gsl_sf_lngamma ((k : α) + beta.data 0))), zero_add, Finset.range_eq_Ico]

/-- Outside the guard `zipf_likelihood` is minus a double sum; the rows start at 1. -/
theorem zipf_likelihood_sum {α : Type} [LinearOrderedField α]
    (log : α → α) (beta : gsl_vector α) (d : gsl_matrix α) (hb : 1 < beta.data 0) :
    zipf_likelihood log beta d =
      ((-(∑ i ∈ Finset.Ico 1 d.size1, ∑ k ∈ Finset.range d.size2,
          d.data i k * (log (log (beta.data 0)) - log (beta.data 0) * (k : α))) : α) :
        WithTop α) := by
  simp only [zipf_likelihood, gsl_vector_get, gsl_matrix_get, if_neg (not_le.mpr hb)]
  rw [forLoop_add_nested (fun k i => d.data i k * (log (log (beta.data 0))
        - log (beta.data 0) * (k : α))), zero_add, Finset.range_eq_Ico, Finset.sum_comm]

/-- The vector stored by `dot` holds the linear predictor of every row. -/
theorem dot_beta_dot_x {α : Type} [LinearOrderedField α] (beta : gsl_vector α)
    (d : gsl_matrix α) (g : Globals α) (hsize : beta.size = d.size2 - 1) :
    ∃ v : gsl_vector α, (dot beta d g).beta_dot_x = some v ∧
      ∀ i, v.data i = linear_predictor beta d i := by
  refine ⟨_, rfl, fun i => ?_⟩
  simp only [gsl_blas_dgemv, gsl_matrix_submatrix, gsl_vector_alloc, linear_predictor,
    list_range_map_sum, hsize, one_mul, mul_zero, add_zero, zero_add]
  apply Finset.sum_congr rfl
  intro j _
  rw [add_comm 1 j]

/-- The loop of `probit_likelihood` over a given predictor vector, as a sum. -/
theorem probit_loop_sum {α : Type} [LinearOrderedField α] (log : α → α)
    (gsl_cdf_gaussian_P : α → α → α) (d : gsl_matrix α) (v : gsl_vector α) :
    forLoop 0 d.size1 (fun i total_prob =>
        if gsl_matrix_get d i 0 = 0
        then total_prob + log (gsl_cdf_gaussian_P (gsl_vector_get v i) 1)
        else total_prob + log (1 - gsl_cdf_gaussian_P (gsl_vector_get v i) 1)) (0 : α)
      = ∑ i ∈ Finset.range d.size1,
          if d.data i 0 = 0 then log (gsl_cdf_gaussian_P (v.data i) 1)
          else log (1 - gsl_cdf_gaussian_P (v.data i) 1) := by
  have h : (fun (i : Nat) (total_prob : α) =>
        if gsl_matrix_get d i 0 = 0
        then total_prob + log (gsl_cdf_gaussian_P (gsl_vector_get v i) 1)
        else total_prob + log (1 - gsl_cdf_gaussian_P (gsl_vector_get v i) 1))
      = fun i total_prob => total_prob +
          (if d.data i 0 = 0 then log (gsl_cdf_gaussian_P (v.data i) 1)
           else log (1 - gsl_cdf_gaussian_P (v.data i) 1)) := by
    funext i total_prob
    simp only [gsl_matrix_get, gsl_vector_get]
    split_ifs <;> rfl
  rw [h, forLoop_add, zero_add, Finset.range_eq_Ico]

/-- The value of `probit_likelihood` as minus a sum over the rows; the globals it
leaves are those left by `dot`. -/
theorem probit_likelihood_sum {α : Type} [LinearOrderedField α] (log : α → α)
    (gsl_cdf_gaussian_P : α → α → α) (beta : gsl_vector α) (d : gsl_matrix α)
    (g : Globals α) (hsize : beta.size = d.size2 - 1) :
    probit_likelihood log gsl_cdf_gaussian_P beta d g =
      some (((-(∑ i ∈ Finset.range d.size1,
          if d.data i 0 = 0 then log (gsl_cdf_gaussian_P (linear_predictor beta d i) 1)
          else log (1 - gsl_cdf_gaussian_P (linear_predictor beta d i) 1)) : α) : WithTop α),
        dot beta d g) := by
  obtain ⟨v, hv, hvi⟩ := dot_beta_dot_x beta d g hsize
  simp only [probit_likelihood, hv, Option.bind_eq_bind, Option.some_bind, Option.pure_def,
    probit_loop_sum, hvi]

/-- The value of the real Gamma function at 3. -/
theorem real_Gamma_three : Real.Gamma 3 = 2 := by
  rw [show (3 : ℝ) = ((2 : ℕ) : ℝ) + 1 by norm_num, Real.Gamma_nat_eq_factorial]
  norm_num [Nat.factorial]

/-- The value of the real Gamma function at 4. -/
theorem real_Gamma_four : Real.Gamma 4 = 6 := by
  rw [show (4 : ℝ) = ((3 : ℕ) : ℝ) + 1 by norm_num, Real.Gamma_nat_eq_factorial]
  norm_num [Nat.factorial]

/-- The identity `log 2 + log 2 - log 6 = -log (3/2)`. -/
theorem log_two_two_six : Real.log 2 + Real.log 2 - Real.log 6 = -Real.log (3 / 2) := by
  have h6 : Real.log 6 = Real.log 2 + Real.log 3 := by
    rw [← Real.log_mul (by norm_num) (by norm_num)]; norm_num
  have h32 : Real.log (3 / 2) = Real.log 3 - Real.log 2 :=
    Real.log_div (by norm_num) (by norm_num)
  rw [h6, h32]; ring

/-- The logarithm of `log 2` is negative, since `0 < log 2 < 1`. -/
theorem log_log_two_neg : Real.log (Real.log 2) < 0 := by
  apply Real.log_neg (Real.log_pos (by norm_num))
  have h := Real.log_two_lt_d9
  linarith

/-- The two sums accumulated by `d_waring_likelihood` and where it writes them:
component 0 receives minus `d_a`, component 1 receives minus `d_bb`. -/
theorem d_waring_likelihood_sum {α : Type} [LinearOrderedField α] (gsl_sf_psi : α → α)
    (beta : gsl_vector α) (d : gsl_matrix α) (gradient : gsl_vector α) :
    (d_waring_likelihood gsl_sf_psi beta d gradient).data 0 =
      -(∑ i ∈ Finset.range d.size1, ∑ k ∈ Finset.Ico 1 d.size2,
        d.data i k * (gsl_sf_psi ((k : α) + beta.data 1) + gsl_sf_psi ((k : α) + beta.data 1)
          - gsl_sf_psi ((k : α) + beta.data 1 + beta.data 0))) ∧
    (d_waring_likelihood gsl_sf_psi beta d gradient).data 1 =
      -(∑ i ∈ Finset.range d.size1, ∑ k ∈ Finset.Ico 1 d.size2,
        d.data i k * (1 / (beta.data 0 - 1) + gsl_sf_psi (beta.data 0 + beta.data 1)
          - gsl_sf_psi ((k : α) + beta.data 1 + beta.data 0))) := by
  unfold d_waring_likelihood gsl_vector_set gsl_vector_get gsl_matrix_get
  dsimp only
  rw [forLoop_add_nested_pair
    (fun i k => d.data i k * (1 / (beta.data 0 - 1) + gsl_sf_psi (beta.data 0 + beta.data 1)
          - gsl_sf_psi ((k : α) + beta.data 1 + beta.data 0)))
    (fun i k => d.data i k * (gsl_sf_psi ((k : α) + beta.data 1)
          + gsl_sf_psi ((k : α) + beta.data 1)
          - gsl_sf_psi ((k : α) + beta.data 1 + beta.data 0)))]
  refine ⟨?_, ?_⟩
  · rw [Function.update_noteq (by decide : (0 : Nat) ≠ 1), Function.update_same,
      Finset.range_eq_Ico]
  · rw [Function.update_same, Finset.range_eq_Ico]

/-- The component `j` written by the loops of `d_probit_likelihood` over a given
predictor vector. -/
theorem d_probit_loops {α : Type} [LinearOrderedField α]
    (gsl_cdf_gaussian_P gsl_ran_gaussian_pdf : α → α → α)
    (beta : gsl_vector α) (d : gsl_matrix α) (gradient v : gsl_vector α)
    (hv : ∀ i, v.data i = linear_predictor beta d i) (j : Nat) (hj : j < beta.size) :
    (forLoop 0 beta.size (fun j gradient =>
        gsl_vector_set gradient j
          (-(forLoop 0 d.size1 (fun i beta_term_sum =>
              beta_term_sum +
                (if gsl_matrix_get d i 0 = 0 then
                  gsl_matrix_get d i (j + 1) * gsl_ran_gaussian_pdf (gsl_vector_get v i) 1
                    / gsl_cdf_gaussian_P (gsl_vector_get v i) 1
                else
                  gsl_matrix_get d i (j + 1) * gsl_ran_gaussian_pdf (gsl_vector_get v i) 1
                    / (gsl_cdf_gaussian_P (gsl_vector_get v i) 1 - 1))) (0 : α))))
        gradient).data j
      = probit_gradient_spec gsl_cdf_gaussian_P gsl_ran_gaussian_pdf beta d j := by
  rw [forLoop_set_data _ _ _ _ hj, forLoop_add, zero_add, ← Finset.range_eq_Ico]
  simp only [probit_gradient_spec, gsl_matrix_get, gsl_vector_get, hv]

/-- The component `j` of the gradient written by `d_probit_likelihood`, when the
flag is clear or the cached vector is the predictor of these parameters. -/
theorem d_probit_likelihood_sum {α : Type} [LinearOrderedField α]
    (gsl_cdf_gaussian_P gsl_ran_gaussian_pdf : α → α → α)
    (beta : gsl_vector α) (d : gsl_matrix α) (gradient : gsl_vector α) (g : Globals α)
    (hsize : beta.size = d.size2 - 1)
    (hstate : g.beta_dot_x_is_current = 0 ∨
      ∃ v, g.beta_dot_x = some v ∧ ∀ i, v.data i = linear_predictor beta d i)
    (j : Nat) (hj : j < beta.size) :
    (d_probit_likelihood gsl_cdf_gaussian_P gsl_ran_gaussian_pdf beta d gradient g).map
        (fun r => r.1.data j)
      = some (probit_gradient_spec gsl_cdf_gaussian_P gsl_ran_gaussian_pdf beta d j) := by
  have hg1 : ∃ v, (if g.beta_dot_x_is_current = 0 then dot beta d g else g).beta_dot_x
      = some v ∧ ∀ i, v.data i = linear_predictor beta d i := by
    by_cases hflag : g.beta_dot_x_is_current = 0
    · rw [if_pos hflag]
      exact dot_beta_dot_x beta d g hsize
    · rw [if_neg hflag]
      rcases hstate with h | h
      · exact absurd h hflag
      · exact h
  obtain ⟨v, hv, hvi⟩ := hg1
  simp only [d_probit_likelihood, hv, Option.bind_eq_bind, Option.some_bind, Option.pure_def,
    Option.map_some']
  rw [d_probit_loops gsl_cdf_gaussian_P gsl_ran_gaussian_pdf beta d gradient v hvi j hj]

/-- The sum accumulated by `d_zipf_likelihood`, written to component 0; the rows
start at 1. -/
theorem d_zipf_likelihood_sum {α : Type} [LinearOrderedField α] (log : α → α)
    (beta : gsl_vector α) (d : gsl_matrix α) (gradient : gsl_vector α) :
    (d_zipf_likelihood log beta d gradient).data 0 =
      -(∑ i ∈ Finset.Ico 1 d.size1, ∑ k ∈ Finset.range d.size2,
        d.data i k * (1 / log (beta.data 0) - (k : α)) / beta.data 0) := by
  unfold d_zipf_likelihood gsl_vector_set gsl_vector_get gsl_matrix_get
  dsimp only
  rw [Function.update_same, forLoop_add_nested (fun k i => d.data i k *
    (1 / log (beta.data 0) - (k : α)) / beta.data 0),
    zero_add, Finset.range_eq_Ico, Finset.sum_comm]

/-! ## The derivative of the Probit likelihood -/

/-- The linear predictor of a row is affine in each parameter: its derivative in
parameter `j` is the covariate of column `j + 1`. -/
theorem linear_predictor_hasDerivAt (beta : gsl_vector ℝ) (d : gsl_matrix ℝ) (i j : Nat)
    (hj : j < beta.size) (t0 : ℝ) :
    HasDerivAt (fun t => linear_predictor (gsl_vector_set beta j t) d i)
      (d.data i (j + 1)) t0 := by
  have hterm : ∀ j1 ∈ Finset.range beta.size,
      HasDerivAt (fun t : ℝ => d.data i (j1 + 1) * Function.update beta.data j t j1)
        (if j1 = j then d.data i (j + 1) else 0) t0 := by
    intro j1 _
    by_cases h : j1 = j
    · subst h
      simp only [Function.update_same, if_true]
      simpa using (hasDerivAt_id t0).const_mul (d.data i (j1 + 1))
    · simp only [Function.update_noteq h, if_neg h]
      exact hasDerivAt_const t0 _
  have hsum := HasDerivAt.sum hterm
  rw [Finset.sum_ite_eq' (Finset.range beta.size) j, if_pos (Finset.mem_range.mpr hj)] at hsum
  exact hsum

/-- The derivative in parameter `j` of the number returned by `probit_likelihood`. -/
theorem probit_likelihood_hasDerivAt (cdf pdf : ℝ → ℝ → ℝ) (beta : gsl_vector ℝ)
    (d : gsl_matrix ℝ) (g : Globals ℝ) (hsize : beta.size = d.size2 - 1)
    (hcdf : ∀ x, HasDerivAt (fun t => cdf t 1) (pdf x 1) x)
    (hrange : ∀ x, 0 < cdf x 1 ∧ cdf x 1 < 1) (j : Nat) (hj : j < beta.size) :
    HasDerivAt
      (fun t => returned_value (probit_likelihood Real.log cdf (gsl_vector_set beta j t) d g))
      (probit_gradient_spec cdf pdf beta d j) (beta.data j) := by
  have hfun : (fun t => returned_value
        (probit_likelihood Real.log cdf (gsl_vector_set beta j t) d g))
      = fun t => -(∑ i ∈ Finset.range d.size1,
          if d.data i 0 = 0
          then Real.log (cdf (linear_predictor (gsl_vector_set beta j t) d i) 1)
          else Real.log (1 - cdf (linear_predictor (gsl_vector_set beta j t) d i) 1)) := by
    funext t
    rw [probit_likelihood_sum Real.log cdf (gsl_vector_set beta j t) d g hsize]
    rfl
  have hself : gsl_vector_set beta j (beta.data j) = beta := by
    simp [gsl_vector_set]
  have hp0 : ∀ i, linear_predictor (gsl_vector_set beta j (beta.data j)) d i
      = linear_predictor beta d i := by
    intro i; rw [hself]
  rw [hfun]
  unfold probit_gradient_spec
  apply HasDerivAt.neg
  apply HasDerivAt.sum
  intro i _
  have hp := linear_predictor_hasDerivAt beta d i j hj (beta.data j)
  have hc : HasDerivAt (fun t => cdf (linear_predictor (gsl_vector_set beta j t) d i) 1)
      (pdf (linear_predictor beta d i) 1 * d.data i (j + 1)) (beta.data j) := by
    have h := (hcdf (linear_predictor (gsl_vector_set beta j (beta.data j)) d i)).comp
      (beta.data j) hp
    rw [hp0] at h
    exact h
  have hpos := (hrange (linear_predictor beta d i)).1
  have hlt := (hrange (linear_predictor beta d i)).2
  by_cases hy : d.data i 0 = 0
  · simp only [if_pos hy]
    have h := hc.log (by rw [hp0]; exact ne_of_gt hpos)
    rw [hp0] at h
    convert h using 1
    ring
  · simp only [if_neg hy]
    have h := (hc.const_sub 1).log (by rw [hp0]; exact ne_of_gt (by linarith))
    rw [hp0] at h
    convert h using 1
    have h1 : cdf (linear_predictor beta d i) 1 - 1 ≠ 0 := ne_of_lt (by linarith)
    have h2 : 1 - cdf (linear_predictor beta d i) 1 ≠ 0 := ne_of_gt (by linarith)
    field_simp
    ring

/-- The logistic curve has the derivative `exp(-x) / (1 + exp(-x))^2`. -/
theorem logistic_hasDerivAt (x : ℝ) :
    HasDerivAt (fun t : ℝ => 1 / (1 + Real.exp (-t)))
      (Real.exp (-x) / (1 + Real.exp (-x)) ^ 2) x := by
  have h1 : HasDerivAt (fun t : ℝ => Real.exp (-t)) (-Real.exp (-x)) x := by
    simpa using (Real.hasDerivAt_exp (-x)).comp x (hasDerivAt_neg x)
  have hne : 1 + Real.exp (-x) ≠ 0 := by positivity
  have h3 := (h1.const_add 1).inv hne
  simp only [neg_neg] at h3
  simpa [one_div] using h3

/-- The logistic curve takes its values strictly between 0 and 1. -/
theorem logistic_range (x : ℝ) :
    0 < 1 / (1 + Real.exp (-x)) ∧ 1 / (1 + Real.exp (-x)) < 1 := by
  have he : 0 < Real.exp (-x) := Real.exp_pos _
  constructor
  · positivity
  · rw [div_lt_one (by positivity)]
    linarith

/-! ## The derivatives of the Zipf, Yule and Waring likelihoods -/

/-- The derivative in `b` of the value `zipf_likelihood` returns, at a `b > 1`. -/
theorem zipf_likelihood_hasDerivAt (beta : gsl_vector ℝ) (d : gsl_matrix ℝ)
    (hb : 1 < beta.data 0) :
    HasDerivAt
      (fun t => (zipf_likelihood Real.log (gsl_vector_set beta 0 t) d).untop' 0)
      (-(∑ i ∈ Finset.Ico 1 d.size1, ∑ k ∈ Finset.range d.size2,
        d.data i k * (1 / Real.log (beta.data 0) - (k : ℝ)) / beta.data 0))
      (beta.data 0) := by
  have hfun : (fun t => (zipf_likelihood Real.log (gsl_vector_set beta 0 t) d).untop' 0)
      =ᶠ[nhds (beta.data 0)] fun t => -(∑ i ∈ Finset.Ico 1 d.size1,
          ∑ k ∈ Finset.range d.size2,
            d.data i k * (Real.log (Real.log t) - Real.log t * (k : ℝ))) := by
    filter_upwards [Ioi_mem_nhds hb] with t ht
    have ht0 : (gsl_vector_set beta 0 t).data 0 = t := by simp [gsl_vector_set]
    rw [zipf_likelihood_sum Real.log _ d (by rw [ht0]; exact ht), ht0]
    rfl
  refine HasDerivAt.congr_of_eventuallyEq ?_ hfun
  have hb0 : beta.data 0 ≠ 0 := by linarith
  have hlog : 0 < Real.log (beta.data 0) := Real.log_pos hb
  apply HasDerivAt.neg
  apply HasDerivAt.sum
  intro i _
  apply HasDerivAt.sum
  intro k _
  have h1 := Real.hasDerivAt_log hb0
  have h2 := h1.log (ne_of_gt hlog)
  have h3 := (h2.sub (h1.mul_const (k : ℝ))).const_mul (d.data i k)
  convert h3 using 1
  have hl0 := ne_of_gt hlog
  field_simp
  ring

/-- A fold of `gsl_vector_set` keeps the size of the vector. -/
theorem foldl_set_size {α : Type} (F : Nat → α) (l : List Nat) :
    ∀ (v : gsl_vector α), (l.foldl (fun v j => gsl_vector_set v j (F j)) v).size = v.size := by
  induction l with
  | nil => intro v; rfl
  | cons a l ih => intro v; rw [List.foldl_cons, ih]; rfl

/-- The result of the gradient loop of `d_probit_likelihood` does not depend on the
contents of components `j < n` of the buffer, so running it again on its own
result changes nothing. -/
theorem forLoop_set_idem {α : Type} (F : Nat → α) (n : Nat) (v : gsl_vector α) :
    forLoop 0 n (fun j v => gsl_vector_set v j (F j))
        (forLoop 0 n (fun j v => gsl_vector_set v j (F j)) v)
      = forLoop 0 n (fun j v => gsl_vector_set v j (F j)) v := by
  unfold forLoop
  have hsize := foldl_set_size F (List.range' 0 (n - 0))
  have hdata := foldl_set_data F (List.range' 0 (n - 0))
  generalize List.range' 0 (n - 0) = l at hsize hdata
  have h1 : (l.foldl (fun v j => gsl_vector_set v j (F j))
      (l.foldl (fun v j => gsl_vector_set v j (F j)) v)).size
      = (l.foldl (fun v j => gsl_vector_set v j (F j)) v).size := hsize _
  have h2 : (l.foldl (fun v j => gsl_vector_set v j (F j))
      (l.foldl (fun v j => gsl_vector_set v j (F j)) v)).data
      = (l.foldl (fun v j => gsl_vector_set v j (F j)) v).data := by
    funext j
    rw [hdata, hdata]
    split_ifs <;> rfl
  cases hA : (l.foldl (fun v j => gsl_vector_set v j (F j))
      (l.foldl (fun v j => gsl_vector_set v j (F j)) v))
  cases hB : (l.foldl (fun v j => gsl_vector_set v j (F j)) v)
  rw [hA, hB] at h1 h2
  simp only at h1 h2
  rw [h1, h2]

/-- The value and the globals returned by `probit_likelihood`. -/
theorem probit_likelihood_some {α : Type} [LinearOrderedField α] (log : α → α)
    (cdf : α → α → α) (beta : gsl_vector α) (d : gsl_matrix α) (g : Globals α) :
    ∃ v : WithTop α, probit_likelihood log cdf beta d g = some (v, dot beta d g) ∧
      ∀ g1 : Globals α, probit_likelihood log cdf beta d g1 = some (v, dot beta d g1) :=
  ⟨_, rfl, fun _ => rfl⟩

/-- With the flag clear `d_probit_likelihood` does not depend on the globals: it
behaves as from the initial globals (no cached vector, flag 0). -/
theorem d_probit_likelihood_flag_clear {α : Type} [LinearOrderedField α]
    (cdf pdf : α → α → α) (beta : gsl_vector α) (d : gsl_matrix α)
    (gradient : gsl_vector α) (g : Globals α) (hg : g.beta_dot_x_is_current = 0) :
    d_probit_likelihood cdf pdf beta d gradient g
      = d_probit_likelihood cdf pdf beta d gradient ⟨none, 0⟩ := by
  simp only [d_probit_likelihood, hg, if_true, dot, Option.bind_eq_bind, Option.some_bind,
    Option.pure_def]

/-- From the initial globals `d_probit_likelihood` returns a gradient and leaves
the initial globals. -/
theorem d_probit_likelihood_some {α : Type} [LinearOrderedField α]
    (cdf pdf : α → α → α) (beta : gsl_vector α) (d : gsl_matrix α)
    (gradient : gsl_vector α) :
    ∃ grad : gsl_vector α,
      d_probit_likelihood cdf pdf beta d gradient ⟨none, 0⟩ = some (grad, ⟨none, 0⟩) :=
  ⟨_, rfl⟩

/-- Called again on the gradient it has written, `d_probit_likelihood` writes the
same gradient. -/
theorem d_probit_likelihood_idem {α : Type} [LinearOrderedField α]
    (cdf pdf : α → α → α) (beta : gsl_vector α) (d : gsl_matrix α)
    (gradient grad : gsl_vector α) (g1 : Globals α)
    (h : d_probit_likelihood cdf pdf beta d gradient ⟨none, 0⟩ = some (grad, g1)) :
    d_probit_likelihood cdf pdf beta d grad ⟨none, 0⟩ = some (grad, g1) := by
  simp only [d_probit_likelihood, if_true, dot, Option.bind_eq_bind, Option.some_bind,
    Option.pure_def, Option.some.injEq, Prod.mk.injEq] at h ⊢
  obtain ⟨h1, h2⟩ := h
  subst h1
  exact ⟨forLoop_set_idem _ _ _, h2⟩

/-- Inside `probit_fdf` (flag set, cache filled by `probit_likelihood` at the same
parameters) `d_probit_likelihood` writes the gradient it writes with the flag
clear. -/
theorem d_probit_likelihood_cached {α : Type} [LinearOrderedField α]
    (cdf pdf : α → α → α) (beta : gsl_vector α) (d : gsl_matrix α)
    (gradient grad : gsl_vector α) (g g1 : Globals α)
    (h : d_probit_likelihood cdf pdf beta d gradient ⟨none, 0⟩ = some (grad, g1)) :
    d_probit_likelihood cdf pdf beta d gradient
        { dot beta d g with beta_dot_x_is_current := 1 }
      = some (grad, ⟨none, 1⟩) := by
  simp only [d_probit_likelihood, if_true, dot, Option.bind_eq_bind, Option.some_bind,
    Option.pure_def, Option.some.injEq, Prod.mk.injEq, one_ne_zero, if_false] at h ⊢
  exact ⟨h.1, trivial⟩
/-- The result of `probit_fdf`: the value of `probit_likelihood`, the gradient that
`d_probit_likelihood` writes with the flag clear, and the initial globals. -/
theorem probit_fdf_some {α : Type} [LinearOrderedField α] (log : α → α)
    (cdf pdf : α → α → α) (beta : gsl_vector α) (d : gsl_matrix α)
    (df grad : gsl_vector α) (g g1 : Globals α) (v : WithTop α)
    (hv : probit_likelihood log cdf beta d g = some (v, dot beta d g))
    (h : d_probit_likelihood cdf pdf beta d df ⟨none, 0⟩ = some (grad, g1)) :
    probit_fdf log cdf pdf beta d df g = some (v, grad, ⟨none, 0⟩) := by
  unfold probit_fdf
  rw [hv]
  simp only [Option.bind_eq_bind, Option.some_bind]
  rw [d_probit_likelihood_cached cdf pdf beta d df grad g g1 h]
  rfl

/-! ## The driver loops -/

/-- Every run of the loop of `maximum_likelihood_w_d` has the shape `loop_shape`. -/
theorem w_d_loop_shape_aux {α S : Type} [LinearOrderedField α]
    (M : gsl_multimin_fdfminimizer α S) (verbose : Int) (n : Nat) :
    ∀ st : loop_state α S, MAX_ITERATIONS_w_d - st.iter = n →
      loop_shape MAX_ITERATIONS_w_d st (w_d_loop M verbose st) := by
  induction n using Nat.strong_induction_on with
  | _ n ih =>
    intro st hn
    rw [w_d_loop]
    dsimp only
    by_cases h1 : (M.gsl_multimin_fdfminimizer_iterate st.s st.g).1 ≠ 0
    · rw [if_pos h1]
      exact ⟨0, ⟨(M.gsl_multimin_fdfminimizer_iterate st.s st.g).1, none⟩, by simp, rfl, Or.inl rfl,
        Or.inl ⟨h1, rfl, rfl⟩⟩
    · rw [if_neg h1]
      have h0 : (M.gsl_multimin_fdfminimizer_iterate st.s st.g).1 = 0 := not_not.mp h1
      by_cases h2 : M.gsl_multimin_test_gradient
          (M.gradient (M.gsl_multimin_fdfminimizer_iterate st.s st.g).2.1) 0.0001 = GSL_CONTINUE
          ∧ st.iter + 1 < MAX_ITERATIONS_w_d
      · rw [if_pos h2]
        have key : ∀ st1 : loop_state α S, st1.iter = st.iter + 1 →
            st1.log = st.log ++ [⟨0, some GSL_CONTINUE⟩] →
            loop_shape MAX_ITERATIONS_w_d st (w_d_loop M verbose st1) := by
          intro st1 hi hl
          obtain ⟨k, last, hlog, hiter, hk, hlast⟩ :=
            ih (MAX_ITERATIONS_w_d - st1.iter) (by omega) st1 rfl
          refine ⟨k + 1, last, ?_, ?_, Or.inr ?_, hlast⟩
          · rw [hlog, hl, List.replicate_succ]
            simp
          · rw [hiter, hi]
            omega
          · rcases hk with hk | hk
            · rw [hk]; exact h2.2
            · omega
        refine key _ rfl ?_
        simp only [h0, h2.1]
      · rw [if_neg h2]
        refine ⟨0, ⟨(M.gsl_multimin_fdfminimizer_iterate st.s st.g).1, some (M.gsl_multimin_test_gradient
          (M.gradient (M.gsl_multimin_fdfminimizer_iterate st.s st.g).2.1) 0.0001)⟩, by simp, rfl,
          Or.inl rfl, Or.inr ⟨h0, rfl, ?_⟩⟩
        by_cases h3 : M.gsl_multimin_test_gradient
            (M.gradient (M.gsl_multimin_fdfminimizer_iterate st.s st.g).2.1) 0.0001 = GSL_CONTINUE
        · right
          have h4 : ¬ st.iter + 1 < MAX_ITERATIONS_w_d := fun h => h2 ⟨h3, h⟩
          simp only
          omega
        · left
          exact h3

/-- Every run of the loop of `maximum_likelihood` has the shape `loop_shape`. -/
theorem simplex_loop_shape_aux {α S : Type} [LinearOrderedField α]
    (M : gsl_multimin_fminimizer α S) (betasize : Nat) (verbose : Int) (n : Nat) :
    ∀ st : loop_state α S, MAX_ITERATIONS - st.iter = n →
      loop_shape MAX_ITERATIONS st (simplex_loop M betasize verbose st) := by
  induction n using Nat.strong_induction_on with
  | _ n ih =>
    intro st hn
    rw [simplex_loop]
    dsimp only
    by_cases h1 : (M.gsl_multimin_fminimizer_iterate st.s st.g).1 ≠ 0
    · rw [if_pos h1]
      exact ⟨0, ⟨(M.gsl_multimin_fminimizer_iterate st.s st.g).1, none⟩, by simp, rfl, Or.inl rfl,
        Or.inl ⟨h1, rfl, rfl⟩⟩
    · rw [if_neg h1]
      have h0 : (M.gsl_multimin_fminimizer_iterate st.s st.g).1 = 0 := not_not.mp h1
      by_cases h2 : M.gsl_multimin_test_size (M.gsl_multimin_fminimizer_size
          (M.gsl_multimin_fminimizer_iterate st.s st.g).2.1) 1e-3 = GSL_CONTINUE
          ∧ st.iter + 1 < MAX_ITERATIONS
      · rw [if_pos h2]
        have key : ∀ st1 : loop_state α S, st1.iter = st.iter + 1 →
            st1.log = st.log ++ [⟨0, some GSL_CONTINUE⟩] →
            loop_shape MAX_ITERATIONS st (simplex_loop M betasize verbose st1) := by
          intro st1 hi hl
          obtain ⟨k, last, hlog, hiter, hk, hlast⟩ :=
            ih (MAX_ITERATIONS - st1.iter) (by omega) st1 rfl
          refine ⟨k + 1, last, ?_, ?_, Or.inr ?_, hlast⟩
          · rw [hlog, hl, List.replicate_succ]
            simp
          · rw [hiter, hi]
            omega
          · rcases hk with hk | hk
            · rw [hk]; exact h2.2
            · omega
        refine key _ rfl ?_
        simp only [h0, h2.1]
      · rw [if_neg h2]
        refine ⟨0, ⟨(M.gsl_multimin_fminimizer_iterate st.s st.g).1, some (M.gsl_multimin_test_size
          (M.gsl_multimin_fminimizer_size (M.gsl_multimin_fminimizer_iterate st.s st.g).2.1) 1e-3)⟩,
          by simp, rfl, Or.inl rfl, Or.inr ⟨h0, rfl, ?_⟩⟩
        by_cases h3 : M.gsl_multimin_test_size (M.gsl_multimin_fminimizer_size
            (M.gsl_multimin_fminimizer_iterate st.s st.g).2.1) 1e-3 = GSL_CONTINUE
        · right
          have h4 : ¬ st.iter + 1 < MAX_ITERATIONS := fun h => h2 ⟨h3, h⟩
          simp only
          omega
        · left
          exact h3
/-- The loop of `maximum_likelihood_w_d` has the shape `loop_shape` from any state. -/
theorem w_d_loop_shape {α S : Type} [LinearOrderedField α]
    (M : gsl_multimin_fdfminimizer α S) (verbose : Int) (st : loop_state α S) :
    loop_shape MAX_ITERATIONS_w_d st (w_d_loop M verbose st) :=
  w_d_loop_shape_aux M verbose _ st rfl

/-- The loop of `maximum_likelihood` has the shape `loop_shape` from any state. -/
theorem simplex_loop_shape {α S : Type} [LinearOrderedField α]
    (M : gsl_multimin_fminimizer α S) (betasize : Nat) (verbose : Int) (st : loop_state α S) :
    loop_shape MAX_ITERATIONS st (simplex_loop M betasize verbose st) :=
  simplex_loop_shape_aux M betasize verbose _ st rfl

/-- The counter and the record of a run entered with counter 0 and an empty
record: between 1 and `max` passes, one record per pass, and every pass but the
last had a successful step and a test that said `GSL_CONTINUE`. -/
theorem loop_shape_budget {α S : Type} (max : Nat) (hmax : 1 ≤ max) (st fin : loop_state α S)
    (h0 : st.iter = 0) (hl : st.log = []) (h : loop_shape max st fin) :
    1 ≤ fin.iter ∧ fin.iter ≤ max ∧ fin.log.length = fin.iter ∧
    fin.log.dropLast = List.replicate (fin.iter - 1) ⟨0, some GSL_CONTINUE⟩ := by
  obtain ⟨k, last, hlog, hiter, hk, _⟩ := h
  rw [h0] at hiter hk
  rw [hl] at hlog
  refine ⟨by omega, by omega, ?_, ?_⟩
  · rw [hlog, hiter]; simp
  · rw [hlog, hiter]; simp [List.dropLast_concat]

/-- In a run entered with counter 0 and an empty record, a pass whose step failed
made no convergence test and is the last pass. -/
theorem loop_shape_failure {α S : Type} (max : Nat) (st fin : loop_state α S)
    (h0 : st.iter = 0) (hl : st.log = []) (h : loop_shape max st fin)
    (n : Nat) (r : IterationRecord) (hr : fin.log[n]? = some r) (hstep : r.step ≠ 0) :
    r.test = none ∧ fin.log.length = n + 1 ∧ fin.iter = n + 1 ∧ fin.status = r.step := by
  obtain ⟨k, last, hlog, hiter, _, hlast⟩ := h
  rw [h0] at hiter
  rw [hl] at hlog
  rw [hlog] at hr
  have hlen : fin.log.length = k + 1 := by rw [hlog]; simp
  by_cases hnk : n < k
  · rw [List.nil_append, List.getElem?_append_left (by simpa using hnk),
      List.getElem?_replicate] at hr
    simp only [hnk, if_true, Option.some.injEq] at hr
    rw [← hr] at hstep
    exact absurd rfl hstep
  · rw [List.nil_append, List.getElem?_append_right (by simpa using hnk)] at hr
    simp only [List.length_replicate] at hr
    have hn0 : n - k = 0 := by
      by_contra hne
      have h1 : 1 ≤ n - k := Nat.one_le_iff_ne_zero.mpr hne
      rw [List.getElem?_eq_none (by simpa using h1)] at hr
      exact Option.noConfusion hr
    rw [hn0] at hr
    simp only [List.getElem?_cons_zero, Option.some.injEq] at hr
    subst hr
    have hn : n = k := by omega
    rcases hlast with ⟨_, ht, hs⟩ | ⟨hz, _, _⟩
    · exact ⟨ht, by omega, by omega, hs⟩
    · exact absurd hz hstep
/-- A successful `gsl_vector_memcpy` into a fresh vector of `n` entries returns
the source vector, which has `n` entries. -/
theorem gsl_vector_memcpy_alloc {α : Type} [Zero α] (n : Nat) (src b : gsl_vector α)
    (h : gsl_vector_memcpy (gsl_vector_alloc n) src = some b) : b = src ∧ b.size = n := by
  unfold gsl_vector_memcpy gsl_vector_alloc at h
  by_cases hs : n = src.size
  · rw [if_pos hs] at h
    cases src
    simp only [Option.some.injEq] at h hs
    subst h
    exact ⟨by rw [hs], rfl⟩
  · rw [if_neg hs] at h
    exact Option.noConfusion h

/-- What `maximum_likelihood_w_d` hands back when it returns: the point of the
minimizer when the loop was left, the likelihood evaluated there, and the counter,
record and lines of the loop. -/
theorem maximum_likelihood_w_d_some {α S : Type} [LinearOrderedField α]
    (M : gsl_multimin_fdfminimizer α S)
    (data : gsl_matrix α) (betasize : Nat) (likelihood : likelihood_fn α)
    (d_likelihood : d_likelihood_fn α) (fdf : fdf_fn α) (starting_pt : Option (Nat → α))
    (step_size : α) (verbose : Int) (g : Globals α) (r : driver_result α)
    (h : maximum_likelihood_w_d M data betasize likelihood d_likelihood fdf starting_pt
      step_size verbose g = some r) :
    r.betas = M.x (w_d_loop M verbose
      (w_d_start M data betasize likelihood d_likelihood fdf starting_pt step_size g)).s ∧
    r.betas.size = betasize ∧
    likelihood r.betas data (w_d_loop M verbose
      (w_d_start M data betasize likelihood d_likelihood fdf starting_pt step_size g)).g
        = some (r.value, r.g) ∧
    r.iter = (w_d_loop M verbose
      (w_d_start M data betasize likelihood d_likelihood fdf starting_pt step_size g)).iter ∧
    r.log = (w_d_loop M verbose
      (w_d_start M data betasize likelihood d_likelihood fdf starting_pt step_size g)).log := by
  unfold maximum_likelihood_w_d at h
  simp only [Option.bind_eq_bind, Option.pure_def, Option.bind_eq_some] at h
  obtain ⟨b, hb, v, hv, hr⟩ := h
  obtain ⟨hb1, hb2⟩ := gsl_vector_memcpy_alloc _ _ _ hb
  simp only [Option.some.injEq] at hr
  subst hr
  exact ⟨hb1, hb2, by rw [hv], rfl, rfl⟩

/-- The function `maximum_likelihood_w_d` returns whenever the point of the
minimizer has `betasize` entries and the likelihood function returns there. -/
theorem maximum_likelihood_w_d_total {α S : Type} [LinearOrderedField α]
    (M : gsl_multimin_fdfminimizer α S)
    (data : gsl_matrix α) (betasize : Nat) (likelihood : likelihood_fn α)
    (d_likelihood : d_likelihood_fn α) (fdf : fdf_fn α) (starting_pt : Option (Nat → α))
    (step_size : α) (verbose : Int) (g : Globals α)
    (hx : (M.x (w_d_loop M verbose
      (w_d_start M data betasize likelihood d_likelihood fdf starting_pt step_size g)).s).size
        = betasize)
    (hl : ∀ (b : gsl_vector α) (g1 : Globals α), (likelihood b data g1).isSome) :
    ∃ r, maximum_likelihood_w_d M data betasize likelihood d_likelihood fdf starting_pt
      step_size verbose g = some r := by
  unfold maximum_likelihood_w_d
  simp only [Option.bind_eq_bind, Option.pure_def, gsl_vector_memcpy, gsl_vector_alloc, hx,
    if_true, Option.some_bind]
  obtain ⟨v, hv⟩ := Option.isSome_iff_exists.mp (hl _ _)
  rw [hv]
  exact ⟨_, rfl⟩

/-- With a supplied starting point `maximum_likelihood` enters its loop with the
counter 0 and an empty record. -/
theorem simplex_start_some {α S : Type} [LinearOrderedField α]
    (M : gsl_multimin_fminimizer α S)
    (data : gsl_matrix α) (betasize : Nat) (likelihood : likelihood_fn α)
    (p : Nat → α) (step_size : α) (g : Globals α) :
    ∃ st0, simplex_start M data betasize likelihood (some p) step_size g = some st0 ∧
      st0.iter = 0 ∧ st0.log = [] :=
  ⟨_, rfl, rfl, rfl⟩

/-- Whenever `maximum_likelihood` enters its loop, the counter is 0 and the record
is empty. -/
theorem simplex_start_init {α S : Type} [LinearOrderedField α]
    (M : gsl_multimin_fminimizer α S)
    (data : gsl_matrix α) (betasize : Nat) (likelihood : likelihood_fn α)
    (starting_pt : Option (Nat → α)) (step_size : α) (g : Globals α) (st0 : loop_state α S)
    (h : simplex_start M data betasize likelihood starting_pt step_size g = some st0) :
    st0.iter = 0 ∧ st0.log = [] := by
  cases starting_pt with
  | none => exact Option.noConfusion h
  | some p =>
    simp only [simplex_start, Option.bind_eq_bind, Option.some_bind, Option.pure_def,
      Option.some.injEq] at h
    subst h
    exact ⟨rfl, rfl⟩

/-- What `maximum_likelihood` hands back when it returns. -/
theorem maximum_likelihood_some {α S : Type} [LinearOrderedField α]
    (M : gsl_multimin_fminimizer α S)
    (data : gsl_matrix α) (betasize : Nat) (likelihood : likelihood_fn α)
    (starting_pt : Option (Nat → α)) (step_size : α) (verbose : Int) (g : Globals α)
    (r : driver_result α)
    (h : maximum_likelihood M data betasize likelihood starting_pt step_size verbose g
      = some r) :
    ∃ st0, simplex_start M data betasize likelihood starting_pt step_size g = some st0 ∧
      r.betas = M.x (simplex_loop M betasize verbose st0).s ∧
      r.betas.size = betasize ∧
      likelihood r.betas data (simplex_loop M betasize verbose st0).g
        = some (r.value, r.g) ∧
      r.iter = (simplex_loop M betasize verbose st0).iter ∧
      r.log = (simplex_loop M betasize verbose st0).log := by
  unfold maximum_likelihood at h
  simp only [Option.bind_eq_bind, Option.pure_def, Option.bind_eq_some] at h
  obtain ⟨st0, hst0, b, hb, v, hv, hr⟩ := h
  obtain ⟨hb1, hb2⟩ := gsl_vector_memcpy_alloc _ _ _ hb
  simp only [Option.some.injEq] at hr
  subst hr
  exact ⟨st0, hst0, hb1, hb2, by rw [hv], rfl, rfl⟩

/-- The function `maximum_likelihood` returns whenever a starting point is
supplied, the point of the minimizer has `betasize` entries and the likelihood
function returns. -/
theorem maximum_likelihood_total {α S : Type} [LinearOrderedField α]
    (M : gsl_multimin_fminimizer α S)
    (data : gsl_matrix α) (betasize : Nat) (likelihood : likelihood_fn α)
    (p : Nat → α) (step_size : α) (verbose : Int) (g : Globals α)
    (hx : ∀ s, (M.x s).size = betasize)
    (hl : ∀ (b : gsl_vector α) (g1 : Globals α), (likelihood b data g1).isSome) :
    ∃ r, maximum_likelihood M data betasize likelihood (some p) step_size verbose g
      = some r := by
  unfold maximum_likelihood
  simp only [simplex_start, Option.bind_eq_bind, Option.pure_def, gsl_vector_memcpy,
    gsl_vector_alloc, hx, if_true, Option.some_bind]
  obtain ⟨v, hv⟩ := Option.isSome_iff_exists.mp (hl _ _)
  rw [hv]
  exact ⟨_, rfl⟩

/-- Without a starting point `maximum_likelihood` writes through the pointer `x`,
which it never initialises: there is no result. -/
theorem maximum_likelihood_null_start {α S : Type} [LinearOrderedField α]
    (M : gsl_multimin_fminimizer α S)
    (data : gsl_matrix α) (betasize : Nat) (likelihood : likelihood_fn α)
    (step_size : α) (verbose : Int) (g : Globals α) :
    maximum_likelihood M data betasize likelihood none step_size verbose g = none :=
  rfl

/-! ## The lists of evaluations -/

/-- Two nested loops whose body acts on the two components of a pair separately
are the pair of the two nested loops. -/
theorem forLoop_nested_pair {σ τ : Type} (b1 : Nat → Nat → σ → σ) (b2 : Nat → Nat → τ → τ)
    (lo hi lo2 hi2 : Nat) (x : σ) (y : τ) :
    forLoop lo hi (fun k (st : σ × τ) =>
        forLoop lo2 hi2 (fun i (st : σ × τ) => (b1 i k st.1, b2 i k st.2)) st) (x, y)
      = (forLoop lo hi (fun k s => forLoop lo2 hi2 (fun i s => b1 i k s) s) x,
         forLoop lo hi (fun k t => forLoop lo2 hi2 (fun i t => b2 i k t) t) y) := by
  have hin : (fun (k : Nat) (st : σ × τ) =>
        forLoop lo2 hi2 (fun i (st : σ × τ) => (b1 i k st.1, b2 i k st.2)) st)
      = fun k st => (forLoop lo2 hi2 (fun i s => b1 i k s) st.1,
          forLoop lo2 hi2 (fun i t => b2 i k t) st.2) := by
    funext k st
    obtain ⟨u, v⟩ := st
    exact foldl_pair (fun i s => b1 i k s) (fun i t => b2 i k t) _ u v
  rw [hin]
  exact foldl_pair (fun k s => forLoop lo2 hi2 (fun i s => b1 i k s) s)
    (fun k t => forLoop lo2 hi2 (fun i t => b2 i k t) t) _ x y

/-- Membership in the result of a fold whose step only adds, at index `i`, the
elements that satisfy `P i`. -/
theorem foldl_mem_of_step {β : Type} (step : List β → Nat → List β) (P : Nat → β → Prop)
    (hstep : ∀ t i c, c ∈ step t i ↔ c ∈ t ∨ P i c) (l : List Nat) :
    ∀ (init : List β) (c : β), c ∈ l.foldl step init ↔ c ∈ init ∨ ∃ i ∈ l, P i c := by
  induction l with
  | nil => intro init c; simp
  | cons a l ih =>
    intro init c
    rw [List.foldl_cons, ih, hstep]
    constructor
    · rintro ((h | h) | ⟨i, hi, h⟩)
      · exact Or.inl h
      · exact Or.inr ⟨a, List.mem_cons_self a l, h⟩
      · exact Or.inr ⟨i, List.mem_cons_of_mem a hi, h⟩
    · rintro (h | ⟨i, hi, h⟩)
      · exact Or.inl (Or.inl h)
      · rcases List.mem_cons.mp hi with rfl | hi
        · exact Or.inl (Or.inr h)
        · exact Or.inr ⟨i, hi, h⟩

/-- Membership in the result of a loop whose body only adds, at index `i`, the
elements that satisfy `P i`. -/
theorem forLoop_mem_of_step {β : Type} (body : Nat → List β → List β) (P : Nat → β → Prop)
    (hstep : ∀ t i c, c ∈ body i t ↔ c ∈ t ∨ P i c) (lo hi : Nat) (init : List β) (c : β) :
    c ∈ forLoop lo hi body init ↔ c ∈ init ∨ ∃ i, lo ≤ i ∧ i < hi ∧ P i c := by
  unfold forLoop
  rw [foldl_mem_of_step (fun t i => body i t) P hstep]
  constructor
  · rintro (h | ⟨i, hi, h⟩)
    · exact Or.inl h
    · rw [List.mem_range'_1] at hi
      exact Or.inr ⟨i, hi.1, by omega, h⟩
  · rintro (h | ⟨i, h1, h2, h⟩)
    · exact Or.inl h
    · exact Or.inr ⟨i, List.mem_range'_1.mpr ⟨h1, by omega⟩, h⟩

/-- Membership in the list built by two nested loops that append `F i k` at the
pass `(k, i)`. -/
theorem forLoop_nested_append_mem {β : Type} (F : Nat → Nat → List β)
    (lo hi lo2 hi2 : Nat) (init : List β) (c : β) :
    c ∈ forLoop lo hi (fun k t => forLoop lo2 hi2 (fun i t => t ++ F i k) t) init ↔
      c ∈ init ∨ ∃ k, lo ≤ k ∧ k < hi ∧ ∃ i, lo2 ≤ i ∧ i < hi2 ∧ c ∈ F i k := by
  apply forLoop_mem_of_step (fun k t => forLoop lo2 hi2 (fun i t => t ++ F i k) t)
    (fun k c => ∃ i, lo2 ≤ i ∧ i < hi2 ∧ c ∈ F i k)
  intro t k c
  apply forLoop_mem_of_step (fun i t => t ++ F i k) (fun i c => c ∈ F i k)
  intro t i c
  exact List.mem_append
/-- The value of `waring_likelihood_traced` is that of `waring_likelihood`, and
its list of evaluations is empty under the guard and otherwise the three
evaluations made before the loops followed by those of the passes. -/
theorem waring_likelihood_traced_eq {α : Type} [LinearOrderedField α]
    (log gsl_sf_lngamma : α → α) (beta : gsl_vector α) (d : gsl_matrix α) :
    (waring_likelihood_traced log gsl_sf_lngamma beta d).1
      = waring_likelihood log gsl_sf_lngamma beta d ∧
    (waring_likelihood_traced log gsl_sf_lngamma beta d).2
      = if beta.data 0 ≤ 2 ∨ beta.data 1 ≤ -1 then [] else
        forLoop 1 d.size2 (fun k t => forLoop 0 d.size1 (fun _ t =>
          t ++ [Call.lngamma ((k : α) + beta.data 1 + beta.data 0),
            Call.lngamma ((k : α) + beta.data 1)]) t)
          [Call.lngamma (beta.data 0 + beta.data 1), Call.lngamma (beta.data 1 + 1),
            Call.log (beta.data 0 - 1)] := by
  unfold waring_likelihood_traced waring_likelihood gsl_vector_get gsl_matrix_get
  dsimp only
  by_cases hg : beta.data 0 ≤ 2 ∨ beta.data 1 ≤ -1
  · simp only [if_pos hg, and_self]
  · simp only [if_neg hg]
    rw [forLoop_nested_pair
      (fun i k s => s + d.data i k * (log (beta.data 0 - 1)
        + gsl_sf_lngamma ((k : α) + beta.data 1)
        + gsl_sf_lngamma (beta.data 0 + beta.data 1) - gsl_sf_lngamma (beta.data 1 + 1)
        - gsl_sf_lngamma ((k : α) + beta.data 1 + beta.data 0)))
      (fun _ k t => t ++ [Call.lngamma ((k : α) + beta.data 1 + beta.data 0),
        Call.lngamma ((k : α) + beta.data 1)])]
    exact ⟨rfl, rfl⟩

/-- The value of `yule_likelihood_traced` is that of `yule_likelihood`, and its
list of evaluations is empty under the guard and otherwise the two evaluations
made before the loops followed by those of the passes. -/
theorem yule_likelihood_traced_eq {α : Type} [LinearOrderedField α]
    (log gsl_sf_lngamma : α → α) (beta : gsl_vector α) (d : gsl_matrix α) :
    (yule_likelihood_traced log gsl_sf_lngamma beta d).1
      = yule_likelihood log gsl_sf_lngamma beta d ∧
    (yule_likelihood_traced log gsl_sf_lngamma beta d).2
      = if beta.data 0 ≤ 2 then [] else
        forLoop 1 d.size2 (fun k t => forLoop 0 d.size1 (fun _ t =>
          t ++ ((if k > 1 then [Call.lngamma (k : α)] else [])
            ++ [Call.lngamma ((k : α) + beta.data 0)])) t)
          [Call.lngamma (beta.data 0), Call.log (beta.data 0 - 1)] := by
  unfold yule_likelihood_traced yule_likelihood gsl_vector_get gsl_matrix_get
  dsimp only
  by_cases hg : beta.data 0 ≤ 2
  · simp only [if_pos hg, and_self]
  · simp only [if_neg hg, List.append_assoc]
    rw [forLoop_nested_pair
      (fun i k s => s + d.data i k * (log (beta.data 0 - 1)
        + (if k > 1 then gsl_sf_lngamma (k : α) else 0)
        + gsl_sf_lngamma (beta.data 0) - gsl_sf_lngamma ((k : α) + beta.data 0)))
      (fun _ k t => t ++ ((if k > 1 then [Call.lngamma (k : α)] else [])
            ++ [Call.lngamma ((k : α) + beta.data 0)]))]
    exact ⟨rfl, rfl⟩

/-- The value of `zipf_likelihood_traced` is that of `zipf_likelihood`, and its
list of evaluations is empty under the guard and otherwise the two calls of `log`. -/
theorem zipf_likelihood_traced_eq {α : Type} [LinearOrderedField α]
    (log : α → α) (beta : gsl_vector α) (d : gsl_matrix α) :
    (zipf_likelihood_traced log beta d).1 = zipf_likelihood log beta d ∧
    (zipf_likelihood_traced log beta d).2
      = if beta.data 0 ≤ 1 then [] else [Call.log (beta.data 0), Call.log (log (beta.data 0))] := by
  unfold zipf_likelihood_traced zipf_likelihood gsl_vector_get gsl_matrix_get
  dsimp only
  by_cases hg : beta.data 0 ≤ 1
  · simp only [if_pos hg, and_self]
  · simp only [if_neg hg, and_self]

/-- Every evaluation made by `waring_likelihood` is in domain. -/
theorem waring_likelihood_calls_in_domain {α : Type} [LinearOrderedField α]
    (log gsl_sf_lngamma : α → α) (beta : gsl_vector α) (d : gsl_matrix α) (c : Call α)
    (hc : c ∈ (waring_likelihood_traced log gsl_sf_lngamma beta d).2) : c.in_domain := by
  rw [(waring_likelihood_traced_eq log gsl_sf_lngamma beta d).2] at hc
  by_cases hg : beta.data 0 ≤ 2 ∨ beta.data 1 ≤ -1
  · rw [if_pos hg] at hc
    exact absurd hc (List.not_mem_nil c)
  · rw [if_neg hg, forLoop_nested_append_mem (fun _ k =>
      [Call.lngamma ((k : α) + beta.data 1 + beta.data 0),
        Call.lngamma ((k : α) + beta.data 1)])] at hc
    rw [not_or, not_le, not_le] at hg
    obtain ⟨hb, ha⟩ := hg
    rcases hc with hc | ⟨k, hk1, _, _, _, _, hc⟩
    · simp only [List.mem_cons, List.mem_singleton, List.not_mem_nil, or_false] at hc
      rcases hc with rfl | rfl | rfl
      · show 0 < beta.data 0 + beta.data 1
        linarith
      · show 0 < beta.data 1 + 1
        linarith
      · show 0 < beta.data 0 - 1
        linarith
    · have hk : (1 : α) ≤ (k : α) := by exact_mod_cast hk1
      simp only [List.mem_cons, List.mem_singleton, List.not_mem_nil, or_false] at hc
      rcases hc with rfl | rfl
      · show 0 < (k : α) + beta.data 1 + beta.data 0
        linarith
      · show 0 < (k : α) + beta.data 1
        linarith

/-- Every evaluation made by `yule_likelihood` is in domain. -/
theorem yule_likelihood_calls_in_domain {α : Type} [LinearOrderedField α]
    (log gsl_sf_lngamma : α → α) (beta : gsl_vector α) (d : gsl_matrix α) (c : Call α)
    (hc : c ∈ (yule_likelihood_traced log gsl_sf_lngamma beta d).2) : c.in_domain := by
  rw [(yule_likelihood_traced_eq log gsl_sf_lngamma beta d).2] at hc
  by_cases hg : beta.data 0 ≤ 2
  · rw [if_pos hg] at hc
    exact absurd hc (List.not_mem_nil c)
  · rw [if_neg hg, forLoop_nested_append_mem (fun _ k =>
      (if k > 1 then [Call.lngamma (k : α)] else [])
        ++ [Call.lngamma ((k : α) + beta.data 0)])] at hc
    rw [not_le] at hg
    rcases hc with hc | ⟨k, hk1, _, _, _, _, hc⟩
    · simp only [List.mem_cons, List.mem_singleton, List.not_mem_nil, or_false] at hc
      rcases hc with rfl | rfl
      · show 0 < beta.data 0
        linarith
      · show 0 < beta.data 0 - 1
        linarith
    · have hk : (1 : α) ≤ (k : α) := by exact_mod_cast hk1
      rw [List.mem_append] at hc
      rcases hc with hc | hc
      · by_cases hk2 : k > 1
        · rw [if_pos hk2, List.mem_singleton] at hc
          subst hc
          show 0 < (k : α)
          linarith
        · rw [if_neg hk2] at hc
          exact absurd hc (List.not_mem_nil c)
      · rw [List.mem_singleton] at hc
        subst hc
        show 0 < (k : α) + beta.data 0
        linarith

/-- Every evaluation made by `zipf_likelihood` with the real logarithm is in domain. -/
theorem zipf_likelihood_calls_in_domain (beta : gsl_vector ℝ) (d : gsl_matrix ℝ)
    (c : Call ℝ) (hc : c ∈ (zipf_likelihood_traced Real.log beta d).2) : c.in_domain := by
  rw [(zipf_likelihood_traced_eq Real.log beta d).2] at hc
  by_cases hg : beta.data 0 ≤ 1
  · rw [if_pos hg] at hc
    exact absurd hc (List.not_mem_nil c)
  · rw [if_neg hg] at hc
    rw [not_le] at hg
    simp only [List.mem_cons, List.mem_singleton, List.not_mem_nil, or_false] at hc
    rcases hc with rfl | rfl
    · show 0 < beta.data 0
      linarith
    · exact Real.log_pos hg
/-- The gradient of `d_waring_likelihood_traced` is that of `d_waring_likelihood`,
and its list of evaluations is the division and the call of `gsl_sf_psi` made
before the loops followed by the calls of the passes. -/
theorem d_waring_likelihood_traced_eq {α : Type} [LinearOrderedField α]
    (gsl_sf_psi : α → α) (beta : gsl_vector α) (d : gsl_matrix α) (gradient : gsl_vector α) :
    (d_waring_likelihood_traced gsl_sf_psi beta d gradient).1
      = d_waring_likelihood gsl_sf_psi beta d gradient ∧
    (d_waring_likelihood_traced gsl_sf_psi beta d gradient).2
      = forLoop 1 d.size2 (fun k t => forLoop 0 d.size1 (fun _ t =>
          t ++ [Call.psi ((k : α) + beta.data 1 + beta.data 0),
            Call.psi ((k : α) + beta.data 1)]) t)
          [Call.div 1 (beta.data 0 - 1), Call.psi (beta.data 0 + beta.data 1)] := by
  unfold d_waring_likelihood_traced d_waring_likelihood gsl_vector_get gsl_matrix_get
  dsimp only
  rw [forLoop_nested_pair
    (fun i k (s : α × α) => (s.1 + d.data i k * (1 / (beta.data 0 - 1)
        + gsl_sf_psi (beta.data 0 + beta.data 1)
        - gsl_sf_psi ((k : α) + beta.data 1 + beta.data 0)),
      s.2 + d.data i k * (gsl_sf_psi ((k : α) + beta.data 1)
        + gsl_sf_psi ((k : α) + beta.data 1)
        - gsl_sf_psi ((k : α) + beta.data 1 + beta.data 0))))
    (fun _ k t => t ++ [Call.psi ((k : α) + beta.data 1 + beta.data 0),
      Call.psi ((k : α) + beta.data 1)])]
  exact ⟨rfl, rfl⟩

/-- The gradient of `d_yule_likelihood_traced` is that of `d_yule_likelihood`, and
its list of evaluations is the division and the call of `gsl_sf_psi` made before
the loops followed by the calls of the passes. -/
theorem d_yule_likelihood_traced_eq {α : Type} [LinearOrderedField α]
    (gsl_sf_psi : α → α) (beta : gsl_vector α) (d : gsl_matrix α) (gradient : gsl_vector α) :
    (d_yule_likelihood_traced gsl_sf_psi beta d gradient).1
      = d_yule_likelihood gsl_sf_psi beta d gradient ∧
    (d_yule_likelihood_traced gsl_sf_psi beta d gradient).2
      = forLoop 1 d.size2 (fun k t => forLoop 0 d.size1 (fun _ t =>
          t ++ [Call.psi ((k : α) + beta.data 0)]) t)
          [Call.div 1 (beta.data 0 - 1), Call.psi (beta.data 0)] := by
  unfold d_yule_likelihood_traced d_yule_likelihood gsl_vector_get gsl_matrix_get
  dsimp only
  rw [forLoop_nested_pair
    (fun i k s => s + d.data i k * (1 / (beta.data 0 - 1) + gsl_sf_psi (beta.data 0)
        - gsl_sf_psi ((k : α) + beta.data 0)))
    (fun _ k t => t ++ [Call.psi ((k : α) + beta.data 0)])]
  exact ⟨rfl, rfl⟩

/-- The gradient of `d_zipf_likelihood_traced` is that of `d_zipf_likelihood`, and
its list of evaluations is the call of `log` made before the loops followed by
the two divisions of every pass. -/
theorem d_zipf_likelihood_traced_eq {α : Type} [LinearOrderedField α]
    (log : α → α) (beta : gsl_vector α) (d : gsl_matrix α) (gradient : gsl_vector α) :
    (d_zipf_likelihood_traced log beta d gradient).1
      = d_zipf_likelihood log beta d gradient ∧
    (d_zipf_likelihood_traced log beta d gradient).2
      = forLoop 1 d.size1 (fun i t => forLoop 0 d.size2 (fun k t =>
          t ++ [Call.div 1 (log (beta.data 0)),
            Call.div (d.data i k * (1 / log (beta.data 0) - (k : α))) (beta.data 0)]) t)
          [Call.log (beta.data 0)] := by
  unfold d_zipf_likelihood_traced d_zipf_likelihood gsl_vector_get gsl_matrix_get
  dsimp only
  rw [forLoop_nested_pair
    (fun k i s => s + d.data i k * (1 / log (beta.data 0) - (k : α)) / beta.data 0)
    (fun k i t => t ++ [Call.div 1 (log (beta.data 0)),
            Call.div (d.data i k * (1 / log (beta.data 0) - (k : α))) (beta.data 0)])]
  exact ⟨rfl, rfl⟩

/-! ## The diagnostic of the drivers -/

/-- The run of the loop of `maximum_likelihood_w_d` with the example minimizer
`example_fdfminimizer_run m last_step n`, `m ≤ 500`: it is left after pass `m`,
whose record is the last one. -/
theorem example_fdfminimizer_run_loop (m : Nat) (last_step : Int) (n : Nat) (verbose : Int)
    (hm : m ≤ 500) (k : Nat) :
    ∀ st : loop_state ℚ Nat, st.s = st.iter → st.iter + k + 1 = m →
      (w_d_loop (example_fdfminimizer_run m last_step n) verbose st).iter = m ∧
      (w_d_loop (example_fdfminimizer_run m last_step n) verbose st).log
        = st.log ++ List.replicate k ⟨0, some GSL_CONTINUE⟩
          ++ [if last_step ≠ 0 then ⟨last_step, none⟩ else ⟨0, some GSL_SUCCESS⟩] ∧
      (last_step = 0 → verbose ≠ 0 → Printed.minimum_found ∈
        (w_d_loop (example_fdfminimizer_run m last_step n) verbose st).out) := by
  induction k with
  | zero =>
    intro st hs hk
    rw [w_d_loop]
    have h1 : ¬ st.s + 1 < m := by omega
    by_cases hl : last_step ≠ 0
    · simp [example_fdfminimizer_run, h1, hl]
      omega
    · have hl0 : last_step = 0 := not_not.mp hl
      have h2 : ¬ ((st.s : ℚ) + 1 < (m : ℚ)) := by exact_mod_cast h1
      simp [example_fdfminimizer_run, h1, hl0, h2, GSL_SUCCESS, GSL_CONTINUE]
      refine ⟨by omega, ?_⟩
      intro hv
      simp [hv]
  | succ k ih =>
    intro st hs hk
    rw [w_d_loop]
    have h1 : st.s + 1 < m := by omega
    have h2 : (st.s : ℚ) + 1 < (m : ℚ) := by exact_mod_cast h1
    have h3 : st.iter + 1 < MAX_ITERATIONS_w_d := by
      unfold MAX_ITERATIONS_w_d; omega
    simp only [example_fdfminimizer_run, h1, if_true, ne_eq, not_true_eq_false, if_false,
      Nat.cast_add, Nat.cast_one, h2, h3, and_self]
    have key := ih
      { iter := st.iter + 1, status := GSL_CONTINUE, s := st.s + 1, g := st.g,
        out := if ¬ verbose = 0 then
            (if GSL_CONTINUE = GSL_SUCCESS then st.out ++ [Printed.minimum_found] else st.out)
              ++ [Printed.iteration (st.iter + 1)
                (gsl_vector_get { size := n, data := fun _ => (3 : ℚ) } 0) 0]
          else st.out,
        log := st.log ++ [{ step := 0, test := some GSL_CONTINUE }] }
      (by simp [hs]) (by simp only; omega)
    simp only [example_fdfminimizer_run] at key
    obtain ⟨e1, e2, e3⟩ := key
    refine ⟨e1, ?_, e3⟩
    rw [e2, List.replicate_succ]
    simp
/-- The run of the loop of `maximum_likelihood` with the example minimizer
`example_fminimizer_run m last_step n`, `m ≤ 500`: it is left after pass `m`, whose
record is the last one. -/
theorem example_fminimizer_run_loop (m : Nat) (last_step : Int) (n : Nat) (betasize : Nat)
    (verbose : Int) (hm : m ≤ 500) (k : Nat) :
    ∀ st : loop_state ℚ Nat, st.s = st.iter → st.iter + k + 1 = m →
      (simplex_loop (example_fminimizer_run m last_step n) betasize verbose st).iter = m ∧
      (simplex_loop (example_fminimizer_run m last_step n) betasize verbose st).log
        = st.log ++ List.replicate k ⟨0, some GSL_CONTINUE⟩
          ++ [if last_step ≠ 0 then ⟨last_step, none⟩ else ⟨0, some GSL_SUCCESS⟩] ∧
      (last_step = 0 → verbose ≠ 0 → Printed.minimum_found_at ∈
        (simplex_loop (example_fminimizer_run m last_step n) betasize verbose st).out) := by
  induction k with
  | zero =>
    intro st hs hk
    rw [simplex_loop]
    have h1 : ¬ st.s + 1 < m := by omega
    by_cases hl : last_step ≠ 0
    · simp [example_fminimizer_run, h1, hl]
      omega
    · have hl0 : last_step = 0 := not_not.mp hl
      have h2 : ¬ ((st.s : ℚ) + 1 < (m : ℚ)) := by exact_mod_cast h1
      simp [example_fminimizer_run, h1, hl0, h2, GSL_SUCCESS, GSL_CONTINUE]
      refine ⟨by omega, ?_⟩
      intro hv
      simp [hv]
  | succ k ih =>
    intro st hs hk
    rw [simplex_loop]
    have h1 : st.s + 1 < m := by omega
    have h2 : (st.s : ℚ) + 1 < (m : ℚ) := by exact_mod_cast h1
    have h3 : st.iter + 1 < MAX_ITERATIONS := by
      unfold MAX_ITERATIONS; omega
    have h4 : ¬ GSL_CONTINUE = GSL_SUCCESS := by decide
    simp only [example_fminimizer_run, h1, if_true, ne_eq, not_true_eq_false, if_false,
      Nat.cast_add, Nat.cast_one, h2, h3, h4, and_self]
    have key := ih
      { iter := st.iter + 1, status := GSL_CONTINUE, s := st.s + 1, g := st.g,
        out := if ¬ verbose = 0 then
            st.out ++ [Printed.simplex_iteration (st.iter + 1)
              ((List.range betasize).map
                (fun i => gsl_vector_get { size := n, data := fun _ => (3 : ℚ) } i)) 0
              ((st.s : ℚ) + 1)]
          else st.out,
        log := st.log ++ [{ step := 0, test := some GSL_CONTINUE }] }
      (by simp [hs]) (by simp only; omega)
    simp only [example_fminimizer_run] at key
    obtain ⟨e1, e2, e3⟩ := key
    refine ⟨e1, ?_, e3⟩
    rw [e2, List.replicate_succ]
    simp

/-- The loop of `maximum_likelihood_w_d` never prints the line `No min!!`. -/
theorem w_d_loop_out_no_min {α S : Type} [LinearOrderedField α]
    (M : gsl_multimin_fdfminimizer α S) (verbose : Int) (n : Nat) :
    ∀ st : loop_state α S, MAX_ITERATIONS_w_d - st.iter = n → Printed.no_min ∉ st.out →
      Printed.no_min ∉ (w_d_loop M verbose st).out := by
  induction n using Nat.strong_induction_on with
  | _ n ih =>
    intro st hn hout
    rw [w_d_loop]
    dsimp only
    by_cases h1 : (M.gsl_multimin_fdfminimizer_iterate st.s st.g).1 ≠ 0
    · rw [if_pos h1]
      exact hout
    · rw [if_neg h1]
      have key : ∀ st1 : loop_state α S, Printed.no_min ∉ st1.out →
          (st1.iter = st.iter + 1) →
          Printed.no_min ∉ (if M.gsl_multimin_test_gradient
            (M.gradient (M.gsl_multimin_fdfminimizer_iterate st.s st.g).2.1) 0.0001
              = GSL_CONTINUE ∧ st.iter + 1 < MAX_ITERATIONS_w_d
            then w_d_loop M verbose st1 else st1).out := by
        intro st1 ho hi
        split_ifs with h2
        · exact ih (MAX_ITERATIONS_w_d - st1.iter) (by omega) st1 rfl ho
        · exact ho
      apply key _ _ rfl
      simp only
      split_ifs <;> simp [hout]

/-- The loop of `maximum_likelihood` never prints the text
`Minimization reached maximum number of iterations.` -/
theorem simplex_loop_out_reached_maximum {α S : Type} [LinearOrderedField α]
    (M : gsl_multimin_fminimizer α S) (betasize : Nat) (verbose : Int) (n : Nat) :
    ∀ st : loop_state α S, MAX_ITERATIONS - st.iter = n → Printed.reached_maximum ∉ st.out →
      Printed.reached_maximum ∉ (simplex_loop M betasize verbose st).out := by
  induction n using Nat.strong_induction_on with
  | _ n ih =>
    intro st hn hout
    rw [simplex_loop]
    dsimp only
    by_cases h1 : (M.gsl_multimin_fminimizer_iterate st.s st.g).1 ≠ 0
    · rw [if_pos h1]
      exact hout
    · rw [if_neg h1]
      have key : ∀ st1 : loop_state α S, Printed.reached_maximum ∉ st1.out →
          (st1.iter = st.iter + 1) →
          Printed.reached_maximum ∉ (if M.gsl_multimin_test_size
            (M.gsl_multimin_fminimizer_size (M.gsl_multimin_fminimizer_iterate st.s st.g).2.1)
              1e-3 = GSL_CONTINUE ∧ st.iter + 1 < MAX_ITERATIONS
            then simplex_loop M betasize verbose st1 else st1).out := by
        intro st1 ho hi
        split_ifs with h2
        · exact ih (MAX_ITERATIONS - st1.iter) (by omega) st1 rfl ho
        · exact ho
      apply key _ _ rfl
      simp only
      split_ifs <;> simp [hout]

/-- The lines `maximum_likelihood_w_d` has printed when it returns: those of its
loop, followed by `No min!!` when the counter is 500. -/
theorem maximum_likelihood_w_d_out {α S : Type} [LinearOrderedField α]
    (M : gsl_multimin_fdfminimizer α S)
    (data : gsl_matrix α) (betasize : Nat) (likelihood : likelihood_fn α)
    (d_likelihood : d_likelihood_fn α) (fdf : fdf_fn α) (starting_pt : Option (Nat → α))
    (step_size : α) (verbose : Int) (g : Globals α) (r : driver_result α)
    (h : maximum_likelihood_w_d M data betasize likelihood d_likelihood fdf starting_pt
      step_size verbose g = some r) :
    r.out = if (w_d_loop M verbose (w_d_start M data betasize likelihood d_likelihood fdf
          starting_pt step_size g)).iter = MAX_ITERATIONS_w_d
        then (w_d_loop M verbose (w_d_start M data betasize likelihood d_likelihood fdf
          starting_pt step_size g)).out ++ [Printed.no_min]
        else (w_d_loop M verbose (w_d_start M data betasize likelihood d_likelihood fdf
          starting_pt step_size g)).out := by
  unfold maximum_likelihood_w_d at h
  simp only [Option.bind_eq_bind, Option.pure_def, Option.bind_eq_some] at h
  obtain ⟨b, _, v, _, hr⟩ := h
  simp only [Option.some.injEq] at hr
  subst hr
  rfl

/-- The lines `maximum_likelihood` has printed when it returns: those of its loop,
followed by `Minimization reached maximum number of iterations.` when the counter
is 500. -/
theorem maximum_likelihood_out {α S : Type} [LinearOrderedField α]
    (M : gsl_multimin_fminimizer α S)
    (data : gsl_matrix α) (betasize : Nat) (likelihood : likelihood_fn α)
    (starting_pt : Option (Nat → α)) (step_size : α) (verbose : Int) (g : Globals α)
    (r : driver_result α) (st0 : loop_state α S)
    (h0 : simplex_start M data betasize likelihood starting_pt step_size g = some st0)
    (h : maximum_likelihood M data betasize likelihood starting_pt step_size verbose g
      = some r) :
    r.out = if (simplex_loop M betasize verbose st0).iter = MAX_ITERATIONS
        then (simplex_loop M betasize verbose st0).out ++ [Printed.reached_maximum]
        else (simplex_loop M betasize verbose st0).out := by
  unfold maximum_likelihood at h
  rw [h0] at h
  simp only [Option.bind_eq_bind, Option.pure_def, Option.bind_eq_some, Option.some_bind] at h
  obtain ⟨b, _, v, _, hr⟩ := h
  simp only [Option.some.injEq] at hr
  subst hr
  rfl

/-- The line `No min!!` is printed by `maximum_likelihood_w_d` exactly when the
counter is 500 when the loop is left, whatever the last status is. -/
theorem maximum_likelihood_w_d_no_min_iff {α S : Type} [LinearOrderedField α]
    (M : gsl_multimin_fdfminimizer α S)
    (data : gsl_matrix α) (betasize : Nat) (likelihood : likelihood_fn α)
    (d_likelihood : d_likelihood_fn α) (fdf : fdf_fn α) (starting_pt : Option (Nat → α))
    (step_size : α) (verbose : Int) (g : Globals α) (r : driver_result α)
    (h : maximum_likelihood_w_d M data betasize likelihood d_likelihood fdf starting_pt
      step_size verbose g = some r) :
    Printed.no_min ∈ r.out ↔ r.iter = 500 := by
  have hout := maximum_likelihood_w_d_out M data betasize likelihood d_likelihood fdf
    starting_pt step_size verbose g r h
  obtain ⟨_, _, _, hiter, _⟩ := maximum_likelihood_w_d_some M data betasize likelihood
    d_likelihood fdf starting_pt step_size verbose g r h
  have hno := w_d_loop_out_no_min M verbose _ (w_d_start M data betasize likelihood
    d_likelihood fdf starting_pt step_size g) rfl (List.not_mem_nil _)
  rw [hout, hiter]
  by_cases hi : (w_d_loop M verbose (w_d_start M data betasize likelihood d_likelihood fdf
      starting_pt step_size g)).iter = MAX_ITERATIONS_w_d
  · rw [if_pos hi]
    simp only [List.mem_append, List.mem_singleton, or_true, true_iff]
    exact hi
  · rw [if_neg hi]
    exact ⟨fun hm => absurd hm hno, fun he => absurd he hi⟩
/-- What `maximum_likelihood_w_d` returns with the example minimizer of a run of
exactly 500 steps: the counter is 500, the last record is that of step 500, and
`No min!!` is printed. -/
theorem example_w_d_run_500 (last_step : Int) (verbose : Int) :
    ∃ r, maximum_likelihood_w_d (example_fdfminimizer_run 500 last_step 2)
        (gsl_matrix.ofRows 1 2 [[0, 7]]) 2 example_likelihood
        (fun _ _ df g => some (df, g)) (fun _ _ df g => some (0, df, g)) none 1 verbose
        ⟨none, 0⟩ = some r ∧
      r.iter = 500 ∧
      r.log.getLast?
        = some (if last_step ≠ 0 then ⟨last_step, none⟩ else ⟨0, some GSL_SUCCESS⟩) ∧
      Printed.no_min ∈ r.out ∧
      (last_step = 0 → verbose ≠ 0 → Printed.minimum_found ∈ r.out) := by
  obtain ⟨r, hr⟩ := maximum_likelihood_w_d_total (example_fdfminimizer_run 500 last_step 2)
    (gsl_matrix.ofRows 1 2 [[0, 7]]) 2 example_likelihood
    (fun _ _ df g => some (df, g)) (fun _ _ df g => some (0, df, g)) none 1 verbose
    ⟨none, 0⟩ rfl (fun _ _ => rfl)
  obtain ⟨_, _, _, hiter, hlog⟩ := maximum_likelihood_w_d_some _ _ _ _ _ _ _ _ _ _ r hr
  have hout := maximum_likelihood_w_d_out _ _ _ _ _ _ _ _ _ _ r hr
  obtain ⟨e1, e2, e3⟩ := example_fdfminimizer_run_loop 500 last_step 2 verbose (le_refl _) 499
    (w_d_start (example_fdfminimizer_run 500 last_step 2)
      (gsl_matrix.ofRows 1 2 [[0, 7]]) 2 example_likelihood
      (fun _ _ df g => some (df, g)) (fun _ _ df g => some (0, df, g)) none 1 ⟨none, 0⟩)
    rfl rfl
  rw [e1] at hiter hout
  rw [e2] at hlog
  rw [if_pos (by rfl)] at hout
  refine ⟨r, hr, hiter, ?_, ?_, ?_⟩
  · rw [hlog]
    exact List.getLast?_concat _
  · rw [hout]
    exact List.mem_append_right _ (List.mem_singleton_self _)
  · intro h1 h2
    rw [hout]
    exact List.mem_append_left _ (e3 h1 h2)

/-- What `maximum_likelihood` returns with the example minimizer of a run of
exactly 500 steps: the counter is 500, the last record is that of step 500, and
`Minimization reached maximum number of iterations.` is printed. -/
theorem example_simplex_run_500 (last_step : Int) (verbose : Int) :
    ∃ r, maximum_likelihood (example_fminimizer_run 500 last_step 2)
        (gsl_matrix.ofRows 1 2 [[0, 7]]) 2 example_likelihood (some (fun _ => 0)) 1 verbose
        ⟨none, 0⟩ = some r ∧
      r.iter = 500 ∧
      r.log.getLast?
        = some (if last_step ≠ 0 then ⟨last_step, none⟩ else ⟨0, some GSL_SUCCESS⟩) ∧
      Printed.reached_maximum ∈ r.out ∧
      (last_step = 0 → verbose ≠ 0 → Printed.minimum_found_at ∈ r.out) := by
  obtain ⟨r, hr⟩ := maximum_likelihood_total (example_fminimizer_run 500 last_step 2)
    (gsl_matrix.ofRows 1 2 [[0, 7]]) 2 example_likelihood (fun _ => 0) 1 verbose
    ⟨none, 0⟩ (fun _ => rfl) (fun _ _ => rfl)
  obtain ⟨st0, h0, _, _, _, hiter, hlog⟩ := maximum_likelihood_some _ _ _ _ _ _ _ _ r hr
  have hout := maximum_likelihood_out _ _ _ _ _ _ _ _ r st0 h0 hr
  obtain ⟨st1, h1, hi1, hl1⟩ := simplex_start_some (example_fminimizer_run 500 last_step 2)
    (gsl_matrix.ofRows 1 2 [[0, 7]]) 2 example_likelihood (fun _ => 0) (1 : ℚ) ⟨none, 0⟩
  have hs0 : st0.s = 0 := by
    simp only [simplex_start, Option.bind_eq_bind, Option.some_bind, Option.pure_def,
      Option.some.injEq] at h0
    rw [← h0]
    rfl
  rw [h0] at h1
  simp only [Option.some.injEq] at h1
  subst h1
  obtain ⟨e1, e2, e3⟩ := example_fminimizer_run_loop 500 last_step 2 2 verbose (le_refl _) 499
    st0 (by rw [hs0, hi1]) (by rw [hi1])
  rw [e1] at hiter hout
  rw [e2, hl1] at hlog
  rw [if_pos (by rfl)] at hout
  refine ⟨r, hr, hiter, ?_, ?_, ?_⟩
  · rw [hlog]
    exact List.getLast?_concat _
  · rw [hout]
    exact List.mem_append_right _ (List.mem_singleton_self _)
  · intro h1 h2
    rw [hout]
    exact List.mem_append_left _ (e3 h1 h2)

/-! ## The Zipf likelihood near the boundary -/

/-- As `b` tends to 1 from above, `log (log b)` tends to minus infinity. -/
theorem tendsto_log_log_nhdsWithin_one :
    Filter.Tendsto (fun b : ℝ => Real.log (Real.log b)) (nhdsWithin 1 (Set.Ioi 1))
      Filter.atBot := by
  have h1 : Filter.Tendsto Real.log (nhdsWithin 1 (Set.Ioi 1)) (nhdsWithin 0 (Set.Ioi 0)) := by
    apply tendsto_nhdsWithin_of_tendsto_nhds_of_eventually_within
    · have hc : ContinuousAt Real.log 1 := Real.continuousAt_log one_ne_zero
      have h := hc.tendsto
      rw [Real.log_one] at h
      exact h.mono_left nhdsWithin_le_nhds
    · filter_upwards [self_mem_nhdsWithin] with b hb
      exact Real.log_pos hb
  have h2 : Filter.Tendsto Real.log (nhdsWithin 0 (Set.Ioi 0)) Filter.atBot :=
    Real.tendsto_log_nhdsWithin_zero.mono_left
      (nhdsWithin_mono _ (fun x hx => ne_of_gt hx))
  exact h2.comp h1

/-- The value of `zipf_likelihood` tends to plus infinity as `b` tends to 1 from
above when the counts are non-negative and a row of index at least 1 holds a
strictly positive count. -/
theorem zipf_likelihood_tendsto_atTop (d : gsl_matrix ℝ)
    (hnn : ∀ i k, 0 ≤ d.data i k)
    (hpos : ∃ i k, 1 ≤ i ∧ i < d.size1 ∧ k < d.size2 ∧ 0 < d.data i k) :
    Filter.Tendsto (fun b : ℝ => (zipf_likelihood Real.log (gsl_vector.ofList [b]) d).untop' 0)
      (nhdsWithin 1 (Set.Ioi 1)) Filter.atTop := by
  have hS : 0 < ∑ i ∈ Finset.Ico 1 d.size1, ∑ k ∈ Finset.range d.size2, d.data i k := by
    obtain ⟨i, k, hi1, hi2, hk, hik⟩ := hpos
    apply Finset.sum_pos'
    · intro i _
      exact Finset.sum_nonneg (fun k _ => hnn i k)
    · refine ⟨i, Finset.mem_Ico.mpr ⟨hi1, hi2⟩, ?_⟩
      apply Finset.sum_pos'
      · intro k _
        exact hnn i k
      · exact ⟨k, Finset.mem_range.mpr hk, hik⟩
  have hlim : Filter.Tendsto (fun b : ℝ =>
      (∑ i ∈ Finset.Ico 1 d.size1, ∑ k ∈ Finset.range d.size2, d.data i k)
        * (-Real.log (Real.log b))) (nhdsWithin 1 (Set.Ioi 1)) Filter.atTop :=
    (Filter.tendsto_neg_atBot_atTop.comp tendsto_log_log_nhdsWithin_one).const_mul_atTop hS
  refine Filter.tendsto_atTop_mono' _ ?_ hlim
  filter_upwards [self_mem_nhdsWithin] with b hb
  have hb' : (1 : ℝ) < b := hb
  have hb0 : (gsl_vector.ofList [b]).data 0 = b := by simp [gsl_vector.ofList]
  have hlog : 0 < Real.log b := Real.log_pos hb'
  rw [zipf_likelihood_sum Real.log _ d (by rw [hb0]; exact hb'), hb0]
  show _ ≤ -(∑ i ∈ Finset.Ico 1 d.size1, ∑ k ∈ Finset.range d.size2,
      d.data i k * (Real.log (Real.log b) - Real.log b * (k : ℝ)))
  rw [Finset.sum_mul, ← Finset.sum_neg_distrib]
  apply Finset.sum_le_sum
  intro i _
  rw [Finset.sum_mul, ← Finset.sum_neg_distrib]
  apply Finset.sum_le_sum
  intro k _
  have hk : (0 : ℝ) ≤ (k : ℝ) := Nat.cast_nonneg k
  have hprod : 0 ≤ d.data i k * (Real.log b * (k : ℝ)) :=
    mul_nonneg (hnn i k) (mul_nonneg hlog.le hk)
  linarith

/-- On a matrix of one row `zipf_likelihood` never returns a number other than 0. -/
theorem zipf_likelihood_one_row (b : ℝ) :
    (zipf_likelihood Real.log (gsl_vector.ofList [b]) (gsl_matrix.ofRows 1 1 [[1]])).untop' 0
      = 0 := by
  by_cases hb : b ≤ 1
  · simp [zipf_likelihood, gsl_vector_get, gsl_vector.ofList, GSL_POSINF, hb]
  · rw [zipf_likelihood_sum Real.log _ _ (by simpa [gsl_vector.ofList] using hb)]
    simp [gsl_matrix.ofRows]

/-! ## The step size and the verbose flag -/

/-- The loop of `maximum_likelihood_w_d` uses `verbose` and the lines printed so
far for printing only: two runs from states that agree on the counter, the
minimizer, the globals and the record end in states that agree on these and on
the status. -/
theorem w_d_loop_verbose_irrelevant {α S : Type} [LinearOrderedField α]
    (M : gsl_multimin_fdfminimizer α S) (v v' : Int) (n : Nat) :
    ∀ st st' : loop_state α S, MAX_ITERATIONS_w_d - st.iter = n →
      st.iter = st'.iter → st.s = st'.s → st.g = st'.g → st.log = st'.log →
      (w_d_loop M v st).iter = (w_d_loop M v' st').iter ∧
      (w_d_loop M v st).status = (w_d_loop M v' st').status ∧
      (w_d_loop M v st).s = (w_d_loop M v' st').s ∧
      (w_d_loop M v st).g = (w_d_loop M v' st').g ∧
      (w_d_loop M v st).log = (w_d_loop M v' st').log := by
  induction n using Nat.strong_induction_on with
  | _ n ih =>
    intro st st' hn hi hs hg hl
    rw [w_d_loop.eq_1 M v st, w_d_loop.eq_1 M v' st']
    dsimp only
    rw [← hi, ← hs, ← hg, ← hl]
    by_cases h1 : (M.gsl_multimin_fdfminimizer_iterate st.s st.g).1 ≠ 0
    · rw [if_pos h1, if_pos h1]
      exact ⟨rfl, rfl, rfl, rfl, rfl⟩
    · rw [if_neg h1, if_neg h1]
      by_cases h2 : M.gsl_multimin_test_gradient
          (M.gradient (M.gsl_multimin_fdfminimizer_iterate st.s st.g).2.1) 0.0001 = GSL_CONTINUE
          ∧ st.iter + 1 < MAX_ITERATIONS_w_d
      · rw [if_pos h2, if_pos h2]
        exact ih (MAX_ITERATIONS_w_d - (st.iter + 1)) (by omega) _ _ rfl rfl rfl rfl rfl
      · rw [if_neg h2, if_neg h2]
        exact ⟨rfl, rfl, rfl, rfl, rfl⟩

/-- The values `maximum_likelihood_w_d` hands back do not depend on `step_size`
and `verbose`. -/
theorem maximum_likelihood_w_d_step_verbose {α S : Type} [LinearOrderedField α]
    (M : gsl_multimin_fdfminimizer α S)
    (data : gsl_matrix α) (betasize : Nat) (likelihood : likelihood_fn α)
    (d_likelihood : d_likelihood_fn α) (fdf : fdf_fn α) (starting_pt : Option (Nat → α))
    (step_size step_size' : α) (verbose verbose' : Int) (g : Globals α) :
    (maximum_likelihood_w_d M data betasize likelihood d_likelihood fdf starting_pt
        step_size verbose g).map (fun r => (r.value, r.betas, r.g, r.iter, r.log))
      = (maximum_likelihood_w_d M data betasize likelihood d_likelihood fdf starting_pt
        step_size' verbose' g).map (fun r => (r.value, r.betas, r.g, r.iter, r.log)) := by
  have hstart : w_d_start M data betasize likelihood d_likelihood fdf starting_pt step_size g
      = w_d_start M data betasize likelihood d_likelihood fdf starting_pt step_size' g := rfl
  obtain ⟨e1, _, e3, e4, e5⟩ := w_d_loop_verbose_irrelevant M verbose verbose' _
    (w_d_start M data betasize likelihood d_likelihood fdf starting_pt step_size g)
    (w_d_start M data betasize likelihood d_likelihood fdf starting_pt step_size' g)
    rfl rfl rfl rfl rfl
  unfold maximum_likelihood_w_d
  simp only [Option.bind_eq_bind, Option.pure_def]
  rw [e1, e3, e4, e5]
  cases gsl_vector_memcpy (gsl_vector_alloc betasize)
      (M.x (w_d_loop M verbose' (w_d_start M data betasize likelihood d_likelihood fdf
        starting_pt step_size' g)).s) with
  | none => rfl
  | some b =>
    simp only [Option.some_bind]
    cases likelihood b data (w_d_loop M verbose' (w_d_start M data betasize likelihood
        d_likelihood fdf starting_pt step_size' g)).g with
    | none => rfl
    | some r => rfl

/-! ## The default starting point -/

/-- With the minimizer that stays where it was set, `maximum_likelihood_w_d`
called with no starting point returns the value of the likelihood function at the
all-zero vector of `betasize` entries. -/
theorem maximum_likelihood_w_d_stay {α : Type} [LinearOrderedField α]
    (data : gsl_matrix α) (betasize : Nat) (likelihood : likelihood_fn α)
    (d_likelihood : d_likelihood_fn α) (fdf : fdf_fn α)
    (step_size : α) (verbose : Int) (g : Globals α) (v : WithTop α)
    (h : likelihood { size := betasize, data := fun _ => 0 } data g = some (v, g)) :
    ∃ r, maximum_likelihood_w_d (example_fdfminimizer_stay α) data betasize likelihood
        d_likelihood fdf none step_size verbose g = some r ∧
      r.value = v ∧ r.betas = { size := betasize, data := fun _ => 0 } := by
  have hs : (w_d_loop (example_fdfminimizer_stay α) verbose
      (w_d_start (example_fdfminimizer_stay α) data betasize likelihood d_likelihood fdf none
        step_size g)).s = { size := betasize, data := fun _ => 0 } := by
    rw [w_d_loop.eq_1]
    simp [example_fdfminimizer_stay, w_d_start, GSL_SUCCESS, GSL_CONTINUE, gsl_vector_set_all,
      gsl_vector_alloc]
  have hg : (w_d_loop (example_fdfminimizer_stay α) verbose
      (w_d_start (example_fdfminimizer_stay α) data betasize likelihood d_likelihood fdf none
        step_size g)).g = g := by
    rw [w_d_loop.eq_1]
    simp [example_fdfminimizer_stay, w_d_start, GSL_SUCCESS, GSL_CONTINUE]
  have hx : ∀ s : gsl_vector α, (example_fdfminimizer_stay α).x s = s := fun _ => rfl
  unfold maximum_likelihood_w_d
  simp only [Option.bind_eq_bind, Option.pure_def]
  rw [hx, hs, hg]
  have hm : gsl_vector_memcpy (gsl_vector_alloc betasize)
      ({ size := betasize, data := fun _ => 0 } : gsl_vector α)
      = some { size := betasize, data := fun _ => 0 } := by
    simp [gsl_vector_memcpy, gsl_vector_alloc]
  rw [hm]
  simp only [Option.some_bind]
  rw [h]
  exact ⟨_, rfl, rfl, rfl⟩

/-! ## The conversion of the parameters to float -/

theorem int_log_two_eq {α : Type} [LinearOrderedField α] [FloorRing α] (r : α) (e : Int)
    (h1 : (2 : α) ^ e ≤ r) (h2 : r < (2 : α) ^ (e + 1)) : Int.log 2 r = e := by
  have hr : 0 < r := lt_of_lt_of_le (zpow_pos (by norm_num) e) h1
  have a1 : e ≤ Int.log 2 r := (Int.zpow_le_iff_le_log (by norm_num) hr).mp (by exact_mod_cast h1)
  have a2 : Int.log 2 r < e + 1 := (Int.lt_zpow_iff_log_lt (by norm_num) hr).mp (by exact_mod_cast h2)
  omega


/-- The value of `float_of_double` at a number whose binary exponent is `e` and
which lies less than half a step above the multiple `n` of the step. -/
theorem float_of_double_eq {α : Type} [LinearOrderedField α] [FloorRing α] (x : α)
    (e n : Int) (he1 : (2 : α) ^ e ≤ |x|) (he2 : |x| < (2 : α) ^ (e + 1)) (hlow : -126 ≤ e)
    (hn1 : (n : α) ≤ x / (2 : α) ^ (e - 23))
    (hn2 : x / (2 : α) ^ (e - 23) - (n : α) < 1 / 2) :
    float_of_double x = (n : α) * (2 : α) ^ (e - 23) := by
  have hfloor : ⌊x / (2 : α) ^ (e - 23)⌋ = n := by
    rw [Int.floor_eq_iff]
    constructor
    · exact hn1
    · linarith
  unfold float_of_double round_half_even
  simp only [int_log_two_eq |x| e he1 he2, max_eq_left hlow, hfloor, if_pos hn2]

/-- Zero converts to zero. -/
theorem float_of_double_zero {α : Type} [LinearOrderedField α] [FloorRing α] :
    float_of_double (0 : α) = 0 := by
  simp [float_of_double, round_half_even]

/-- The number `2 + 2 ^ (-30)` converts to 2. -/
theorem float_of_double_above_two : float_of_double (2 + 1 / 2 ^ 30 : ℝ) = 2 := by
  rw [float_of_double_eq (2 + 1 / 2 ^ 30 : ℝ) 1 8388608 (by rw [abs_of_pos (by norm_num)]; norm_num)
    (by rw [abs_of_pos (by norm_num)]; norm_num) (by norm_num) (by norm_num) (by norm_num)]
  norm_num

/-- The number `1 + 2 ^ (-30)` converts to 1. -/
theorem float_of_double_above_one : float_of_double (1 + 1 / 2 ^ 30 : ℝ) = 1 := by
  rw [float_of_double_eq (1 + 1 / 2 ^ 30 : ℝ) 0 8388608 (by rw [abs_of_pos (by norm_num)]; norm_num)
    (by rw [abs_of_pos (by norm_num)]; norm_num) (by norm_num) (by norm_num) (by norm_num)]
  norm_num

/-- The number 3 converts to itself. -/
theorem float_of_double_three : float_of_double (3 : ℝ) = 3 := by
  rw [float_of_double_eq (3 : ℝ) 1 12582912 (by rw [abs_of_pos (by norm_num)]; norm_num)
    (by rw [abs_of_pos (by norm_num)]; norm_num) (by norm_num) (by norm_num) (by norm_num)]
  norm_num

/-- The number 2 converts to itself. -/
theorem float_of_double_two : float_of_double (2 : ℝ) = 2 := by
  rw [float_of_double_eq (2 : ℝ) 1 8388608 (by rw [abs_of_pos (by norm_num)]; norm_num)
    (by rw [abs_of_pos (by norm_num)]; norm_num) (by norm_num) (by norm_num) (by norm_num)]
  norm_num

/-- The function `waring_likelihood_float` is `waring_likelihood` at the converted
parameters. -/
theorem waring_likelihood_float_eq {α : Type} [LinearOrderedField α] (to_float : α → α)
    (log gsl_sf_lngamma : α → α) (beta : gsl_vector α) (d : gsl_matrix α) :
    waring_likelihood_float to_float log gsl_sf_lngamma beta d
      = waring_likelihood log gsl_sf_lngamma
          { size := beta.size, data := fun i => to_float (beta.data i) } d := rfl

/-- The function `yule_likelihood_float` is `yule_likelihood` at the converted
parameter. -/
theorem yule_likelihood_float_eq {α : Type} [LinearOrderedField α] (to_float : α → α)
    (log gsl_sf_lngamma : α → α) (beta : gsl_vector α) (d : gsl_matrix α) :
    yule_likelihood_float to_float log gsl_sf_lngamma beta d
      = yule_likelihood log gsl_sf_lngamma
          { size := beta.size, data := fun i => to_float (beta.data i) } d := rfl

/-- The function `zipf_likelihood_float` is `zipf_likelihood` at the converted
parameter. -/
theorem zipf_likelihood_float_eq {α : Type} [LinearOrderedField α] (to_float : α → α)
    (log : α → α) (beta : gsl_vector α) (d : gsl_matrix α) :
    zipf_likelihood_float to_float log beta d
      = zipf_likelihood log { size := beta.size, data := fun i => to_float (beta.data i) } d :=
  rfl

/-- The function `d_zipf_likelihood_float` is `d_zipf_likelihood` at the converted
parameter. -/
theorem d_zipf_likelihood_float_eq {α : Type} [LinearOrderedField α] (to_float : α → α)
    (log : α → α) (beta : gsl_vector α) (d : gsl_matrix α) (gradient : gsl_vector α) :
    d_zipf_likelihood_float to_float log beta d gradient
      = d_zipf_likelihood log { size := beta.size, data := fun i => to_float (beta.data i) } d
          gradient := rfl

/-- The derivative at `t0 > 1` of the real-valued expression that `zipf_likelihood`
evaluates. -/
theorem zipf_value_hasDerivAt (d : gsl_matrix ℝ) (t0 : ℝ) (ht0 : 1 < t0) :
    HasDerivAt
      (fun t : ℝ => -(∑ i ∈ Finset.Ico 1 d.size1, ∑ k ∈ Finset.range d.size2,
        d.data i k * (Real.log (Real.log t) - Real.log t * (k : ℝ))))
      (-(∑ i ∈ Finset.Ico 1 d.size1, ∑ k ∈ Finset.range d.size2,
        d.data i k * (1 / Real.log t0 - (k : ℝ)) / t0)) t0 := by
  have h := zipf_likelihood_hasDerivAt (gsl_vector.ofList [t0]) d
    (by simpa [gsl_vector.ofList] using ht0)
  have h0 : (gsl_vector.ofList [t0]).data 0 = t0 := by simp [gsl_vector.ofList]
  rw [h0] at h
  refine h.congr_of_eventuallyEq ?_
  filter_upwards [Ioi_mem_nhds ht0] with t ht
  have ht1 : (gsl_vector_set (gsl_vector.ofList [t0]) 0 t).data 0 = t := by
    simp [gsl_vector_set]
  rw [zipf_likelihood_sum Real.log _ d (by rw [ht1]; exact ht), ht1]
  rfl

/-! ## Theorems -/

/-- C1. Domain guards: `waring_likelihood` is `GSL_POSINF` whenever `b ≤ 2` or
`a ≤ -1`, `yule_likelihood` whenever `b ≤ 2`, `zipf_likelihood` whenever
`b ≤ 1`, whatever the data matrix and the special functions are. -/
theorem domain_guards {α : Type} [LinearOrderedField α] (log gsl_sf_lngamma : α → α)
    (beta : gsl_vector α) (d : gsl_matrix α) :
    ((beta.data 0 ≤ 2 ∨ beta.data 1 ≤ -1) →
        waring_likelihood log gsl_sf_lngamma beta d = ⊤) ∧
    (beta.data 0 ≤ 2 → yule_likelihood log gsl_sf_lngamma beta d = ⊤) ∧
    (beta.data 0 ≤ 1 → zipf_likelihood log beta d = ⊤) := by
  refine ⟨fun h => ?_, fun h => ?_, fun h => ?_⟩
  · simp [waring_likelihood, gsl_vector_get, GSL_POSINF, h]
  · simp [yule_likelihood, gsl_vector_get, GSL_POSINF, h]
  · simp [zipf_likelihood, gsl_vector_get, GSL_POSINF, h]

/-- Witness of C1 at the boundary values `b = 2`, `a = -1` (Waring, Yule) and
`b = 1` (Zipf). -/
theorem domain_guards_witness :
    waring_likelihood (fun x : ℚ => x) (fun x => x) (gsl_vector.ofList [2, -1])
        (gsl_matrix.ofRows 1 2 [[0, 7]]) = ⊤ ∧
    yule_likelihood (fun x : ℚ => x) (fun x => x) (gsl_vector.ofList [2, -1])
        (gsl_matrix.ofRows 1 2 [[0, 7]]) = ⊤ ∧
    zipf_likelihood (fun x : ℚ => x) (gsl_vector.ofList [1])
        (gsl_matrix.ofRows 1 2 [[0, 7]]) = ⊤ :=
  ⟨(domain_guards (fun x : ℚ => x) (fun x => x) (gsl_vector.ofList [2, -1])
      (gsl_matrix.ofRows 1 2 [[0, 7]])).1 (by simp [gsl_vector.ofList]),
   (domain_guards (fun x : ℚ => x) (fun x => x) (gsl_vector.ofList [2, -1])
      (gsl_matrix.ofRows 1 2 [[0, 7]])).2.1 (by simp [gsl_vector.ofList]),
   (domain_guards (fun x : ℚ => x) (fun x => x) (gsl_vector.ofList [1])
      (gsl_matrix.ofRows 1 2 [[0, 7]])).2.2 (by simp [gsl_vector.ofList])⟩

/-- C2 (counterexample). The parameter `b = 2 + 2^(-30)` is greater than 2, and
`yule_likelihood` returns `GSL_POSINF` there, not a number: the declaration
`float bb` converts the parameter to 2 and the guard `bb <= 2` fires. -/
theorem yule_likelihood_infinite_above_two :
    (2 : ℝ) < (gsl_vector.ofList [(2 : ℝ) + 1 / 2 ^ 30]).data 0 ∧
    yule_likelihood_float float_of_double Real.log (fun x => Real.log (Real.Gamma x))
        (gsl_vector.ofList [2 + 1 / 2 ^ 30]) (gsl_matrix.ofRows 1 2 [[0, 7]]) = ⊤ ∧
    ¬ ∃ x : ℝ, yule_likelihood_float float_of_double Real.log
        (fun x => Real.log (Real.Gamma x))
        (gsl_vector.ofList [2 + 1 / 2 ^ 30]) (gsl_matrix.ofRows 1 2 [[0, 7]])
          = (x : WithTop ℝ) := by
  have h : yule_likelihood_float float_of_double Real.log (fun x => Real.log (Real.Gamma x))
      (gsl_vector.ofList [2 + 1 / 2 ^ 30]) (gsl_matrix.ofRows 1 2 [[0, 7]]) = ⊤ := by
    have e : (gsl_vector.ofList [(2 : ℝ) + 1 / 2 ^ 30]).data 0 = 2 + 1 / 2 ^ 30 := rfl
    simp only [yule_likelihood_float, gsl_vector_get, e, float_of_double_above_two,
      le_refl, if_true, GSL_POSINF]
  refine ⟨by norm_num [gsl_vector.ofList], h, ?_⟩
  rintro ⟨x, hx⟩
  rw [h] at hx
  exact WithTop.coe_ne_top hx.symm

/-- C2 (as amended). For Waring, Yule and Zipf the guard is decided on the
parameters as converted to `float`: for every data matrix the function returns
`GSL_POSINF` when the converted parameters violate the guard, and otherwise
returns the number that is minus the sum of its terms, evaluated at the converted
parameters.  The statement does not cover `probit_likelihood`. -/
theorem guard_and_value_at_converted_parameters {α : Type} [LinearOrderedField α]
    (to_float log gsl_sf_lngamma : α → α) (beta : gsl_vector α) (d : gsl_matrix α) :
    (waring_likelihood_float to_float log gsl_sf_lngamma beta d =
      if to_float (beta.data 0) ≤ 2 ∨ to_float (beta.data 1) ≤ -1 then GSL_POSINF
      else ((-(∑ i ∈ Finset.range d.size1, ∑ k ∈ Finset.Ico 1 d.size2,
          d.data i k * (log (to_float (beta.data 0) - 1)
            + gsl_sf_lngamma ((k : α) + to_float (beta.data 1))
            + gsl_sf_lngamma (to_float (beta.data 0) + to_float (beta.data 1))
            - gsl_sf_lngamma (to_float (beta.data 1) + 1)
            - gsl_sf_lngamma ((k : α) + to_float (beta.data 1) + to_float (beta.data 0)))) : α)
          : WithTop α)) ∧
    (yule_likelihood_float to_float log gsl_sf_lngamma beta d =
      if to_float (beta.data 0) ≤ 2 then GSL_POSINF
      else ((-(∑ i ∈ Finset.range d.size1, ∑ k ∈ Finset.Ico 1 d.size2,
          d.data i k * (log (to_float (beta.data 0) - 1)
            + (if k > 1 then gsl_sf_lngamma (k : α) else 0)
            + gsl_sf_lngamma (to_float (beta.data 0))
            - gsl_sf_lngamma ((k : α) + to_float (beta.data 0)))) : α) : WithTop α)) ∧
    (zipf_likelihood_float to_float log beta d =
      if to_float (beta.data 0) ≤ 1 then GSL_POSINF
      else ((-(∑ i ∈ Finset.Ico 1 d.size1, ∑ k ∈ Finset.range d.size2,
          d.data i k * (log (log (to_float (beta.data 0)))
            - log (to_float (beta.data 0)) * (k : α))) : α) : WithTop α)) := by
  refine ⟨?_, ?_, ?_⟩
  · by_cases h : to_float (beta.data 0) ≤ 2 ∨ to_float (beta.data 1) ≤ -1
    · rw [if_pos h]
      simp only [waring_likelihood_float, gsl_vector_get, if_pos h]
    · rw [if_neg h, waring_likelihood_float_eq]
      rw [not_or, not_le, not_le] at h
      exact waring_likelihood_sum log gsl_sf_lngamma _ d h.1 h.2
  · by_cases h : to_float (beta.data 0) ≤ 2
    · rw [if_pos h]
      simp only [yule_likelihood_float, gsl_vector_get, if_pos h]
    · rw [if_neg h, yule_likelihood_float_eq]
      exact yule_likelihood_sum log gsl_sf_lngamma _ d (not_le.mp h)
  · by_cases h : to_float (beta.data 0) ≤ 1
    · rw [if_pos h]
      simp only [zipf_likelihood_float, gsl_vector_get, if_pos h]
    · rw [if_neg h, zipf_likelihood_float_eq]
      exact zipf_likelihood_sum log _ d (not_le.mp h)

/-- Witness of C2 (as amended), with the conversion `float_of_double`: at
`b = 2 + 2^(-30)` the guard of `zipf_likelihood` does not fire and that of
`waring_likelihood` does; at `b = 3` the value of `yule_likelihood` on the matrix
`[[0, 7]]` is the number `-(7 * (log 2 + lnGamma 3 - lnGamma 4))`. -/
theorem guard_and_value_at_converted_parameters_witness :
    waring_likelihood_float float_of_double Real.log (fun x => Real.log (Real.Gamma x))
        (gsl_vector.ofList [2 + 1 / 2 ^ 30, 0]) (gsl_matrix.ofRows 1 2 [[0, 7]]) = ⊤ ∧
    yule_likelihood_float float_of_double Real.log (fun x => Real.log (Real.Gamma x))
        (gsl_vector.ofList [3]) (gsl_matrix.ofRows 1 2 [[0, 7]])
      = ((-(7 * (Real.log 2 + Real.log (Real.Gamma 3) - Real.log (Real.Gamma 4))) : ℝ)
          : WithTop ℝ) ∧
    zipf_likelihood_float float_of_double Real.log
        (gsl_vector.ofList [2 + 1 / 2 ^ 30]) (gsl_matrix.ofRows 2 1 [[0], [7]])
      = ((-(7 * Real.log (Real.log 2)) : ℝ) : WithTop ℝ) := by
  have h := guard_and_value_at_converted_parameters float_of_double Real.log
    (fun x => Real.log (Real.Gamma x))
  refine ⟨?_, ?_, ?_⟩
  · rw [(h (gsl_vector.ofList [2 + 1 / 2 ^ 30, 0]) (gsl_matrix.ofRows 1 2 [[0, 7]])).1]
    have e : (gsl_vector.ofList [(2 : ℝ) + 1 / 2 ^ 30, 0]).data 0 = 2 + 1 / 2 ^ 30 := rfl
    rw [e, float_of_double_above_two, if_pos (Or.inl (le_refl 2))]
    rfl
  · rw [(h (gsl_vector.ofList [3]) (gsl_matrix.ofRows 1 2 [[0, 7]])).2.1]
    have e : (gsl_vector.ofList [(3 : ℝ)]).data 0 = 3 := rfl
    rw [e, float_of_double_three, if_neg (by norm_num)]
    norm_num [gsl_matrix.ofRows, Finset.sum_range_succ, Finset.sum_Ico_eq_sum_range]
  · rw [(h (gsl_vector.ofList [2 + 1 / 2 ^ 30]) (gsl_matrix.ofRows 2 1 [[0], [7]])).2.2]
    have e : (gsl_vector.ofList [(2 : ℝ) + 1 / 2 ^ 30]).data 0 = 2 + 1 / 2 ^ 30 := rfl
    rw [e, float_of_double_above_two, if_neg (by norm_num)]
    norm_num [gsl_matrix.ofRows, Finset.sum_range_succ, Finset.sum_Ico_eq_sum_range]

/-- C3. Yule is the special case `a = 0` of Waring: with `lnGamma(1) = 0`, for
every data matrix and every `b > 2`, `waring_likelihood` at `(b, 0)` equals
`yule_likelihood` at `(b)`. -/
theorem yule_is_waring_at_zero {α : Type} [LinearOrderedField α]
    (log gsl_sf_lngamma : α → α) (h1 : gsl_sf_lngamma 1 = 0) (b : α) (hb : 2 < b)
    (d : gsl_matrix α) :
    waring_likelihood log gsl_sf_lngamma (gsl_vector.ofList [b, 0]) d =
      yule_likelihood log gsl_sf_lngamma (gsl_vector.ofList [b]) d := by
  have hb0 : (gsl_vector.ofList [b, 0]).data 0 = b := by norm_num [gsl_vector.ofList]
  have ha0 : (gsl_vector.ofList [b, 0]).data 1 = 0 := by norm_num [gsl_vector.ofList]
  have hb1 : (gsl_vector.ofList [b]).data 0 = b := by norm_num [gsl_vector.ofList]
  rw [waring_likelihood_sum log gsl_sf_lngamma _ d (by rw [hb0]; exact hb)
      (by rw [ha0]; norm_num),
    yule_likelihood_sum log gsl_sf_lngamma _ d (by rw [hb1]; exact hb), hb0, ha0, hb1]
  congr 2
  apply Finset.sum_congr rfl
  intro i _
  apply Finset.sum_congr rfl
  intro k hk
  rw [Finset.mem_Ico] at hk
  congr 1
  by_cases hk1 : k > 1
  · simp [hk1, h1]
  · have hk' : k = 1 := by omega
    subst hk'
    simp [h1]

/-- Witness of C3 with the real logarithm and the real log-gamma function at `b = 3`. -/
theorem yule_is_waring_at_zero_witness :
    Real.log (Real.Gamma 1) = 0 ∧ (2 : ℝ) < 3 ∧
    waring_likelihood Real.log (fun x => Real.log (Real.Gamma x))
        (gsl_vector.ofList [3, 0]) (gsl_matrix.ofRows 2 3 [[0, 7, 1], [4, 0, 2]]) =
      yule_likelihood Real.log (fun x => Real.log (Real.Gamma x))
        (gsl_vector.ofList [3]) (gsl_matrix.ofRows 2 3 [[0, 7, 1], [4, 0, 2]]) :=
  ⟨by simp [Real.Gamma_one], by norm_num,
   yule_is_waring_at_zero Real.log (fun x => Real.log (Real.Gamma x))
     (by simp [Real.Gamma_one]) 3 (by norm_num) (gsl_matrix.ofRows 2 3 [[0, 7, 1], [4, 0, 2]])⟩

/-- C4. Probit negative log-likelihood: for a parameter vector whose length is the
number of covariate columns, `probit_likelihood` returns minus the sum over all
rows of `log(CDF(x_i . beta))` when the outcome (column 0) is 0 and of
`log(1 - CDF(x_i . beta))` otherwise; and on the matrix
`[[0, 1.0], [1, 2.0], [0, 0.5]]` at the parameter vector `[0.0]`, with the real
logarithm and a CDF whose value at 0 is 1/2, it returns
`-3 * log(0.5) = 3 * log 2`. -/
theorem probit_likelihood_formula {α : Type} [LinearOrderedField α] (log : α → α)
    (gsl_cdf_gaussian_P : α → α → α) (beta : gsl_vector α) (d : gsl_matrix α)
    (g : Globals α) (cdf : ℝ → ℝ → ℝ) (g0 : Globals ℝ) :
    (beta.size = d.size2 - 1 →
      probit_likelihood log gsl_cdf_gaussian_P beta d g =
        some (((-(∑ i ∈ Finset.range d.size1,
            if d.data i 0 = 0 then log (gsl_cdf_gaussian_P (linear_predictor beta d i) 1)
            else log (1 - gsl_cdf_gaussian_P (linear_predictor beta d i) 1)) : α) :
              WithTop α),
          dot beta d g)) ∧
    (cdf 0 1 = 1 / 2 →
      probit_likelihood Real.log cdf (gsl_vector.ofList [0])
          (gsl_matrix.ofRows 3 2 [[0, 1.0], [1, 2.0], [0, 0.5]]) g0 =
        some (((-(3 * Real.log 0.5) : ℝ) : WithTop ℝ),
          dot (gsl_vector.ofList [0])
            (gsl_matrix.ofRows 3 2 [[0, 1.0], [1, 2.0], [0, 0.5]]) g0) ∧
      -(3 * Real.log 0.5) = 3 * Real.log 2) := by
  refine ⟨fun hsize => probit_likelihood_sum log gsl_cdf_gaussian_P beta d g hsize,
    fun hcdf => ⟨?_, ?_⟩⟩
  · rw [probit_likelihood_sum Real.log cdf _ _ g0 (by simp [gsl_vector.ofList, gsl_matrix.ofRows])]
    have hp : ∀ i, linear_predictor (gsl_vector.ofList [(0 : ℝ)])
        (gsl_matrix.ofRows 3 2 [[0, 1.0], [1, 2.0], [0, 0.5]]) i = 0 := by
      intro i
      simp [linear_predictor, gsl_vector.ofList]
    simp only [hp, hcdf]
    congr 3
    have h12 : Real.log (1 / 2) = -Real.log 2 := by rw [one_div, Real.log_inv]
    simp [gsl_matrix.ofRows, Finset.sum_range_succ]
    norm_num
    rw [h12]
    ring
  · have h : Real.log 0.5 = -Real.log 2 := by
      rw [show (0.5 : ℝ) = 2⁻¹ by norm_num, Real.log_inv]
    rw [h]; ring

/-- Witness of C4: the general formula on a rational instance, and the concrete
scenario with the logistic curve as a CDF whose value at 0 is 1/2. -/
theorem probit_likelihood_formula_witness :
    (gsl_vector.ofList [(0 : ℚ)]).size
        = (gsl_matrix.ofRows 3 2 [[(0 : ℚ), 1.0], [1, 2.0], [0, 0.5]]).size2 - 1 ∧
    (fun (x _s : ℝ) => 1 / (1 + Real.exp (-x))) 0 1 = 1 / 2 ∧
    probit_likelihood Real.log (fun (x _s : ℝ) => 1 / (1 + Real.exp (-x)))
        (gsl_vector.ofList [0]) (gsl_matrix.ofRows 3 2 [[0, 1.0], [1, 2.0], [0, 0.5]])
        ⟨none, 0⟩ =
      some (((-(3 * Real.log 0.5) : ℝ) : WithTop ℝ),
        dot (gsl_vector.ofList [0])
          (gsl_matrix.ofRows 3 2 [[0, 1.0], [1, 2.0], [0, 0.5]]) ⟨none, 0⟩) :=
  ⟨rfl, by norm_num,
   ((probit_likelihood_formula (fun x : ℚ => x) (fun x _ => x) (gsl_vector.ofList [0])
      (gsl_matrix.ofRows 3 2 [[0, 1.0], [1, 2.0], [0, 0.5]]) ⟨none, 0⟩
      (fun (x _s : ℝ) => 1 / (1 + Real.exp (-x))) ⟨none, 0⟩).2 (by norm_num)).1⟩

/-- C5 (counterexample). The parameters `b = 2 + 2^(-30)`, `a = 0` satisfy `b > 2`
and `a > -1`, and `waring_likelihood` returns `GSL_POSINF` there, not minus a sum
of numbers: the declaration `float bb` converts `b` to 2 and the guard fires. -/
theorem waring_likelihood_infinite_above_two :
    (2 : ℝ) < (gsl_vector.ofList [(2 : ℝ) + 1 / 2 ^ 30, 0]).data 0 ∧
    (-1 : ℝ) < (gsl_vector.ofList [(2 : ℝ) + 1 / 2 ^ 30, 0]).data 1 ∧
    waring_likelihood_float float_of_double Real.log (fun x => Real.log (Real.Gamma x))
        (gsl_vector.ofList [2 + 1 / 2 ^ 30, 0]) (gsl_matrix.ofRows 1 2 [[0, 7]]) = ⊤ ∧
    ¬ ∃ x : ℝ, waring_likelihood_float float_of_double Real.log
        (fun x => Real.log (Real.Gamma x))
        (gsl_vector.ofList [2 + 1 / 2 ^ 30, 0]) (gsl_matrix.ofRows 1 2 [[0, 7]])
          = (x : WithTop ℝ) := by
  have h : waring_likelihood_float float_of_double Real.log
      (fun x => Real.log (Real.Gamma x))
      (gsl_vector.ofList [2 + 1 / 2 ^ 30, 0]) (gsl_matrix.ofRows 1 2 [[0, 7]]) = ⊤ := by
    have e : (gsl_vector.ofList [(2 : ℝ) + 1 / 2 ^ 30, 0]).data 0 = 2 + 1 / 2 ^ 30 := rfl
    simp only [waring_likelihood_float, gsl_vector_get, e, float_of_double_above_two,
      le_refl, true_or, if_true, GSL_POSINF]
  refine ⟨by norm_num [gsl_vector.ofList], by norm_num [gsl_vector.ofList], h, ?_⟩
  rintro ⟨x, hx⟩
  rw [h] at hx
  exact WithTop.coe_ne_top hx.symm

/-- C5 (as amended). For every data matrix and every `(b, a)` whose conversions to
`float`, written `b'` and `a'`, satisfy `b' > 2` and `a' > -1`,
`waring_likelihood` returns minus the sum over every row `i` and every column
`k ≥ 1` of
`count(i,k) * [log(b'-1) + lnGamma(k+a') + lnGamma(b'+a') - lnGamma(a'+1) - lnGamma(k+a'+b')]`,
with `b` parameter 0 and `a` parameter 1. -/
theorem waring_likelihood_formula_at_converted {α : Type} [LinearOrderedField α]
    (to_float log gsl_sf_lngamma : α → α) (beta : gsl_vector α) (d : gsl_matrix α)
    (hb : 2 < to_float (beta.data 0)) (ha : -1 < to_float (beta.data 1)) :
    waring_likelihood_float to_float log gsl_sf_lngamma beta d =
      ((-(∑ i ∈ Finset.range d.size1, ∑ k ∈ Finset.Ico 1 d.size2,
          d.data i k * (log (to_float (beta.data 0) - 1)
            + gsl_sf_lngamma ((k : α) + to_float (beta.data 1))
            + gsl_sf_lngamma (to_float (beta.data 0) + to_float (beta.data 1))
            - gsl_sf_lngamma (to_float (beta.data 1) + 1)
            - gsl_sf_lngamma ((k : α) + to_float (beta.data 1) + to_float (beta.data 0)))) : α)
        : WithTop α) := by
  rw [waring_likelihood_float_eq]
  exact waring_likelihood_sum log gsl_sf_lngamma _ d hb ha

/-- Witness of C5 (as amended), with the conversion `float_of_double`, at `b = 3`,
`a = 0` on the matrix `[[0, 7]]`: the value is
`-(7 * (log 2 + lnGamma 1 + lnGamma 3 - lnGamma 1 - lnGamma 4))`. -/
theorem waring_likelihood_formula_at_converted_witness :
    (2 : ℝ) < float_of_double ((gsl_vector.ofList [(3 : ℝ), 0]).data 0) ∧
    (-1 : ℝ) < float_of_double ((gsl_vector.ofList [(3 : ℝ), 0]).data 1) ∧
    waring_likelihood_float float_of_double Real.log (fun x => Real.log (Real.Gamma x))
        (gsl_vector.ofList [3, 0]) (gsl_matrix.ofRows 1 2 [[0, 7]])
      = ((-(7 * (Real.log 2 + Real.log (Real.Gamma 1) + Real.log (Real.Gamma 3)
          - Real.log (Real.Gamma 1) - Real.log (Real.Gamma 4))) : ℝ) : WithTop ℝ) := by
  have e0 : (gsl_vector.ofList [(3 : ℝ), 0]).data 0 = 3 := rfl
  have e1 : (gsl_vector.ofList [(3 : ℝ), 0]).data 1 = 0 := rfl
  have hb : (2 : ℝ) < float_of_double ((gsl_vector.ofList [(3 : ℝ), 0]).data 0) := by
    rw [e0, float_of_double_three]
    norm_num
  have ha : (-1 : ℝ) < float_of_double ((gsl_vector.ofList [(3 : ℝ), 0]).data 1) := by
    rw [e1, float_of_double_zero]
    norm_num
  refine ⟨hb, ha, ?_⟩
  rw [waring_likelihood_formula_at_converted float_of_double Real.log
    (fun x => Real.log (Real.Gamma x)) (gsl_vector.ofList [3, 0])
    (gsl_matrix.ofRows 1 2 [[0, 7]]) hb ha, e0, e1, float_of_double_three,
    float_of_double_zero]
  norm_num [gsl_matrix.ofRows, Finset.sum_range_succ, Finset.sum_Ico_eq_sum_range]

/-- C6. Yule concrete scenario: on a count matrix whose single bucket column
`k = 1` holds the count 10 in each of its `n` rows, `yule_likelihood` at `b = 3`
(real logarithm and log-gamma) does not trigger the guard and returns
`-10*n*[log(2) + 0 + lnGamma(3) - lnGamma(4)]`, which is `10*n*log(3/2)`. -/
theorem yule_single_bucket (beta : gsl_vector ℝ) (d : gsl_matrix ℝ)
    (hb : beta.data 0 = 3) (h2 : d.size2 = 2) (hn : 1 ≤ d.size1)
    (h10 : ∀ i, i < d.size1 → d.data i 1 = 10) :
    yule_likelihood Real.log (fun x => Real.log (Real.Gamma x)) beta d =
      ((-(10 * (d.size1 : ℝ) * (Real.log 2 + 0 + Real.log (Real.Gamma 3)
          - Real.log (Real.Gamma 4))) : ℝ) : WithTop ℝ) ∧
    -(10 * (d.size1 : ℝ) * (Real.log 2 + 0 + Real.log (Real.Gamma 3)
          - Real.log (Real.Gamma 4))) = 10 * (d.size1 : ℝ) * Real.log (3 / 2) ∧
    0 < 10 * (d.size1 : ℝ) * Real.log (3 / 2) := by
  refine ⟨?_, ?_, ?_⟩
  · rw [yule_likelihood_sum _ _ beta d (by rw [hb]; norm_num), hb, h2]
    congr 2
    have hrow : ∀ i ∈ Finset.range d.size1,
        (∑ k ∈ Finset.Ico 1 2, d.data i k * (Real.log (3 - 1)
          + (if k > 1 then Real.log (Real.Gamma (k : ℝ)) else 0)
          + Real.log (Real.Gamma 3) - Real.log (Real.Gamma ((k : ℝ) + 3))))
        = 10 * (Real.log 2 + 0 + Real.log (Real.Gamma 3) - Real.log (Real.Gamma 4)) := by
      intro i hi
      rw [Finset.mem_range] at hi
      rw [show Finset.Ico 1 2 = {1} by rfl, Finset.sum_singleton, h10 i hi]
      norm_num
    rw [Finset.sum_congr rfl hrow, Finset.sum_const, Finset.card_range, nsmul_eq_mul]
    ring
  · rw [real_Gamma_three, real_Gamma_four, add_zero, log_two_two_six]
    ring
  · have hlog : 0 < Real.log (3 / 2) := Real.log_pos (by norm_num)
    have hn0 : (1 : ℝ) ≤ (d.size1 : ℝ) := by exact_mod_cast hn
    positivity

/-- Witness of C6 on the two-row matrix `[[0, 10], [0, 10]]`. -/
theorem yule_single_bucket_witness :
    (gsl_vector.ofList [(3 : ℝ)]).data 0 = 3 ∧
    (gsl_matrix.ofRows 2 2 [[(0 : ℝ), 10], [0, 10]]).size2 = 2 ∧
    1 ≤ (gsl_matrix.ofRows 2 2 [[(0 : ℝ), 10], [0, 10]]).size1 ∧
    yule_likelihood Real.log (fun x => Real.log (Real.Gamma x)) (gsl_vector.ofList [3])
        (gsl_matrix.ofRows 2 2 [[0, 10], [0, 10]]) =
      ((-(10 * ((gsl_matrix.ofRows 2 2 [[(0 : ℝ), 10], [0, 10]]).size1 : ℝ)
          * (Real.log 2 + 0 + Real.log (Real.Gamma 3) - Real.log (Real.Gamma 4))) : ℝ) :
        WithTop ℝ) :=
  ⟨by simp [gsl_vector.ofList], rfl, by simp [gsl_matrix.ofRows],
   (yule_single_bucket (gsl_vector.ofList [3]) (gsl_matrix.ofRows 2 2 [[0, 10], [0, 10]])
      (by simp [gsl_vector.ofList]) rfl (by simp [gsl_matrix.ofRows])
      (by
        intro i hi
        have hi2 : i < 2 := hi
        interval_cases i <;> simp [gsl_matrix.ofRows])).1⟩

/-- C7 (the code departs from it). `zipf_likelihood` never reads row 0: replacing
that row leaves its value unchanged.  On the one-row matrix `[[1]]` at `b = 2`
it returns 0, while the sum over every row that the specification states is
`-log(log 2)`, a positive number. -/
theorem zipf_likelihood_skips_row_zero :
    (∀ (log : ℝ → ℝ) (beta : gsl_vector ℝ) (d : gsl_matrix ℝ) (row : Nat → ℝ),
      zipf_likelihood log beta { d with data := Function.update d.data 0 row }
        = zipf_likelihood log beta d) ∧
    zipf_likelihood Real.log (gsl_vector.ofList [2]) (gsl_matrix.ofRows 1 1 [[1]])
      = ((0 : ℝ) : WithTop ℝ) ∧
    zipf_likelihood_spec Real.log (gsl_vector.ofList [2]) (gsl_matrix.ofRows 1 1 [[1]])
      = -Real.log (Real.log 2) ∧
    (0 : ℝ) < -Real.log (Real.log 2) := by
  refine ⟨?_, ?_, ?_, ?_⟩
  · intro log beta d row
    by_cases hb : beta.data 0 ≤ 1
    · simp [zipf_likelihood, gsl_vector_get, hb]
    · rw [zipf_likelihood_sum log beta _ (not_le.mp hb),
        zipf_likelihood_sum log beta d (not_le.mp hb)]
      congr 2
      apply Finset.sum_congr rfl
      intro i hi
      rw [Finset.mem_Ico] at hi
      have hi0 : i ≠ 0 := by omega
      simp [Function.update_noteq hi0]
  · rw [zipf_likelihood_sum _ _ _ (by norm_num [gsl_vector.ofList])]
    simp [gsl_matrix.ofRows]
  · simp [zipf_likelihood_spec, gsl_matrix.ofRows, gsl_vector.ofList]
  · have h := log_log_two_neg
    linarith

/-- C8 (the code departs from it). On the matrix `[[0], [5]]`, whose only column
is, by the layout documented in `likelihoods.h`, the number of elements with one
link: `waring_likelihood` at `(3, 0)` and `yule_likelihood` at `(3)` return 0,
since they never read column 0, where the documented layout gives
`5 * log(3/2) > 0`; `zipf_likelihood` at `(2)` weights the column with degree 0
and returns `-5 * log(log 2)`, where the documented layout (degree 1) gives
`-5 * (log(log 2) - log 2)`, a different number. -/
theorem count_layout_is_column_index :
    waring_likelihood Real.log (fun x => Real.log (Real.Gamma x)) (gsl_vector.ofList [3, 0])
        (gsl_matrix.ofRows 2 1 [[0], [5]]) = ((0 : ℝ) : WithTop ℝ) ∧
    waring_likelihood_header_layout Real.log (fun x => Real.log (Real.Gamma x))
        (gsl_vector.ofList [3, 0]) (gsl_matrix.ofRows 2 1 [[0], [5]])
      = 5 * Real.log (3 / 2) ∧
    yule_likelihood Real.log (fun x => Real.log (Real.Gamma x)) (gsl_vector.ofList [3])
        (gsl_matrix.ofRows 2 1 [[0], [5]]) = ((0 : ℝ) : WithTop ℝ) ∧
    yule_likelihood_header_layout Real.log (fun x => Real.log (Real.Gamma x))
        (gsl_vector.ofList [3]) (gsl_matrix.ofRows 2 1 [[0], [5]])
      = 5 * Real.log (3 / 2) ∧
    (0 : ℝ) < 5 * Real.log (3 / 2) ∧
    zipf_likelihood Real.log (gsl_vector.ofList [2]) (gsl_matrix.ofRows 2 1 [[0], [5]])
      = ((-(5 * Real.log (Real.log 2)) : ℝ) : WithTop ℝ) ∧
    zipf_likelihood_header_layout Real.log (gsl_vector.ofList [2])
        (gsl_matrix.ofRows 2 1 [[0], [5]])
      = -(5 * (Real.log (Real.log 2) - Real.log 2)) ∧
    -(5 * Real.log (Real.log 2)) ≠ -(5 * (Real.log (Real.log 2) - Real.log 2)) := by
  refine ⟨?_, ?_, ?_, ?_, ?_, ?_, ?_, ?_⟩
  · rw [waring_likelihood_sum _ _ _ _ (by norm_num [gsl_vector.ofList])
      (by norm_num [gsl_vector.ofList])]
    simp [gsl_matrix.ofRows]
  · simp only [waring_likelihood_header_layout, gsl_matrix.ofRows, gsl_vector.ofList,
      Finset.sum_range_succ, Finset.sum_range_zero]
    norm_num [real_Gamma_three, real_Gamma_four, Real.Gamma_one, Nat.factorial]
    have h := log_two_two_six
    linarith
  · rw [yule_likelihood_sum _ _ _ _ (by norm_num [gsl_vector.ofList])]
    simp [gsl_matrix.ofRows]
  · simp only [yule_likelihood_header_layout, gsl_matrix.ofRows, gsl_vector.ofList,
      Finset.sum_range_succ, Finset.sum_range_zero]
    norm_num [real_Gamma_three, real_Gamma_four, Nat.factorial]
    have h := log_two_two_six
    linarith
  · have hlog : 0 < Real.log (3 / 2) := Real.log_pos (by norm_num)
    positivity
  · rw [zipf_likelihood_sum _ _ _ (by norm_num [gsl_vector.ofList])]
    simp [gsl_matrix.ofRows, gsl_vector.ofList]
  · simp [zipf_likelihood_header_layout, gsl_matrix.ofRows, gsl_vector.ofList,
      Finset.sum_range_succ]
  · have h2 : 0 < Real.log 2 := Real.log_pos (by norm_num)
    intro h
    linarith

/-- C9 (the code departs from it). For every digamma function `psi`, data matrix
and parameters, `d_waring_likelihood` writes into component 1 the sum the
specification states for component 0 (the `b`-partial), and into component 0
minus the sum of `count(i,k) * [psi(k+a) + psi(k+a) - psi(k+a+b)]`.  At
`(b, a) = (3, 0)` on the matrix `[[0, 1]]` the component 1 written differs, for
every `psi`, from the `a`-partial the specification states. -/
theorem d_waring_likelihood_components {α : Type} [LinearOrderedField α]
    (gsl_sf_psi : α → α) (beta : gsl_vector α) (d : gsl_matrix α) (gradient : gsl_vector α) :
    (d_waring_likelihood gsl_sf_psi beta d gradient).data 1
      = waring_gradient_spec_b gsl_sf_psi beta d ∧
    (d_waring_likelihood gsl_sf_psi beta d gradient).data 0 =
      -(∑ i ∈ Finset.range d.size1, ∑ k ∈ Finset.Ico 1 d.size2,
        d.data i k * (gsl_sf_psi ((k : α) + beta.data 1) + gsl_sf_psi ((k : α) + beta.data 1)
          - gsl_sf_psi ((k : α) + beta.data 1 + beta.data 0))) ∧
    (d_waring_likelihood gsl_sf_psi (gsl_vector.ofList [3, 0])
        (gsl_matrix.ofRows 1 2 [[0, 1]]) gradient).data 1
      = -(1 / 2 + gsl_sf_psi 3 - gsl_sf_psi 4) ∧
    waring_gradient_spec_a gsl_sf_psi (gsl_vector.ofList [3, 0])
        (gsl_matrix.ofRows 1 2 [[0, 1]])
      = -(gsl_sf_psi 3 - gsl_sf_psi 4) ∧
    (d_waring_likelihood gsl_sf_psi (gsl_vector.ofList [3, 0])
        (gsl_matrix.ofRows 1 2 [[0, 1]]) gradient).data 1
      ≠ waring_gradient_spec_a gsl_sf_psi (gsl_vector.ofList [3, 0])
          (gsl_matrix.ofRows 1 2 [[0, 1]]) := by
  have hcode : (d_waring_likelihood gsl_sf_psi (gsl_vector.ofList [3, 0])
        (gsl_matrix.ofRows 1 2 [[0, 1]]) gradient).data 1
      = -(1 / 2 + gsl_sf_psi 3 - gsl_sf_psi 4) := by
    rw [(d_waring_likelihood_sum gsl_sf_psi _ _ gradient).2]
    simp [gsl_matrix.ofRows, gsl_vector.ofList]
    norm_num
  have hspec : waring_gradient_spec_a gsl_sf_psi (gsl_vector.ofList [3, 0])
        (gsl_matrix.ofRows 1 2 [[0, 1]])
      = -(gsl_sf_psi 3 - gsl_sf_psi 4) := by
    simp [waring_gradient_spec_a, gsl_matrix.ofRows, gsl_vector.ofList]
    norm_num
  refine ⟨(d_waring_likelihood_sum gsl_sf_psi beta d gradient).2,
    (d_waring_likelihood_sum gsl_sf_psi beta d gradient).1, hcode, hspec, ?_⟩
  rw [hcode, hspec]
  intro h
  have h2 : (1 : α) / 2 = 0 := by linear_combination -h
  norm_num at h2

/-- C10. Probit gradient: when the flag is clear (or the cached vector is the
predictor of these parameters, as inside `probit_fdf`), `d_probit_likelihood`
writes into component `j` minus the sum over all rows of
`covariate(i,j) * normalPDF(p_i) / CDF(p_i)` when the outcome is 0 and of
`covariate(i,j) * normalPDF(p_i) / (CDF(p_i) - 1)` otherwise; and for a CDF with
values strictly between 0 and 1 whose derivative is the PDF, this is the partial
derivative in parameter `j` of the number `probit_likelihood` returns. -/
theorem d_probit_likelihood_gradient (cdf pdf : ℝ → ℝ → ℝ) (beta : gsl_vector ℝ)
    (d : gsl_matrix ℝ) (gradient : gsl_vector ℝ) (g : Globals ℝ)
    (hsize : beta.size = d.size2 - 1)
    (hstate : g.beta_dot_x_is_current = 0 ∨
      ∃ v, g.beta_dot_x = some v ∧ ∀ i, v.data i = linear_predictor beta d i)
    (hcdf : ∀ x, HasDerivAt (fun t => cdf t 1) (pdf x 1) x)
    (hrange : ∀ x, 0 < cdf x 1 ∧ cdf x 1 < 1) (j : Nat) (hj : j < beta.size) :
    (d_probit_likelihood cdf pdf beta d gradient g).map (fun r => r.1.data j)
      = some (probit_gradient_spec cdf pdf beta d j) ∧
    HasDerivAt
      (fun t => returned_value (probit_likelihood Real.log cdf (gsl_vector_set beta j t) d g))
      (probit_gradient_spec cdf pdf beta d j) (beta.data j) :=
  ⟨d_probit_likelihood_sum cdf pdf beta d gradient g hsize hstate j hj,
   probit_likelihood_hasDerivAt cdf pdf beta d g hsize hcdf hrange j hj⟩

/-- Witness of C10 on the matrix `[[0, 1.0], [1, 2.0], [0, 0.5]]` at the parameter
vector `[0.0]`, with the logistic curve and its derivative as CDF and PDF. -/
theorem d_probit_likelihood_gradient_witness :
    (gsl_vector.ofList [(0 : ℝ)]).size
        = (gsl_matrix.ofRows 3 2 [[(0 : ℝ), 1.0], [1, 2.0], [0, 0.5]]).size2 - 1 ∧
    (∀ x : ℝ, HasDerivAt (fun t : ℝ => (fun (x _s : ℝ) => 1 / (1 + Real.exp (-x))) t 1)
        ((fun (x _s : ℝ) => Real.exp (-x) / (1 + Real.exp (-x)) ^ 2) x 1) x) ∧
    (∀ x : ℝ, 0 < (fun (x _s : ℝ) => 1 / (1 + Real.exp (-x))) x 1 ∧
        (fun (x _s : ℝ) => 1 / (1 + Real.exp (-x))) x 1 < 1) ∧
    0 < (gsl_vector.ofList [(0 : ℝ)]).size ∧
    (d_probit_likelihood (fun (x _s : ℝ) => 1 / (1 + Real.exp (-x)))
        (fun (x _s : ℝ) => Real.exp (-x) / (1 + Real.exp (-x)) ^ 2)
        (gsl_vector.ofList [0]) (gsl_matrix.ofRows 3 2 [[0, 1.0], [1, 2.0], [0, 0.5]])
        (gsl_vector_alloc 1) ⟨none, 0⟩).map (fun r => r.1.data 0)
      = some (probit_gradient_spec (fun (x _s : ℝ) => 1 / (1 + Real.exp (-x)))
          (fun (x _s : ℝ) => Real.exp (-x) / (1 + Real.exp (-x)) ^ 2)
          (gsl_vector.ofList [0])
          (gsl_matrix.ofRows 3 2 [[0, 1.0], [1, 2.0], [0, 0.5]]) 0) :=
  ⟨rfl, logistic_hasDerivAt, logistic_range, by simp [gsl_vector.ofList],
   (d_probit_likelihood_gradient (fun (x _s : ℝ) => 1 / (1 + Real.exp (-x)))
      (fun (x _s : ℝ) => Real.exp (-x) / (1 + Real.exp (-x)) ^ 2)
      (gsl_vector.ofList [0]) (gsl_matrix.ofRows 3 2 [[0, 1.0], [1, 2.0], [0, 0.5]])
      (gsl_vector_alloc 1) ⟨none, 0⟩ rfl (Or.inl rfl) logistic_hasDerivAt logistic_range 0
      (by simp [gsl_vector.ofList])).1⟩

/-- C11 (counterexample). The parameter `b = 1 + 2^(-30)` is greater than 1; the
declaration `float bb` converts it to 1, so `zipf_likelihood` returns
`GSL_POSINF`, which is no number and has no derivative, and the divisor `ln_c` of
`d_zipf_likelihood` is `log 1 = 0`. -/
theorem zipf_gradient_undefined_above_one :
    (1 : ℝ) < (gsl_vector.ofList [(1 : ℝ) + 1 / 2 ^ 30]).data 0 ∧
    zipf_likelihood_float float_of_double Real.log
        (gsl_vector.ofList [1 + 1 / 2 ^ 30]) (gsl_matrix.ofRows 2 1 [[0], [7]]) = ⊤ ∧
    (¬ ∃ x : ℝ, zipf_likelihood_float float_of_double Real.log
        (gsl_vector.ofList [1 + 1 / 2 ^ 30]) (gsl_matrix.ofRows 2 1 [[0], [7]])
          = (x : WithTop ℝ)) ∧
    Real.log (float_of_double (gsl_vector_get (gsl_vector.ofList [(1 : ℝ) + 1 / 2 ^ 30]) 0))
      = 0 := by
  have e : (gsl_vector.ofList [(1 : ℝ) + 1 / 2 ^ 30]).data 0 = 1 + 1 / 2 ^ 30 := rfl
  have h : zipf_likelihood_float float_of_double Real.log
      (gsl_vector.ofList [1 + 1 / 2 ^ 30]) (gsl_matrix.ofRows 2 1 [[0], [7]]) = ⊤ := by
    simp only [zipf_likelihood_float, gsl_vector_get, e, float_of_double_above_one,
      le_refl, if_true, GSL_POSINF]
  refine ⟨by norm_num [gsl_vector.ofList], h, ?_, ?_⟩
  · rintro ⟨x, hx⟩
    rw [h] at hx
    exact WithTop.coe_ne_top hx.symm
  · rw [gsl_vector_get, e, float_of_double_above_one, Real.log_one]

/-- C11 (as amended). Zipf gradient: for every data matrix and every `b` whose
conversion to `float`, written `b'`, satisfies `b' > 1`, the component written by
`d_zipf_likelihood` is minus the sum of `count(i,k) * (1/log(b') - k) / b'` over
the entries that `zipf_likelihood` sums (rows from 1, every column); the value
`zipf_likelihood` returns is minus the sum of
`count(i,k) * (log(log(b')) - log(b') * k)`; and the component is the derivative
of that value with respect to `b'`. -/
theorem d_zipf_likelihood_gradient_at_converted (to_float : ℝ → ℝ) (beta : gsl_vector ℝ)
    (d : gsl_matrix ℝ) (gradient : gsl_vector ℝ) (hb : 1 < to_float (beta.data 0)) :
    (d_zipf_likelihood_float to_float Real.log beta d gradient).data 0 =
      -(∑ i ∈ Finset.Ico 1 d.size1, ∑ k ∈ Finset.range d.size2,
        d.data i k * (1 / Real.log (to_float (beta.data 0)) - (k : ℝ))
          / to_float (beta.data 0)) ∧
    (∀ beta1 : gsl_vector ℝ, 1 < to_float (beta1.data 0) →
      zipf_likelihood_float to_float Real.log beta1 d =
        ((-(∑ i ∈ Finset.Ico 1 d.size1, ∑ k ∈ Finset.range d.size2,
            d.data i k * (Real.log (Real.log (to_float (beta1.data 0)))
              - Real.log (to_float (beta1.data 0)) * (k : ℝ))) : ℝ) : WithTop ℝ)) ∧
    HasDerivAt
      (fun t : ℝ => -(∑ i ∈ Finset.Ico 1 d.size1, ∑ k ∈ Finset.range d.size2,
        d.data i k * (Real.log (Real.log t) - Real.log t * (k : ℝ))))
      ((d_zipf_likelihood_float to_float Real.log beta d gradient).data 0)
      (to_float (beta.data 0)) := by
  have hsum : (d_zipf_likelihood_float to_float Real.log beta d gradient).data 0 =
      -(∑ i ∈ Finset.Ico 1 d.size1, ∑ k ∈ Finset.range d.size2,
        d.data i k * (1 / Real.log (to_float (beta.data 0)) - (k : ℝ))
          / to_float (beta.data 0)) := by
    rw [d_zipf_likelihood_float_eq]
    exact d_zipf_likelihood_sum Real.log _ d gradient
  refine ⟨hsum, fun beta1 h1 => ?_, ?_⟩
  · rw [zipf_likelihood_float_eq]
    exact zipf_likelihood_sum Real.log _ d h1
  · rw [hsum]
    exact zipf_value_hasDerivAt d _ hb

/-- Witness of C11 (as amended), with the conversion `float_of_double`, at `b = 2`
on a two-row matrix. -/
theorem d_zipf_likelihood_gradient_at_converted_witness :
    (1 : ℝ) < float_of_double ((gsl_vector.ofList [(2 : ℝ)]).data 0) ∧
    HasDerivAt
      (fun t : ℝ => -(∑ i ∈ Finset.Ico 1 (gsl_matrix.ofRows 2 2 [[(1 : ℝ), 2], [3, 4]]).size1,
        ∑ k ∈ Finset.range (gsl_matrix.ofRows 2 2 [[(1 : ℝ), 2], [3, 4]]).size2,
          (gsl_matrix.ofRows 2 2 [[(1 : ℝ), 2], [3, 4]]).data i k
            * (Real.log (Real.log t) - Real.log t * (k : ℝ))))
      ((d_zipf_likelihood_float float_of_double Real.log (gsl_vector.ofList [2])
        (gsl_matrix.ofRows 2 2 [[1, 2], [3, 4]]) (gsl_vector_alloc 1)).data 0)
      (float_of_double ((gsl_vector.ofList [(2 : ℝ)]).data 0)) :=
  have hb : (1 : ℝ) < float_of_double ((gsl_vector.ofList [(2 : ℝ)]).data 0) := by
    have e : (gsl_vector.ofList [(2 : ℝ)]).data 0 = 2 := rfl
    rw [e, float_of_double_two]
    norm_num
  ⟨hb, (d_zipf_likelihood_gradient_at_converted float_of_double (gsl_vector.ofList [2])
      (gsl_matrix.ofRows 2 2 [[1, 2], [3, 4]]) (gsl_vector_alloc 1) hb).2.2⟩

/-- C13. Combined evaluators agree with the separate functions: `waring_fdf`,
`yule_fdf` and `zipf_fdf` return the value of the family's likelihood function
and the gradient written by the family's gradient function; and, the flag being
clear, `probit_fdf` returns the value `probit_likelihood` returns and the
gradient `d_probit_likelihood` writes when each is called on its own from the
same globals. -/
theorem combined_evaluators_agree {α : Type} [LinearOrderedField α]
    (log gsl_sf_lngamma gsl_sf_psi : α → α)
    (gsl_cdf_gaussian_P gsl_ran_gaussian_pdf : α → α → α)
    (beta : gsl_vector α) (d : gsl_matrix α) (df : gsl_vector α) (g : Globals α)
    (hflag : g.beta_dot_x_is_current = 0) :
    waring_fdf log gsl_sf_lngamma gsl_sf_psi beta d df
      = (waring_likelihood log gsl_sf_lngamma beta d, d_waring_likelihood gsl_sf_psi beta d df) ∧
    yule_fdf log gsl_sf_lngamma gsl_sf_psi beta d df
      = (yule_likelihood log gsl_sf_lngamma beta d, d_yule_likelihood gsl_sf_psi beta d df) ∧
    zipf_fdf log beta d df
      = (zipf_likelihood log beta d, d_zipf_likelihood log beta d df) ∧
    ∃ (f : WithTop α) (grad : gsl_vector α) (g1 g2 g3 : Globals α),
      probit_likelihood log gsl_cdf_gaussian_P beta d g = some (f, g1) ∧
      d_probit_likelihood gsl_cdf_gaussian_P gsl_ran_gaussian_pdf beta d df g
        = some (grad, g2) ∧
      probit_fdf log gsl_cdf_gaussian_P gsl_ran_gaussian_pdf beta d df g
        = some (f, grad, g3) := by
  refine ⟨rfl, rfl, rfl, ?_⟩
  obtain ⟨v, hv, _⟩ := probit_likelihood_some log gsl_cdf_gaussian_P beta d g
  obtain ⟨grad, hgrad⟩ :=
    d_probit_likelihood_some gsl_cdf_gaussian_P gsl_ran_gaussian_pdf beta d df
  refine ⟨v, grad, dot beta d g, ⟨none, 0⟩, ⟨none, 0⟩, hv, ?_,
    probit_fdf_some log _ _ beta d df grad g _ v hv hgrad⟩
  rw [d_probit_likelihood_flag_clear _ _ beta d df g hflag]
  exact hgrad

/-- Witness of C13 on the Probit example matrix, from the initial globals. -/
theorem combined_evaluators_agree_witness :
    (⟨none, 0⟩ : Globals ℚ).beta_dot_x_is_current = 0 ∧
    ∃ (f : WithTop ℚ) (grad : gsl_vector ℚ) (g1 g2 g3 : Globals ℚ),
      probit_likelihood (fun x : ℚ => x) (fun x _ => x) (gsl_vector.ofList [0])
          (gsl_matrix.ofRows 3 2 [[0, 1.0], [1, 2.0], [0, 0.5]]) ⟨none, 0⟩ = some (f, g1) ∧
      d_probit_likelihood (fun x _ => x) (fun x _ => x) (gsl_vector.ofList [0])
          (gsl_matrix.ofRows 3 2 [[0, 1.0], [1, 2.0], [0, 0.5]]) (gsl_vector_alloc 1)
          ⟨none, 0⟩ = some (grad, g2) ∧
      probit_fdf (fun x : ℚ => x) (fun x _ => x) (fun x _ => x) (gsl_vector.ofList [0])
          (gsl_matrix.ofRows 3 2 [[0, 1.0], [1, 2.0], [0, 0.5]]) (gsl_vector_alloc 1)
          ⟨none, 0⟩ = some (f, grad, g3) :=
  ⟨rfl,
   (combined_evaluators_agree (fun x : ℚ => x) (fun x => x) (fun x => x) (fun x _ => x)
      (fun x _ => x) (gsl_vector.ofList [0])
      (gsl_matrix.ofRows 3 2 [[0, 1.0], [1, 2.0], [0, 0.5]]) (gsl_vector_alloc 1)
      ⟨none, 0⟩ rfl).2.2.2⟩

/-- C14. No stale Probit cache: from any globals with the flag clear, each of
`probit_likelihood`, `d_probit_likelihood` and `probit_fdf` ends with the flag
clear; the value and the gradient are the same from any other globals with the
flag clear, whatever vector they cache; and the same call made again, from the
globals and with the gradient buffer the first call left, gives the same value
and gradient. -/
theorem no_stale_probit_cache {α : Type} [LinearOrderedField α] (log : α → α)
    (gsl_cdf_gaussian_P gsl_ran_gaussian_pdf : α → α → α)
    (beta : gsl_vector α) (d : gsl_matrix α) (gradient : gsl_vector α)
    (g g' : Globals α) (hg : g.beta_dot_x_is_current = 0)
    (hg' : g'.beta_dot_x_is_current = 0) :
    (∃ (v : WithTop α) (g1 g1' g2 : Globals α),
      probit_likelihood log gsl_cdf_gaussian_P beta d g = some (v, g1) ∧
      g1.beta_dot_x_is_current = 0 ∧
      probit_likelihood log gsl_cdf_gaussian_P beta d g' = some (v, g1') ∧
      probit_likelihood log gsl_cdf_gaussian_P beta d g1 = some (v, g2)) ∧
    (∃ (grad : gsl_vector α) (g1 g1' g2 : Globals α),
      d_probit_likelihood gsl_cdf_gaussian_P gsl_ran_gaussian_pdf beta d gradient g
        = some (grad, g1) ∧
      g1.beta_dot_x_is_current = 0 ∧
      d_probit_likelihood gsl_cdf_gaussian_P gsl_ran_gaussian_pdf beta d gradient g'
        = some (grad, g1') ∧
      d_probit_likelihood gsl_cdf_gaussian_P gsl_ran_gaussian_pdf beta d grad g1
        = some (grad, g2)) ∧
    (∃ (v : WithTop α) (grad : gsl_vector α) (g1 g1' g2 : Globals α),
      probit_fdf log gsl_cdf_gaussian_P gsl_ran_gaussian_pdf beta d gradient g
        = some (v, grad, g1) ∧
      g1.beta_dot_x_is_current = 0 ∧
      probit_fdf log gsl_cdf_gaussian_P gsl_ran_gaussian_pdf beta d gradient g'
        = some (v, grad, g1') ∧
      probit_fdf log gsl_cdf_gaussian_P gsl_ran_gaussian_pdf beta d grad g1
        = some (v, grad, g2)) := by
  obtain ⟨v, hv, hvall⟩ := probit_likelihood_some log gsl_cdf_gaussian_P beta d g
  obtain ⟨grad, hgrad⟩ :=
    d_probit_likelihood_some gsl_cdf_gaussian_P gsl_ran_gaussian_pdf beta d gradient
  have hidem := d_probit_likelihood_idem _ _ beta d gradient grad _ hgrad
  refine ⟨⟨v, dot beta d g, dot beta d g', dot beta d (dot beta d g), hv, hg, hvall g',
      hvall _⟩,
    ⟨grad, ⟨none, 0⟩, ⟨none, 0⟩, ⟨none, 0⟩, ?_, rfl, ?_, hidem⟩,
    ⟨v, grad, ⟨none, 0⟩, ⟨none, 0⟩, ⟨none, 0⟩,
      probit_fdf_some log _ _ beta d gradient grad g _ v hv hgrad, rfl,
      probit_fdf_some log _ _ beta d gradient grad g' _ v (hvall g') hgrad,
      probit_fdf_some log _ _ beta d grad grad _ _ v (hvall _) hidem⟩⟩
  · rw [d_probit_likelihood_flag_clear _ _ beta d gradient g hg]; exact hgrad
  · rw [d_probit_likelihood_flag_clear _ _ beta d gradient g' hg']; exact hgrad

/-- Witness of C14: from the initial globals and from globals that cache an
unrelated vector, on the Probit example matrix. -/
theorem no_stale_probit_cache_witness :
    (⟨none, 0⟩ : Globals ℚ).beta_dot_x_is_current = 0 ∧
    (⟨some (gsl_vector.ofList [5, 6, 7]), 0⟩ : Globals ℚ).beta_dot_x_is_current = 0 ∧
    (∃ (grad : gsl_vector ℚ) (g1 g1' g2 : Globals ℚ),
      d_probit_likelihood (fun x _ => x) (fun x _ => x) (gsl_vector.ofList [0])
          (gsl_matrix.ofRows 3 2 [[0, 1.0], [1, 2.0], [0, 0.5]]) (gsl_vector_alloc 1)
          ⟨none, 0⟩ = some (grad, g1) ∧
      g1.beta_dot_x_is_current = 0 ∧
      d_probit_likelihood (fun x _ => x) (fun x _ => x) (gsl_vector.ofList [0])
          (gsl_matrix.ofRows 3 2 [[0, 1.0], [1, 2.0], [0, 0.5]]) (gsl_vector_alloc 1)
          ⟨some (gsl_vector.ofList [5, 6, 7]), 0⟩ = some (grad, g1') ∧
      d_probit_likelihood (fun x _ => x) (fun x _ => x) (gsl_vector.ofList [0])
          (gsl_matrix.ofRows 3 2 [[0, 1.0], [1, 2.0], [0, 0.5]]) grad g1
        = some (grad, g2)) :=
  ⟨rfl, rfl,
   (no_stale_probit_cache (fun x : ℚ => x) (fun x _ => x) (fun x _ => x)
      (gsl_vector.ofList [0]) (gsl_matrix.ofRows 3 2 [[0, 1.0], [1, 2.0], [0, 0.5]])
      (gsl_vector_alloc 1) ⟨none, 0⟩ ⟨some (gsl_vector.ofList [5, 6, 7]), 0⟩ rfl rfl).2.1⟩

/-- C15. Driver result: whenever `maximum_likelihood_w_d` or `maximum_likelihood`
returns, the vector stored in `*betas` is the point of the minimizer when the
loop was left and the value returned is the supplied likelihood function
evaluated at that vector; and each returns whenever the point of the minimizer
has `betasize` entries and the likelihood function returns (for
`maximum_likelihood`: a starting point being supplied). -/
theorem driver_returns_likelihood_at_betas {α S T : Type} [LinearOrderedField α]
    (M : gsl_multimin_fdfminimizer α S) (N : gsl_multimin_fminimizer α T)
    (data : gsl_matrix α) (betasize : Nat) (likelihood : likelihood_fn α)
    (d_likelihood : d_likelihood_fn α) (fdf : fdf_fn α) (starting_pt : Option (Nat → α))
    (p : Nat → α) (step_size : α) (verbose : Int) (g : Globals α)
    (hM : ∀ s, (M.x s).size = betasize) (hN : ∀ s, (N.x s).size = betasize)
    (hl : ∀ (b : gsl_vector α) (g1 : Globals α), (likelihood b data g1).isSome) :
    (∀ r, maximum_likelihood_w_d M data betasize likelihood d_likelihood fdf starting_pt
        step_size verbose g = some r →
      r.betas = M.x (w_d_loop M verbose
        (w_d_start M data betasize likelihood d_likelihood fdf starting_pt step_size g)).s ∧
      likelihood r.betas data (w_d_loop M verbose
        (w_d_start M data betasize likelihood d_likelihood fdf starting_pt step_size g)).g
          = some (r.value, r.g)) ∧
    (∃ r, maximum_likelihood_w_d M data betasize likelihood d_likelihood fdf starting_pt
        step_size verbose g = some r) ∧
    (∀ r, maximum_likelihood N data betasize likelihood starting_pt step_size verbose g
        = some r →
      ∃ st0, simplex_start N data betasize likelihood starting_pt step_size g = some st0 ∧
        r.betas = N.x (simplex_loop N betasize verbose st0).s ∧
        likelihood r.betas data (simplex_loop N betasize verbose st0).g
          = some (r.value, r.g)) ∧
    (∃ r, maximum_likelihood N data betasize likelihood (some p) step_size verbose g
        = some r) := by
  refine ⟨fun r h => ?_, ?_, fun r h => ?_, ?_⟩
  · obtain ⟨h1, _, h3, _⟩ := maximum_likelihood_w_d_some M data betasize likelihood
      d_likelihood fdf starting_pt step_size verbose g r h
    exact ⟨h1, h3⟩
  · exact maximum_likelihood_w_d_total M data betasize likelihood d_likelihood fdf
      starting_pt step_size verbose g (hM _) hl
  · obtain ⟨st0, h0, h1, _, h3, _⟩ := maximum_likelihood_some N data betasize likelihood
      starting_pt step_size verbose g r h
    exact ⟨st0, h0, h1, h3⟩
  · exact maximum_likelihood_total N data betasize likelihood p step_size verbose g hN hl

/-- Witness of C15 with the example minimizers and likelihood, two parameters. -/
theorem driver_returns_likelihood_at_betas_witness :
    (∀ s, ((example_fdfminimizer 0 2).x s).size = 2) ∧
    (∀ s, ((example_fminimizer 0 2).x s).size = 2) ∧
    (∀ (b : gsl_vector ℚ) (g1 : Globals ℚ),
      (example_likelihood b (gsl_matrix.ofRows 1 2 [[0, 7]]) g1).isSome) ∧
    (∃ r, maximum_likelihood_w_d (example_fdfminimizer 0 2) (gsl_matrix.ofRows 1 2 [[0, 7]]) 2
        example_likelihood (fun _ _ df g => some (df, g)) (fun _ _ df g => some (0, df, g))
        none 1 0 ⟨none, 0⟩ = some r) ∧
    (∃ r, maximum_likelihood (example_fminimizer 0 2) (gsl_matrix.ofRows 1 2 [[0, 7]]) 2
        example_likelihood (some (fun _ => 0)) 1 0 ⟨none, 0⟩ = some r) :=
  ⟨fun _ => rfl, fun _ => rfl, fun _ _ => rfl,
   (driver_returns_likelihood_at_betas (example_fdfminimizer 0 2) (example_fminimizer 0 2)
      (gsl_matrix.ofRows 1 2 [[0, 7]]) 2 example_likelihood (fun _ _ df g => some (df, g))
      (fun _ _ df g => some (0, df, g)) none (fun _ => 0) 1 0 ⟨none, 0⟩
      (fun _ => rfl) (fun _ => rfl) (fun _ _ => rfl)).2.1,
   (driver_returns_likelihood_at_betas (example_fdfminimizer 0 2) (example_fminimizer 0 2)
      (gsl_matrix.ofRows 1 2 [[0, 7]]) 2 example_likelihood (fun _ _ df g => some (df, g))
      (fun _ _ df g => some (0, df, g)) none (fun _ => 0) 1 0 ⟨none, 0⟩
      (fun _ => rfl) (fun _ => rfl) (fun _ _ => rfl)).2.2.2⟩

/-- C16. Iteration budget: whatever the minimizer step and the convergence test
do, the loop of `maximum_likelihood_w_d` is left after at least 1 and at most 500
steps, one record per step, and every step but the last succeeded and was
followed by a convergence test that said `GSL_CONTINUE`; likewise the loop of
`maximum_likelihood` whenever it is entered. -/
theorem iteration_budget {α S T : Type} [LinearOrderedField α]
    (M : gsl_multimin_fdfminimizer α S) (N : gsl_multimin_fminimizer α T)
    (data : gsl_matrix α) (betasize : Nat) (likelihood : likelihood_fn α)
    (d_likelihood : d_likelihood_fn α) (fdf : fdf_fn α) (starting_pt : Option (Nat → α))
    (p : Nat → α) (step_size : α) (verbose : Int) (g : Globals α) :
    (1 ≤ (w_d_loop M verbose (w_d_start M data betasize likelihood d_likelihood fdf
        starting_pt step_size g)).iter ∧
     (w_d_loop M verbose (w_d_start M data betasize likelihood d_likelihood fdf
        starting_pt step_size g)).iter ≤ 500 ∧
     (w_d_loop M verbose (w_d_start M data betasize likelihood d_likelihood fdf
        starting_pt step_size g)).log.length
       = (w_d_loop M verbose (w_d_start M data betasize likelihood d_likelihood fdf
        starting_pt step_size g)).iter ∧
     (w_d_loop M verbose (w_d_start M data betasize likelihood d_likelihood fdf
        starting_pt step_size g)).log.dropLast
       = List.replicate ((w_d_loop M verbose (w_d_start M data betasize likelihood
          d_likelihood fdf starting_pt step_size g)).iter - 1) ⟨0, some GSL_CONTINUE⟩) ∧
    (∃ st0, simplex_start N data betasize likelihood (some p) step_size g = some st0 ∧
      1 ≤ (simplex_loop N betasize verbose st0).iter ∧
      (simplex_loop N betasize verbose st0).iter ≤ 500 ∧
      (simplex_loop N betasize verbose st0).log.length
        = (simplex_loop N betasize verbose st0).iter ∧
      (simplex_loop N betasize verbose st0).log.dropLast
        = List.replicate ((simplex_loop N betasize verbose st0).iter - 1)
            ⟨0, some GSL_CONTINUE⟩) := by
  constructor
  · exact loop_shape_budget MAX_ITERATIONS_w_d (by decide) _ _ rfl rfl (w_d_loop_shape M verbose _)
  · obtain ⟨st0, h0, hi, hl⟩ := simplex_start_some N data betasize likelihood p step_size g
    exact ⟨st0, h0, loop_shape_budget MAX_ITERATIONS (by decide) _ _ hi hl
      (simplex_loop_shape N betasize verbose st0)⟩
/-- C17. Step failure is non-fatal and immediate: if the step of pass `n + 1`
(record `n`) of the loop of `maximum_likelihood_w_d` returns a non-zero status,
that pass makes no convergence test and is the last one, so exactly `n + 1` steps
have been taken, and the function still returns a parameter vector and the
likelihood at that vector (the point of the minimizer having `betasize` entries
and the likelihood function returning); likewise for `maximum_likelihood` when a
starting point is supplied. -/
theorem step_failure_ends_the_loop {α S T : Type} [LinearOrderedField α]
    (M : gsl_multimin_fdfminimizer α S) (N : gsl_multimin_fminimizer α T)
    (data : gsl_matrix α) (betasize : Nat) (likelihood : likelihood_fn α)
    (d_likelihood : d_likelihood_fn α) (fdf : fdf_fn α) (starting_pt : Option (Nat → α))
    (p : Nat → α) (step_size : α) (verbose : Int) (g : Globals α)
    (hM : ∀ s, (M.x s).size = betasize) (hN : ∀ s, (N.x s).size = betasize)
    (hl : ∀ (b : gsl_vector α) (g1 : Globals α), (likelihood b data g1).isSome)
    (n : Nat) (rec : IterationRecord) (hstep : rec.step ≠ 0) :
    ((w_d_loop M verbose (w_d_start M data betasize likelihood d_likelihood fdf
        starting_pt step_size g)).log[n]? = some rec →
      rec.test = none ∧
      (w_d_loop M verbose (w_d_start M data betasize likelihood d_likelihood fdf
        starting_pt step_size g)).log.length = n + 1 ∧
      ∃ r, maximum_likelihood_w_d M data betasize likelihood d_likelihood fdf starting_pt
          step_size verbose g = some r ∧
        r.iter = n + 1 ∧ r.log.length = n + 1 ∧
        likelihood r.betas data (w_d_loop M verbose (w_d_start M data betasize likelihood
          d_likelihood fdf starting_pt step_size g)).g = some (r.value, r.g)) ∧
    (∃ st0, simplex_start N data betasize likelihood (some p) step_size g = some st0 ∧
      ((simplex_loop N betasize verbose st0).log[n]? = some rec →
        rec.test = none ∧
        (simplex_loop N betasize verbose st0).log.length = n + 1 ∧
        ∃ r, maximum_likelihood N data betasize likelihood (some p) step_size verbose g
            = some r ∧
          r.iter = n + 1 ∧ r.log.length = n + 1 ∧
          likelihood r.betas data (simplex_loop N betasize verbose st0).g
            = some (r.value, r.g))) := by
  constructor
  · intro hrec
    obtain ⟨h1, h2, h3, _⟩ := loop_shape_failure MAX_ITERATIONS_w_d _ _ rfl rfl
      (w_d_loop_shape M verbose _) n rec hrec hstep
    obtain ⟨r, hr⟩ := maximum_likelihood_w_d_total M data betasize likelihood d_likelihood fdf
      starting_pt step_size verbose g (hM _) hl
    obtain ⟨_, _, e3, e4, e5⟩ := maximum_likelihood_w_d_some M data betasize likelihood
      d_likelihood fdf starting_pt step_size verbose g r hr
    exact ⟨h1, h2, r, hr, by rw [e4, h3], by rw [e5, h2], e3⟩
  · obtain ⟨st0, h0, hi, hlog⟩ := simplex_start_some N data betasize likelihood p step_size g
    refine ⟨st0, h0, fun hrec => ?_⟩
    obtain ⟨h1, h2, h3, _⟩ := loop_shape_failure MAX_ITERATIONS _ _ hi hlog
      (simplex_loop_shape N betasize verbose st0) n rec hrec hstep
    obtain ⟨r, hr⟩ := maximum_likelihood_total N data betasize likelihood p step_size
      verbose g hN hl
    obtain ⟨st1, h0', _, _, e3, e4, e5⟩ := maximum_likelihood_some N data betasize likelihood
      (some p) step_size verbose g r hr
    rw [h0] at h0'
    simp only [Option.some.injEq] at h0'
    subst h0'
    exact ⟨h1, h2, r, hr, by rw [e4, h3], by rw [e5, h2], e3⟩

/-- The record of the loop of `maximum_likelihood_w_d` with the example minimizer
whose every step fails. -/
theorem example_failing_run :
    (w_d_loop (example_fdfminimizer 1 2) 0
      (w_d_start (example_fdfminimizer 1 2) (gsl_matrix.ofRows 1 2 [[0, 7]]) 2
        example_likelihood (fun _ _ df g => some (df, g)) (fun _ _ df g => some (0, df, g))
        none 1 ⟨none, 0⟩)).log = [⟨1, none⟩] := by
  rw [w_d_loop]
  simp [example_fdfminimizer, w_d_start]

/-- Witness of C17 with the example minimizer whose first step fails. -/
theorem step_failure_ends_the_loop_witness :
    (∀ s, ((example_fdfminimizer 1 2).x s).size = 2) ∧
    (∀ s, ((example_fminimizer 1 2).x s).size = 2) ∧
    (∀ (b : gsl_vector ℚ) (g1 : Globals ℚ),
      (example_likelihood b (gsl_matrix.ofRows 1 2 [[0, 7]]) g1).isSome) ∧
    (⟨1, none⟩ : IterationRecord).step ≠ 0 ∧
    (w_d_loop (example_fdfminimizer 1 2) 0
      (w_d_start (example_fdfminimizer 1 2) (gsl_matrix.ofRows 1 2 [[0, 7]]) 2
        example_likelihood (fun _ _ df g => some (df, g)) (fun _ _ df g => some (0, df, g))
        none 1 ⟨none, 0⟩)).log[0]? = some ⟨1, none⟩ ∧
    (w_d_loop (example_fdfminimizer 1 2) 0
      (w_d_start (example_fdfminimizer 1 2) (gsl_matrix.ofRows 1 2 [[0, 7]]) 2
        example_likelihood (fun _ _ df g => some (df, g)) (fun _ _ df g => some (0, df, g))
        none 1 ⟨none, 0⟩)).log.length = 0 + 1 :=
  ⟨fun _ => rfl, fun _ => rfl, fun _ _ => rfl, by decide, by rw [example_failing_run]; rfl,
   ((step_failure_ends_the_loop (example_fdfminimizer 1 2) (example_fminimizer 1 2)
      (gsl_matrix.ofRows 1 2 [[0, 7]]) 2 example_likelihood (fun _ _ df g => some (df, g))
      (fun _ _ df g => some (0, df, g)) none (fun _ => 0) 1 0 ⟨none, 0⟩
      (fun _ => rfl) (fun _ => rfl) (fun _ _ => rfl) 0 ⟨1, none⟩ (by decide)).1
      (by rw [example_failing_run]; rfl)).2.1⟩

/-- C18. Entry-point wiring: `apop_mle_probit`, `apop_mle_waring`, `apop_mle_yule`
and `apop_mle_zipf` run `maximum_likelihood_w_d` with the likelihood, gradient and
combined functions of their family and the parameter counts `size2 - 1`, 2, 1
and 1; the vector they return has that length; and the minimizer is set at the
all-zero vector of `betasize` entries when no starting point is given, at the
vector of the supplied starting point otherwise. -/
theorem entry_point_wiring {α S : Type} [LinearOrderedField α]
    (M : gsl_multimin_fdfminimizer α S) (log gsl_sf_lngamma gsl_sf_psi : α → α)
    (gsl_cdf_gaussian_P gsl_ran_gaussian_pdf : α → α → α)
    (data : gsl_matrix α) (starting_pt : Option (Nat → α)) (p : Nat → α) (step_size : α)
    (verbose : Int) (g : Globals α) (betasize : Nat) (likelihood : likelihood_fn α)
    (d_likelihood : d_likelihood_fn α) (fdf : fdf_fn α) :
    (apop_mle_probit M log gsl_cdf_gaussian_P gsl_ran_gaussian_pdf data starting_pt step_size
        verbose g
      = maximum_likelihood_w_d M data (data.size2 - 1)
          (probit_likelihood log gsl_cdf_gaussian_P)
          (d_probit_likelihood gsl_cdf_gaussian_P gsl_ran_gaussian_pdf)
          (probit_fdf log gsl_cdf_gaussian_P gsl_ran_gaussian_pdf)
          starting_pt step_size verbose g) ∧
    (apop_mle_waring M log gsl_sf_lngamma gsl_sf_psi data starting_pt step_size verbose g
      = maximum_likelihood_w_d M data 2
          (fun beta d g => some (waring_likelihood log gsl_sf_lngamma beta d, g))
          (fun beta d df g => some (d_waring_likelihood gsl_sf_psi beta d df, g))
          (fun beta d df g =>
            some ((waring_fdf log gsl_sf_lngamma gsl_sf_psi beta d df).1,
              (waring_fdf log gsl_sf_lngamma gsl_sf_psi beta d df).2, g))
          starting_pt step_size verbose g) ∧
    (apop_mle_yule M log gsl_sf_lngamma gsl_sf_psi data starting_pt step_size verbose g
      = maximum_likelihood_w_d M data 1
          (fun beta d g => some (yule_likelihood log gsl_sf_lngamma beta d, g))
          (fun beta d df g => some (d_yule_likelihood gsl_sf_psi beta d df, g))
          (fun beta d df g =>
            some ((yule_fdf log gsl_sf_lngamma gsl_sf_psi beta d df).1,
              (yule_fdf log gsl_sf_lngamma gsl_sf_psi beta d df).2, g))
          starting_pt step_size verbose g) ∧
    (apop_mle_zipf M log data starting_pt step_size verbose g
      = maximum_likelihood_w_d M data 1
          (fun beta d g => some (zipf_likelihood log beta d, g))
          (fun beta d df g => some (d_zipf_likelihood log beta d df, g))
          (fun beta d df g => some ((zipf_fdf log beta d df).1, (zipf_fdf log beta d df).2, g))
          starting_pt step_size verbose g) ∧
    (∀ r, apop_mle_probit M log gsl_cdf_gaussian_P gsl_ran_gaussian_pdf data starting_pt
        step_size verbose g = some r → r.betas.size = data.size2 - 1) ∧
    (∀ r, apop_mle_waring M log gsl_sf_lngamma gsl_sf_psi data starting_pt step_size verbose g
        = some r → r.betas.size = 2) ∧
    (∀ r, apop_mle_yule M log gsl_sf_lngamma gsl_sf_psi data starting_pt step_size verbose g
        = some r → r.betas.size = 1) ∧
    (∀ r, apop_mle_zipf M log data starting_pt step_size verbose g = some r →
        r.betas.size = 1) ∧
    ((∀ s, (M.x s).size = 2) →
      ∃ r, apop_mle_waring M log gsl_sf_lngamma gsl_sf_psi data starting_pt step_size verbose g
        = some r ∧ r.betas.size = 2) ∧
    (w_d_start M data betasize likelihood d_likelihood fdf none step_size g).s
      = (M.gsl_multimin_fdfminimizer_set (M.gsl_multimin_fdfminimizer_alloc betasize)
          { f := likelihood, df := d_likelihood, fdf := fdf, n := betasize, params := data }
          { size := betasize, data := fun _ => 0 } 0.001 0.0001 g).1 ∧
    (w_d_start M data betasize likelihood d_likelihood fdf (some p) step_size g).s
      = (M.gsl_multimin_fdfminimizer_set (M.gsl_multimin_fdfminimizer_alloc betasize)
          { f := likelihood, df := d_likelihood, fdf := fdf, n := betasize, params := data }
          { size := betasize, data := p } 0.001 0.0001 g).1 := by
  refine ⟨rfl, rfl, rfl, rfl, fun r h => ?_, fun r h => ?_, fun r h => ?_, fun r h => ?_,
    fun hM => ?_, rfl, rfl⟩
  · exact (maximum_likelihood_w_d_some M data _ _ _ _ starting_pt step_size verbose g r h).2.1
  · exact (maximum_likelihood_w_d_some M data _ _ _ _ starting_pt step_size verbose g r h).2.1
  · exact (maximum_likelihood_w_d_some M data _ _ _ _ starting_pt step_size verbose g r h).2.1
  · exact (maximum_likelihood_w_d_some M data _ _ _ _ starting_pt step_size verbose g r h).2.1
  · obtain ⟨r, hr⟩ := maximum_likelihood_w_d_total M data 2
      (fun beta d g => some (waring_likelihood log gsl_sf_lngamma beta d, g))
      (fun beta d df g => some (d_waring_likelihood gsl_sf_psi beta d df, g))
      (fun beta d df g =>
        some ((waring_fdf log gsl_sf_lngamma gsl_sf_psi beta d df).1,
          (waring_fdf log gsl_sf_lngamma gsl_sf_psi beta d df).2, g))
      starting_pt step_size verbose g (hM _) (fun _ _ => rfl)
    exact ⟨r, hr, (maximum_likelihood_w_d_some M data _ _ _ _ starting_pt step_size verbose
      g r hr).2.1⟩

/-- Witness of C18: `apop_mle_waring` with the example minimizer and no starting
point returns a vector of two entries. -/
theorem entry_point_wiring_witness :
    (∀ s, ((example_fdfminimizer 0 2).x s).size = 2) ∧
    ∃ r, apop_mle_waring (example_fdfminimizer 0 2) (fun x : ℚ => x) (fun x => x)
        (fun x => x) (gsl_matrix.ofRows 1 2 [[0, 7]]) none 1 0 ⟨none, 0⟩ = some r ∧
      r.betas.size = 2 :=
  ⟨fun _ => rfl,
   (entry_point_wiring (example_fdfminimizer 0 2) (fun x : ℚ => x) (fun x => x) (fun x => x)
      (fun x _ => x) (fun x _ => x) (gsl_matrix.ofRows 1 2 [[0, 7]]) none (fun _ => 0) 1 0
      ⟨none, 0⟩ 2 example_likelihood (fun _ _ df g => some (df, g))
      (fun _ _ df g => some (0, df, g))).2.2.2.2.2.2.2.2.1 (fun _ => rfl)⟩

/-- C19. Likelihood evaluation stays in domain: `waring_likelihood`,
`yule_likelihood` and `zipf_likelihood` (with the real logarithm), run together
with the list of the evaluations they make, return their usual value, make no
evaluation when the guard triggers, and otherwise hand only strictly positive
arguments to `log` and `gsl_sf_lngamma`. -/
theorem likelihood_evaluations_in_domain (gsl_sf_lngamma : ℝ → ℝ) (beta : gsl_vector ℝ)
    (d : gsl_matrix ℝ) :
    ((waring_likelihood_traced Real.log gsl_sf_lngamma beta d).1
        = waring_likelihood Real.log gsl_sf_lngamma beta d ∧
      ((beta.data 0 ≤ 2 ∨ beta.data 1 ≤ -1) →
        (waring_likelihood_traced Real.log gsl_sf_lngamma beta d).2 = []) ∧
      ∀ c ∈ (waring_likelihood_traced Real.log gsl_sf_lngamma beta d).2, c.in_domain) ∧
    ((yule_likelihood_traced Real.log gsl_sf_lngamma beta d).1
        = yule_likelihood Real.log gsl_sf_lngamma beta d ∧
      (beta.data 0 ≤ 2 →
        (yule_likelihood_traced Real.log gsl_sf_lngamma beta d).2 = []) ∧
      ∀ c ∈ (yule_likelihood_traced Real.log gsl_sf_lngamma beta d).2, c.in_domain) ∧
    ((zipf_likelihood_traced Real.log beta d).1 = zipf_likelihood Real.log beta d ∧
      (beta.data 0 ≤ 1 → (zipf_likelihood_traced Real.log beta d).2 = []) ∧
      ∀ c ∈ (zipf_likelihood_traced Real.log beta d).2, c.in_domain) := by
  refine ⟨⟨(waring_likelihood_traced_eq _ _ beta d).1, fun h => ?_,
      waring_likelihood_calls_in_domain _ _ beta d⟩,
    ⟨(yule_likelihood_traced_eq _ _ beta d).1, fun h => ?_,
      yule_likelihood_calls_in_domain _ _ beta d⟩,
    ⟨(zipf_likelihood_traced_eq _ beta d).1, fun h => ?_,
      zipf_likelihood_calls_in_domain beta d⟩⟩
  · rw [(waring_likelihood_traced_eq _ _ beta d).2, if_pos h]
  · rw [(yule_likelihood_traced_eq _ _ beta d).2, if_pos h]
  · rw [(zipf_likelihood_traced_eq _ beta d).2, if_pos h]

/-- Witness of C19: at `b = 2` the guard of `yule_likelihood` triggers and nothing
is evaluated; at `b = 3`, `a = 0` the call `gsl_sf_lngamma (1 + 0 + 3)` made by
`waring_likelihood` on the matrix `[[0, 7]]` is in domain. -/
theorem likelihood_evaluations_in_domain_witness :
    (gsl_vector.ofList [(2 : ℝ)]).data 0 ≤ 2 ∧
    (yule_likelihood_traced Real.log (fun x => Real.log (Real.Gamma x))
      (gsl_vector.ofList [2]) (gsl_matrix.ofRows 1 2 [[0, 7]])).2 = [] ∧
    Call.lngamma ((1 : ℝ) + 0 + 3) ∈
      (waring_likelihood_traced Real.log (fun x => Real.log (Real.Gamma x))
        (gsl_vector.ofList [3, 0]) (gsl_matrix.ofRows 1 2 [[0, 7]])).2 ∧
    (Call.lngamma ((1 : ℝ) + 0 + 3)).in_domain := by
  have hmem : Call.lngamma ((1 : ℝ) + 0 + 3) ∈
      (waring_likelihood_traced Real.log (fun x => Real.log (Real.Gamma x))
        (gsl_vector.ofList [3, 0]) (gsl_matrix.ofRows 1 2 [[0, 7]])).2 := by
    rw [(waring_likelihood_traced_eq _ _ _ _).2,
      if_neg (by norm_num [gsl_vector.ofList]),
      forLoop_nested_append_mem (fun _ k =>
        [Call.lngamma ((k : ℝ) + (gsl_vector.ofList [(3 : ℝ), 0]).data 1
            + (gsl_vector.ofList [(3 : ℝ), 0]).data 0),
          Call.lngamma ((k : ℝ) + (gsl_vector.ofList [(3 : ℝ), 0]).data 1)])]
    refine Or.inr ⟨1, le_refl 1, by simp [gsl_matrix.ofRows], 0, le_refl 0,
      by simp [gsl_matrix.ofRows], ?_⟩
    simp [gsl_vector.ofList]
  exact ⟨by norm_num [gsl_vector.ofList],
    (likelihood_evaluations_in_domain (fun x => Real.log (Real.Gamma x))
      (gsl_vector.ofList [2]) (gsl_matrix.ofRows 1 2 [[0, 7]])).2.1.2.1
      (by norm_num [gsl_vector.ofList]),
    hmem,
    (likelihood_evaluations_in_domain (fun x => Real.log (Real.Gamma x))
      (gsl_vector.ofList [3, 0]) (gsl_matrix.ofRows 1 2 [[0, 7]])).1.2.2 _ hmem⟩

/-- C20 (the code departs from it). The gradient functions have no guard.  Run
together with the list of the evaluations they make, they return their usual
gradient, and for every data matrix: at the all-zero parameter vector
`d_waring_likelihood` and `d_yule_likelihood` call `gsl_sf_psi` at 0 and
`d_zipf_likelihood` calls `log` at 0; at `b = 1` `d_waring_likelihood` and
`d_yule_likelihood` divide 1 by `b - 1 = 0`; and `waring_fdf`, `yule_fdf` and
`zipf_fdf` make the same evaluations at the all-zero vector, after a likelihood
call that returned `GSL_POSINF`. -/
theorem gradient_evaluations_out_of_domain {α : Type} [LinearOrderedField α]
    (log gsl_sf_lngamma gsl_sf_psi : α → α) (beta : gsl_vector α) (d : gsl_matrix α)
    (gradient : gsl_vector α) :
    ((d_waring_likelihood_traced gsl_sf_psi beta d gradient).1
        = d_waring_likelihood gsl_sf_psi beta d gradient ∧
      (d_yule_likelihood_traced gsl_sf_psi beta d gradient).1
        = d_yule_likelihood gsl_sf_psi beta d gradient ∧
      (d_zipf_likelihood_traced log beta d gradient).1
        = d_zipf_likelihood log beta d gradient ∧
      (waring_fdf_traced log gsl_sf_lngamma gsl_sf_psi beta d gradient).1
        = waring_fdf log gsl_sf_lngamma gsl_sf_psi beta d gradient ∧
      (yule_fdf_traced log gsl_sf_lngamma gsl_sf_psi beta d gradient).1
        = yule_fdf log gsl_sf_lngamma gsl_sf_psi beta d gradient ∧
      (zipf_fdf_traced log beta d gradient).1 = zipf_fdf log beta d gradient) ∧
    (Call.psi (0 : α) ∈
        (d_waring_likelihood_traced gsl_sf_psi (gsl_vector.ofList [0, 0]) d gradient).2 ∧
      Call.psi (0 : α) ∈
        (d_yule_likelihood_traced gsl_sf_psi (gsl_vector.ofList [0]) d gradient).2 ∧
      Call.log (0 : α) ∈
        (d_zipf_likelihood_traced log (gsl_vector.ofList [0]) d gradient).2 ∧
      Call.div (1 : α) 0 ∈
        (d_waring_likelihood_traced gsl_sf_psi (gsl_vector.ofList [1, 0]) d gradient).2 ∧
      Call.div (1 : α) 0 ∈
        (d_yule_likelihood_traced gsl_sf_psi (gsl_vector.ofList [1]) d gradient).2) ∧
    (Call.psi (0 : α) ∈
        (waring_fdf_traced log gsl_sf_lngamma gsl_sf_psi (gsl_vector.ofList [0, 0]) d
          gradient).2 ∧
      (waring_fdf_traced log gsl_sf_lngamma gsl_sf_psi (gsl_vector.ofList [0, 0]) d
          gradient).1.1 = ⊤ ∧
      Call.psi (0 : α) ∈
        (yule_fdf_traced log gsl_sf_lngamma gsl_sf_psi (gsl_vector.ofList [0]) d gradient).2 ∧
      (yule_fdf_traced log gsl_sf_lngamma gsl_sf_psi (gsl_vector.ofList [0]) d
          gradient).1.1 = ⊤ ∧
      Call.log (0 : α) ∈ (zipf_fdf_traced log (gsl_vector.ofList [0]) d gradient).2 ∧
      (zipf_fdf_traced log (gsl_vector.ofList [0]) d gradient).1.1 = ⊤) ∧
    (¬ (Call.psi (0 : α)).in_domain ∧ ¬ (Call.log (0 : α)).in_domain ∧
      ¬ (Call.div (1 : α) 0).in_domain) := by
  have hw0 : Call.psi (0 : α) ∈
      (d_waring_likelihood_traced gsl_sf_psi (gsl_vector.ofList [0, 0]) d gradient).2 := by
    rw [(d_waring_likelihood_traced_eq _ _ _ _).2, forLoop_nested_append_mem (fun _ k =>
      [Call.psi ((k : α) + (gsl_vector.ofList [(0 : α), 0]).data 1
          + (gsl_vector.ofList [(0 : α), 0]).data 0),
        Call.psi ((k : α) + (gsl_vector.ofList [(0 : α), 0]).data 1)])]
    left
    simp [gsl_vector.ofList]
  have hy0 : Call.psi (0 : α) ∈
      (d_yule_likelihood_traced gsl_sf_psi (gsl_vector.ofList [0]) d gradient).2 := by
    rw [(d_yule_likelihood_traced_eq _ _ _ _).2, forLoop_nested_append_mem (fun _ k =>
      [Call.psi ((k : α) + (gsl_vector.ofList [(0 : α)]).data 0)])]
    left
    simp [gsl_vector.ofList]
  have hz0 : Call.log (0 : α) ∈
      (d_zipf_likelihood_traced log (gsl_vector.ofList [0]) d gradient).2 := by
    rw [(d_zipf_likelihood_traced_eq _ _ _ _).2, forLoop_nested_append_mem (fun k i =>
      [Call.div 1 (log ((gsl_vector.ofList [(0 : α)]).data 0)),
        Call.div (d.data i k * (1 / log ((gsl_vector.ofList [(0 : α)]).data 0) - (k : α)))
          ((gsl_vector.ofList [(0 : α)]).data 0)])]
    left
    simp [gsl_vector.ofList]
  have hw1 : Call.div (1 : α) 0 ∈
      (d_waring_likelihood_traced gsl_sf_psi (gsl_vector.ofList [1, 0]) d gradient).2 := by
    rw [(d_waring_likelihood_traced_eq _ _ _ _).2, forLoop_nested_append_mem (fun _ k =>
      [Call.psi ((k : α) + (gsl_vector.ofList [(1 : α), 0]).data 1
          + (gsl_vector.ofList [(1 : α), 0]).data 0),
        Call.psi ((k : α) + (gsl_vector.ofList [(1 : α), 0]).data 1)])]
    left
    simp [gsl_vector.ofList]
  have hy1 : Call.div (1 : α) 0 ∈
      (d_yule_likelihood_traced gsl_sf_psi (gsl_vector.ofList [1]) d gradient).2 := by
    rw [(d_yule_likelihood_traced_eq _ _ _ _).2, forLoop_nested_append_mem (fun _ k =>
      [Call.psi ((k : α) + (gsl_vector.ofList [(1 : α)]).data 0)])]
    left
    simp [gsl_vector.ofList]
  have hfw : (waring_fdf_traced log gsl_sf_lngamma gsl_sf_psi beta d gradient).1
      = waring_fdf log gsl_sf_lngamma gsl_sf_psi beta d gradient := by
    unfold waring_fdf_traced waring_fdf
    dsimp only
    rw [(waring_likelihood_traced_eq _ _ _ _).1, (d_waring_likelihood_traced_eq _ _ _ _).1]
  have hfy : (yule_fdf_traced log gsl_sf_lngamma gsl_sf_psi beta d gradient).1
      = yule_fdf log gsl_sf_lngamma gsl_sf_psi beta d gradient := by
    unfold yule_fdf_traced yule_fdf
    dsimp only
    rw [(yule_likelihood_traced_eq _ _ _ _).1, (d_yule_likelihood_traced_eq _ _ _ _).1]
  have hfz : (zipf_fdf_traced log beta d gradient).1 = zipf_fdf log beta d gradient := by
    unfold zipf_fdf_traced zipf_fdf
    dsimp only
    rw [(zipf_likelihood_traced_eq _ _ _).1, (d_zipf_likelihood_traced_eq _ _ _ _).1]
  refine ⟨⟨(d_waring_likelihood_traced_eq _ _ _ _).1, (d_yule_likelihood_traced_eq _ _ _ _).1,
      (d_zipf_likelihood_traced_eq _ _ _ _).1, hfw, hfy, hfz⟩,
    ⟨hw0, hy0, hz0, hw1, hy1⟩,
    ⟨List.mem_append_right _ hw0, ?_, List.mem_append_right _ hy0, ?_,
      List.mem_append_right _ hz0, ?_⟩,
    ⟨?_, ?_, ?_⟩⟩
  · simp [waring_fdf_traced, waring_likelihood_traced, gsl_vector_get, gsl_vector.ofList,
      GSL_POSINF]
  · simp [yule_fdf_traced, yule_likelihood_traced, gsl_vector_get, gsl_vector.ofList,
      GSL_POSINF]
  · simp [zipf_fdf_traced, zipf_likelihood_traced, gsl_vector_get, gsl_vector.ofList,
      GSL_POSINF]
  · simp [Call.in_domain]
  · simp [Call.in_domain]
  · simp [Call.in_domain]

/-- C21 (the code departs from it). The diagnostic is printed whenever the counter
is 500 when the loop is left, whatever the last status is.  With the example
minimizers of a run of exactly 500 steps, verbose output on:
`maximum_likelihood_w_d` prints `Minimum found.` and `No min!!` on the run whose
500th convergence test says `GSL_SUCCESS`, and prints `No min!!` on the run whose
500th step fails; `maximum_likelihood` prints `Minimum found at:` and
`Minimization reached maximum number of iterations.` on the first kind of run,
and the latter text on the second. -/
theorem diagnostic_printed_at_500_whatever_the_status :
    (∃ r, maximum_likelihood_w_d (example_fdfminimizer_run 500 0 2)
        (gsl_matrix.ofRows 1 2 [[0, 7]]) 2 example_likelihood
        (fun _ _ df g => some (df, g)) (fun _ _ df g => some (0, df, g)) none 1 1
        ⟨none, 0⟩ = some r ∧
      r.iter = 500 ∧ r.log.getLast? = some ⟨0, some GSL_SUCCESS⟩ ∧
      Printed.minimum_found ∈ r.out ∧ Printed.no_min ∈ r.out) ∧
    (∃ r, maximum_likelihood_w_d (example_fdfminimizer_run 500 1 2)
        (gsl_matrix.ofRows 1 2 [[0, 7]]) 2 example_likelihood
        (fun _ _ df g => some (df, g)) (fun _ _ df g => some (0, df, g)) none 1 1
        ⟨none, 0⟩ = some r ∧
      r.iter = 500 ∧ r.log.getLast? = some ⟨1, none⟩ ∧ Printed.no_min ∈ r.out) ∧
    (∃ r, maximum_likelihood (example_fminimizer_run 500 0 2)
        (gsl_matrix.ofRows 1 2 [[0, 7]]) 2 example_likelihood (some (fun _ => 0)) 1 1
        ⟨none, 0⟩ = some r ∧
      r.iter = 500 ∧ r.log.getLast? = some ⟨0, some GSL_SUCCESS⟩ ∧
      Printed.minimum_found_at ∈ r.out ∧ Printed.reached_maximum ∈ r.out) ∧
    (∃ r, maximum_likelihood (example_fminimizer_run 500 1 2)
        (gsl_matrix.ofRows 1 2 [[0, 7]]) 2 example_likelihood (some (fun _ => 0)) 1 1
        ⟨none, 0⟩ = some r ∧
      r.iter = 500 ∧ r.log.getLast? = some ⟨1, none⟩ ∧ Printed.reached_maximum ∈ r.out) := by
  refine ⟨?_, ?_, ?_, ?_⟩
  · obtain ⟨r, h1, h2, h3, h4, h5⟩ := example_w_d_run_500 0 1
    exact ⟨r, h1, h2, by simpa using h3, h5 rfl (by decide), h4⟩
  · obtain ⟨r, h1, h2, h3, h4, _⟩ := example_w_d_run_500 1 1
    exact ⟨r, h1, h2, by simpa using h3, h4⟩
  · obtain ⟨r, h1, h2, h3, h4, h5⟩ := example_simplex_run_500 0 1
    exact ⟨r, h1, h2, by simpa using h3, h5 rfl (by decide), h4⟩
  · obtain ⟨r, h1, h2, h3, h4, _⟩ := example_simplex_run_500 1 1
    exact ⟨r, h1, h2, by simpa using h3, h4⟩

/-- C22 (the code departs from it). On the matrix `[[1]]`, whose entries are
non-negative and whose one count is strictly positive, the value of
`zipf_likelihood` read as a real number (with 0 in the place of the plus infinity
returned at `b ≤ 1`) is 0 at every `b`, the value at `b = 2` is the number 0, and
the value does not tend to plus infinity as `b` tends to 1 from above: the count
sits in row 0, which `zipf_likelihood` never reads. -/
theorem zipf_boundary_no_divergence_on_row_zero :
    (∀ b : ℝ, (zipf_likelihood Real.log (gsl_vector.ofList [b])
        (gsl_matrix.ofRows 1 1 [[1]])).untop' 0 = 0) ∧
    zipf_likelihood Real.log (gsl_vector.ofList [2]) (gsl_matrix.ofRows 1 1 [[1]])
      = ((0 : ℝ) : WithTop ℝ) ∧
    ¬ Filter.Tendsto
      (fun b : ℝ => (zipf_likelihood Real.log (gsl_vector.ofList [b])
        (gsl_matrix.ofRows 1 1 [[1]])).untop' 0)
      (nhdsWithin 1 (Set.Ioi 1)) Filter.atTop := by
  refine ⟨zipf_likelihood_one_row, ?_, ?_⟩
  · rw [zipf_likelihood_sum _ _ _ (by norm_num [gsl_vector.ofList])]
    simp [gsl_matrix.ofRows]
  · have h : (fun b : ℝ => (zipf_likelihood Real.log (gsl_vector.ofList [b])
        (gsl_matrix.ofRows 1 1 [[1]])).untop' 0) = fun _ => (0 : ℝ) :=
      funext zipf_likelihood_one_row
    rw [h]
    exact Filter.not_tendsto_const_atTop 0 _

/-- C23. The step size and the verbose flag do not influence the gradient-based
result: two calls of `maximum_likelihood_w_d`, and of each of `apop_mle_probit`,
`apop_mle_waring`, `apop_mle_yule` and `apop_mle_zipf`, that differ only in
`step_size` and `verbose` both fail or return the same value and the same
parameter vector; and the loop is entered with the minimizer in the state that
`gsl_multimin_fdfminimizer_set` gives with the step scale 0.001 and the tolerance
0.0001, whatever `step_size` is. -/
theorem step_size_and_verbose_do_not_influence_the_result {α S : Type}
    [LinearOrderedField α] (M : gsl_multimin_fdfminimizer α S)
    (log gsl_sf_lngamma gsl_sf_psi : α → α)
    (gsl_cdf_gaussian_P gsl_ran_gaussian_pdf : α → α → α)
    (data : gsl_matrix α) (betasize : Nat) (likelihood : likelihood_fn α)
    (d_likelihood : d_likelihood_fn α) (fdf : fdf_fn α) (starting_pt : Option (Nat → α))
    (step_size step_size' : α) (verbose verbose' : Int) (g : Globals α) :
    ((maximum_likelihood_w_d M data betasize likelihood d_likelihood fdf starting_pt
        step_size verbose g).map (fun r => (r.value, r.betas))
      = (maximum_likelihood_w_d M data betasize likelihood d_likelihood fdf starting_pt
        step_size' verbose' g).map (fun r => (r.value, r.betas))) ∧
    ((apop_mle_probit M log gsl_cdf_gaussian_P gsl_ran_gaussian_pdf data starting_pt
        step_size verbose g).map (fun r => (r.value, r.betas))
      = (apop_mle_probit M log gsl_cdf_gaussian_P gsl_ran_gaussian_pdf data starting_pt
        step_size' verbose' g).map (fun r => (r.value, r.betas))) ∧
    ((apop_mle_waring M log gsl_sf_lngamma gsl_sf_psi data starting_pt
        step_size verbose g).map (fun r => (r.value, r.betas))
      = (apop_mle_waring M log gsl_sf_lngamma gsl_sf_psi data starting_pt
        step_size' verbose' g).map (fun r => (r.value, r.betas))) ∧
    ((apop_mle_yule M log gsl_sf_lngamma gsl_sf_psi data starting_pt
        step_size verbose g).map (fun r => (r.value, r.betas))
      = (apop_mle_yule M log gsl_sf_lngamma gsl_sf_psi data starting_pt
        step_size' verbose' g).map (fun r => (r.value, r.betas))) ∧
    ((apop_mle_zipf M log data starting_pt step_size verbose g).map
        (fun r => (r.value, r.betas))
      = (apop_mle_zipf M log data starting_pt step_size' verbose' g).map
        (fun r => (r.value, r.betas))) ∧
    (w_d_start M data betasize likelihood d_likelihood fdf starting_pt step_size g
      = { iter := 0, status := 0,
          s := (M.gsl_multimin_fdfminimizer_set (M.gsl_multimin_fdfminimizer_alloc betasize)
            { f := likelihood, df := d_likelihood, fdf := fdf, n := betasize, params := data }
            (match starting_pt with
              | none => gsl_vector_set_all (gsl_vector_alloc betasize) 0
              | some p => apop_convert_array_to_vector p betasize) 0.001 0.0001 g).1,
          g := (M.gsl_multimin_fdfminimizer_set (M.gsl_multimin_fdfminimizer_alloc betasize)
            { f := likelihood, df := d_likelihood, fdf := fdf, n := betasize, params := data }
            (match starting_pt with
              | none => gsl_vector_set_all (gsl_vector_alloc betasize) 0
              | some p => apop_convert_array_to_vector p betasize) 0.001 0.0001 g).2,
          out := [], log := [] }) := by
  have key : ∀ (n : Nat) (l : likelihood_fn α) (dl : d_likelihood_fn α) (f : fdf_fn α),
      (maximum_likelihood_w_d M data n l dl f starting_pt step_size verbose g).map
          (fun r => (r.value, r.betas))
        = (maximum_likelihood_w_d M data n l dl f starting_pt step_size' verbose' g).map
          (fun r => (r.value, r.betas)) := by
    intro n l dl f
    have h := congrArg (Option.map (fun t : WithTop α × gsl_vector α × Globals α × Nat
        × List IterationRecord => (t.1, t.2.1)))
      (maximum_likelihood_w_d_step_verbose M data n l dl f starting_pt step_size step_size'
        verbose verbose' g)
    simpa only [Option.map_map, Function.comp_def] using h
  exact ⟨key _ _ _ _, key _ _ _ _, key _ _ _ _, key _ _ _ _, key _ _ _ _, rfl⟩

/-- C24. The default starting point is infeasible for the count families: called
with no starting point, `apop_mle_waring`, `apop_mle_yule` and `apop_mle_zipf`
enter the loop with the minimizer set at the all-zero vector of 2, 1 and 1
entries; at that vector the likelihood function of the family, and the function
handed to the minimizer, return plus infinity for every data matrix; and with a
minimizer that stays where it was set each entry point returns plus infinity and
the all-zero vector. -/
theorem default_start_is_infeasible_for_count_families {α S : Type} [LinearOrderedField α]
    (M : gsl_multimin_fdfminimizer α S) (log gsl_sf_lngamma gsl_sf_psi : α → α)
    (data : gsl_matrix α) (step_size : α) (verbose : Int) (g : Globals α) :
    ((w_d_start M data 2
          (fun beta d g => some (waring_likelihood log gsl_sf_lngamma beta d, g))
          (fun beta d df g => some (d_waring_likelihood gsl_sf_psi beta d df, g))
          (fun beta d df g =>
            some ((waring_fdf log gsl_sf_lngamma gsl_sf_psi beta d df).1,
              (waring_fdf log gsl_sf_lngamma gsl_sf_psi beta d df).2, g))
          none step_size g).s
        = (M.gsl_multimin_fdfminimizer_set (M.gsl_multimin_fdfminimizer_alloc 2)
            { f := fun beta d g => some (waring_likelihood log gsl_sf_lngamma beta d, g),
              df := fun beta d df g => some (d_waring_likelihood gsl_sf_psi beta d df, g),
              fdf := fun beta d df g =>
                some ((waring_fdf log gsl_sf_lngamma gsl_sf_psi beta d df).1,
                  (waring_fdf log gsl_sf_lngamma gsl_sf_psi beta d df).2, g),
              n := 2, params := data }
            { size := 2, data := fun _ => 0 } 0.001 0.0001 g).1 ∧
      waring_likelihood log gsl_sf_lngamma { size := 2, data := fun _ => 0 } data = ⊤ ∧
      ∃ r, apop_mle_waring (example_fdfminimizer_stay α) log gsl_sf_lngamma gsl_sf_psi data
          none step_size verbose g = some r ∧
        r.value = ⊤ ∧ r.betas = { size := 2, data := fun _ => 0 }) ∧
    ((w_d_start M data 1
          (fun beta d g => some (yule_likelihood log gsl_sf_lngamma beta d, g))
          (fun beta d df g => some (d_yule_likelihood gsl_sf_psi beta d df, g))
          (fun beta d df g =>
            some ((yule_fdf log gsl_sf_lngamma gsl_sf_psi beta d df).1,
              (yule_fdf log gsl_sf_lngamma gsl_sf_psi beta d df).2, g))
          none step_size g).s
        = (M.gsl_multimin_fdfminimizer_set (M.gsl_multimin_fdfminimizer_alloc 1)
            { f := fun beta d g => some (yule_likelihood log gsl_sf_lngamma beta d, g),
              df := fun beta d df g => some (d_yule_likelihood gsl_sf_psi beta d df, g),
              fdf := fun beta d df g =>
                some ((yule_fdf log gsl_sf_lngamma gsl_sf_psi beta d df).1,
                  (yule_fdf log gsl_sf_lngamma gsl_sf_psi beta d df).2, g),
              n := 1, params := data }
            { size := 1, data := fun _ => 0 } 0.001 0.0001 g).1 ∧
      yule_likelihood log gsl_sf_lngamma { size := 1, data := fun _ => 0 } data = ⊤ ∧
      ∃ r, apop_mle_yule (example_fdfminimizer_stay α) log gsl_sf_lngamma gsl_sf_psi data
          none step_size verbose g = some r ∧
        r.value = ⊤ ∧ r.betas = { size := 1, data := fun _ => 0 }) ∧
    ((w_d_start M data 1
          (fun beta d g => some (zipf_likelihood log beta d, g))
          (fun beta d df g => some (d_zipf_likelihood log beta d df, g))
          (fun beta d df g =>
            some ((zipf_fdf log beta d df).1, (zipf_fdf log beta d df).2, g))
          none step_size g).s
        = (M.gsl_multimin_fdfminimizer_set (M.gsl_multimin_fdfminimizer_alloc 1)
            { f := fun beta d g => some (zipf_likelihood log beta d, g),
              df := fun beta d df g => some (d_zipf_likelihood log beta d df, g),
              fdf := fun beta d df g =>
                some ((zipf_fdf log beta d df).1, (zipf_fdf log beta d df).2, g),
              n := 1, params := data }
            { size := 1, data := fun _ => 0 } 0.001 0.0001 g).1 ∧
      zipf_likelihood log { size := 1, data := fun _ => 0 } data = ⊤ ∧
      ∃ r, apop_mle_zipf (example_fdfminimizer_stay α) log data
          none step_size verbose g = some r ∧
        r.value = ⊤ ∧ r.betas = { size := 1, data := fun _ => 0 }) := by
  have hw : waring_likelihood log gsl_sf_lngamma { size := 2, data := fun _ => 0 } data = ⊤ := by
    simp [waring_likelihood, gsl_vector_get, GSL_POSINF]
  have hy : yule_likelihood log gsl_sf_lngamma { size := 1, data := fun _ => 0 } data = ⊤ := by
    simp [yule_likelihood, gsl_vector_get, GSL_POSINF]
  have hz : zipf_likelihood log { size := 1, data := fun _ => 0 } data = ⊤ := by
    simp [zipf_likelihood, gsl_vector_get, GSL_POSINF]
  refine ⟨⟨rfl, hw, ?_⟩, ⟨rfl, hy, ?_⟩, ⟨rfl, hz, ?_⟩⟩
  · exact maximum_likelihood_w_d_stay data 2 _ _ _ step_size verbose g ⊤ (by rw [hw])
  · exact maximum_likelihood_w_d_stay data 1 _ _ _ step_size verbose g ⊤ (by rw [hy])
  · exact maximum_likelihood_w_d_stay data 1 _ _ _ step_size verbose g ⊤ (by rw [hz])

end Apophenia
